import Mathlib

/-! gf2vs: vector spaces over GF(2) as machine-word bit vectors

A shallow embedding of `gf2vs.go`.

* Go's `uint` is the 64-bit unsigned word: values are natural numbers and every
  operation that can leave the word (`<<=`, `+=`, `++`, `2*x - 1`) is reduced
  modulo `2 ^ 64` explicitly.
* A Go `map[uint]uint` is a finite association list with one entry per key.
* `panic(...)` and the run-time faults (nil dereference, slice index out of
  range) are the error side of `Except Fault`.
* A `*GF2Vector` may be nil, so vector arguments are `Option GF2Vector`.
* The field `sp *GF2VectorSpace` of a vector may be nil as well: the zero value
  `GF2Vector{}` has no space.  The first embedding (`GF2Vector`, `Not`, `And`,
  `Or`, `Xor`, ...) holds the space as a value and so covers the vectors whose
  space pointer is not nil, which are all the vectors that the constructors and
  operations of the package return.  The second embedding (`Heap`, `VecCell`,
  `NotMem`, `AndMem`, ...) keeps the space pointer as a pointer and covers the
  vectors without a space too; the two are proved to agree on the vectors that
  have a space (`andMem_sim`, `orMem_sim`, `xorMem_sim`, `notMem_sim`,
  `onesCountMem_sim`), and what depends on a vector having a space is stated on
  the second embedding.
-/

namespace Gf2vs

/-! Machine words -/

/-- The constant `bits.UintSize` on the 64-bit target. -/
def UintSize : Nat := 64

/-- Reduction of a natural number to a `uint` (wrap-around of the machine word). -/
def wrap (x : Nat) : Nat := x % 2 ^ UintSize

/-- The library function `bits.OnesCount`: the number of one bits of a `uint`. -/
def bitsOnesCount (x : Nat) : Nat :=
  (List.range UintSize).countP (fun j => x.testBit j)

/-! Faults -/

/-- The ways an operation of the package can abort. -/
inductive Fault where
  /-- An explicit `panic(fmt.Sprintf(...))` with its message. -/
  | panic (msg : String)
  /-- The run-time error of reading through a nil pointer. -/
  | nilDereference
  /-- The run-time error of indexing a slice outside its length. -/
  | indexOutOfRange (index length : Nat)
  deriving DecidableEq, Repr

deriving instance DecidableEq for Except

/-- Reading through a pointer: `*p` or `p.field`. -/
def deref {α : Type} (p : Option α) : Except Fault α :=
  match p with
  | some a => Except.ok a
  | none => Except.error Fault.nilDereference

/-! Go maps -/

/-- A Go `map[uint]uint`: key/value entries, at most one per key. -/
structure GoMap where
  entries : List (Nat × Nat)
  deriving DecidableEq, Repr

namespace GoMap

/-- Result of `make(map[uint]uint, n)`: the empty map. -/
def empty : GoMap := ⟨[]⟩

/-- Replace the entry of key `k`, or add one at the end when there is none. -/
def setEntries (k v : Nat) : List (Nat × Nat) → List (Nat × Nat)
  | [] => [(k, v)]
  | (k', v') :: rest =>
    if k' = k then (k, v) :: rest else (k', v') :: setEntries k v rest

/-- The assignment `m[k] = v`. -/
def set (m : GoMap) (k v : Nat) : GoMap := ⟨setEntries k v m.entries⟩

/-- The value stored under `k`, if any. -/
def getEntries (k : Nat) : List (Nat × Nat) → Option Nat
  | [] => none
  | (k', v') :: rest => if k' = k then some v' else getEntries k rest

/-- The value stored under `k`, if any. -/
def get? (m : GoMap) (k : Nat) : Option Nat := getEntries k m.entries

/-- The one-result read `m[k]`: the zero value when `k` is not a key. -/
def index (m : GoMap) (k : Nat) : Nat := (m.get? k).getD 0

/-- The two-result read `v, ok := m[k]`. -/
def commaOk (m : GoMap) (k : Nat) : Nat × Bool :=
  match m.get? k with
  | some v => (v, true)
  | none => (0, false)

/-- The builtin `len(m)`: the number of keys. -/
def len (m : GoMap) : Nat := m.entries.length

/-- The keys of the map, in the order in which they were first assigned. -/
def keys (m : GoMap) : List Nat := m.entries.map Prod.fst

end GoMap

/-! The vector space -/

/-- The struct `GF2VectorSpace`. -/
structure GF2VectorSpace where
  dim : Nat
  ones : Nat
  baseIndex : GoMap
  baseVector : GoMap
  deriving DecidableEq, Repr

/-- The local variables of `NewGF2VectorSpace` that its loop updates. -/
structure BuildState where
  bit : Nat
  ones : Nat
  index : Nat
  baseIndex : GoMap
  baseVector : GoMap
  deriving DecidableEq, Repr

/-- The locals of `NewGF2VectorSpace` on entry to the loop. -/
def buildInit : BuildState :=
  { bit := 1, ones := 1, index := 1,
    baseIndex := GoMap.empty.set 1 1,
    baseVector := GoMap.empty.set 1 1 }

/-- One pass through the loop body of `NewGF2VectorSpace`. -/
def buildStep (st : BuildState) : BuildState :=
  let bit := wrap (st.bit <<< 1)
  let ones := wrap (st.ones <<< 1)
  let ones := wrap (ones + 1)
  let index := wrap (st.index + 1)
  { bit := bit, ones := ones, index := index,
    baseIndex := st.baseIndex.set bit index,
    baseVector := st.baseVector.set index bit }

/-- The loop `for i := uint(1); i < n; i++` of `NewGF2VectorSpace`, given the
number of passes left.  The body does not read `i`, and `i` cannot wrap because
`n ≤ 64`, so the loop makes exactly `n - 1` passes. -/
def buildLoop : Nat → BuildState → BuildState
  | 0, st => st
  | k + 1, st => buildLoop k (buildStep st)

/-- The constructor `NewGF2VectorSpace(n)`. -/
def NewGF2VectorSpace (n : Nat) : Except Fault GF2VectorSpace :=
  if n < 1 then
    Except.error (Fault.panic
      ("NewGF2VectorSpace(dim): dim = " ++ toString n ++ " < 1"))
  else if n > UintSize then
    Except.error (Fault.panic
      ("NewGF2VectorSpace(dim): dim = " ++ toString n ++ " > " ++
        toString UintSize ++ " = bits.UintSize"))
  else
    let st := buildLoop (n - 1) buildInit
    Except.ok { dim := n, ones := st.ones,
                baseIndex := st.baseIndex, baseVector := st.baseVector }

/-! Vectors -/

/-- The struct `GF2Vector` of a vector that has a space: the space its field
`sp` points to, and its value.  A vector whose field `sp` is nil is a `VecCell`
with `sp := none` of the memory embedding. -/
structure GF2Vector where
  sp : GF2VectorSpace
  val : Nat
  deriving DecidableEq, Repr

/-- The method `(*GF2Vector).Val`. -/
def GF2Vector.Val (v : Option GF2Vector) : Nat :=
  match v with
  | none => 0
  | some v => v.val

/-- The verb `%0[1]*[2]b` of `fmt`: `val` in binary, most significant digit
first, padded with `0` on the left up to `width` characters. -/
def fmtBinary (width val : Nat) : String :=
  let ds := Nat.toDigits 2 val
  String.mk (List.replicate (width - ds.length) '0' ++ ds)

/-- The method `(*GF2Vector).String`. -/
def GF2Vector.String (v : Option GF2Vector) : Except Fault String := do
  let v ← deref v
  pure (fmtBinary v.sp.dim v.val)

/-- The method `(*GF2VectorSpace).NewGF2Vector`. -/
def GF2VectorSpace.NewGF2Vector (s : GF2VectorSpace) (value : Nat) :
    Except Fault GF2Vector :=
  let vmx := s.baseVector.index s.dim
  let vmx := wrap (wrap (2 * vmx) + 2 ^ UintSize - 1)
  if value > vmx then
    Except.error (Fault.panic
      ("NewGF2Vector(value): value = " ++ toString value ++ " > " ++ toString vmx))
  else
    Except.ok { sp := s, val := value }

/-- The method `(*GF2VectorSpace).GF2BaseVector`. -/
def GF2VectorSpace.GF2BaseVector (s : GF2VectorSpace) (i : Nat) :
    Except Fault GF2Vector :=
  match s.baseVector.commaOk i with
  | (v, true) => Except.ok { sp := s, val := v }
  | (_, false) =>
    Except.error (Fault.panic
      ("GF2BaseVector(i): i = " ++ toString i ++ " out of range [1, " ++
        toString s.dim ++ "]"))

/-- The method `(*GF2Vector).GF2BaseVector`. -/
def GF2Vector.GF2BaseVector (v : Option GF2Vector) (i : Nat) :
    Except Fault GF2Vector := do
  let v ← deref v
  v.sp.GF2BaseVector i

/-- The method `(*GF2VectorSpace).GF2Zeros`. -/
def GF2VectorSpace.GF2Zeros (s : GF2VectorSpace) : GF2Vector :=
  { sp := s, val := 0 }

/-- The method `(*GF2VectorSpace).GF2Ones`. -/
def GF2VectorSpace.GF2Ones (s : GF2VectorSpace) : GF2Vector :=
  { sp := s, val := s.ones }

/-- The method `(*GF2Vector).IsZeros`. -/
def GF2Vector.IsZeros (v : Option GF2Vector) : Except Fault Bool := do
  let v ← deref v
  pure (v.val == 0)

/-- The method `(*GF2Vector).IsOnes`. -/
def GF2Vector.IsOnes (v : Option GF2Vector) : Except Fault Bool := do
  let v ← deref v
  pure (v.val == v.sp.ones)

/-- The method `(*GF2Vector).Index`. -/
def GF2Vector.Index (v : Option GF2Vector) : Except Fault (Nat × Bool) := do
  let v ← deref v
  pure (v.sp.baseIndex.commaOk v.val)

/-- The method `(*GF2Vector).IsBaseVector`. -/
def GF2Vector.IsBaseVector (v : Option GF2Vector) : Except Fault Bool := do
  let v ← deref v
  pure (v.sp.baseIndex.commaOk v.val).2

/-- The method `(*GF2Vector).Zeros`. -/
def GF2Vector.Zeros (x : Option GF2Vector) : Except Fault GF2Vector := do
  let x ← deref x
  pure { sp := x.sp, val := 0 }

/-- The method `(*GF2Vector).Copy`. -/
def GF2Vector.Copy (x : Option GF2Vector) : Option GF2Vector :=
  match x with
  | none => none
  | some x => some { sp := x.sp, val := x.val }

/-- The function `Not`. -/
def Not (x : Option GF2Vector) : Except Fault GF2Vector := do
  let x ← deref x
  pure { sp := x.sp, val := x.sp.ones ^^^ x.val }

/-- The read `z := *x[0]` that opens `And`, `Or` and `Xor`. -/
def firstArg (x : List (Option GF2Vector)) : Except Fault GF2Vector :=
  match x with
  | [] => Except.error (Fault.indexOutOfRange 0 0)
  | p :: _ => deref p

/-- The loop of `And` over the arguments `x[1], x[2], ...` still to be read,
with accumulator `z`. -/
def andLoop (z : GF2Vector) : List (Option GF2Vector) → Except Fault GF2Vector
  | [] => Except.ok z
  | p :: rest => do
    let y ← deref p
    if z.sp.dim != y.sp.dim then
      Except.error (Fault.panic
        ("And: incompatible vector spaces: " ++ "z.dim = " ++ toString z.sp.dim ++
          " != " ++ toString y.sp.dim ++ " = y.dim"))
    else
      andLoop { sp := z.sp, val := z.val &&& y.val } rest

/-- The function `And`. -/
def And (x : List (Option GF2Vector)) : Except Fault GF2Vector := do
  let z ← firstArg x
  andLoop z x.tail

/-- The loop of `Or` over the arguments `x[1], x[2], ...` still to be read,
with accumulator `z`. -/
def orLoop (z : GF2Vector) : List (Option GF2Vector) → Except Fault GF2Vector
  | [] => Except.ok z
  | p :: rest => do
    let y ← deref p
    if z.sp.dim != y.sp.dim then
      Except.error (Fault.panic
        ("Or: incompatible vector spaces: " ++ "z.dim = " ++ toString z.sp.dim ++
          " != " ++ toString y.sp.dim ++ " = y.dim"))
    else
      orLoop { sp := z.sp, val := z.val ||| y.val } rest

/-- The function `Or`. -/
def Or (x : List (Option GF2Vector)) : Except Fault GF2Vector := do
  let z ← firstArg x
  orLoop z x.tail

/-- The loop of `Xor` over the arguments `x[1], x[2], ...` still to be read,
with accumulator `z`. -/
def xorLoop (z : GF2Vector) : List (Option GF2Vector) → Except Fault GF2Vector
  | [] => Except.ok z
  | p :: rest => do
    let y ← deref p
    if z.sp.dim != y.sp.dim then
      Except.error (Fault.panic
        ("Xor: incompatible vector spaces: " ++ "z.dim = " ++ toString z.sp.dim ++
          " != " ++ toString y.sp.dim ++ " = y.dim"))
    else
      xorLoop { sp := z.sp, val := z.val ^^^ y.val } rest

/-- The function `Xor`. -/
def Xor (x : List (Option GF2Vector)) : Except Fault GF2Vector := do
  let z ← firstArg x
  xorLoop z x.tail

/-- The function `ComplementOr`. -/
def ComplementOr (x : List (Option GF2Vector)) : Except Fault GF2Vector := do
  let z ← Or x
  Not (some z)

/-- The function `ComplementXor`. -/
def ComplementXor (x : List (Option GF2Vector)) : Except Fault GF2Vector := do
  let z ← Xor x
  Not (some z)

/-- The function `MaskBits`. -/
def MaskBits (x m : Option GF2Vector) : Except Fault GF2Vector :=
  And [x, m]

/-- The function `ClearBits`. -/
def ClearBits (x m : Option GF2Vector) : Except Fault GF2Vector := do
  let nm ← Not m
  And [x, some nm]

/-- The function `SetBits`. -/
def SetBits (x m : Option GF2Vector) : Except Fault GF2Vector :=
  Or [x, m]

/-- The function `ToggleBits`. -/
def ToggleBits (x m : Option GF2Vector) : Except Fault GF2Vector :=
  Xor [x, m]

/-- The function `OnesCount`. -/
def OnesCount (x : Option GF2Vector) : Except Fault Nat := do
  let x ← deref x
  pure (bitsOnesCount x.val)

/-- The function `ScalarProduct`. -/
def ScalarProduct (a b : Option GF2Vector) : Except Fault Nat := do
  let prod ← And [a, b]
  OnesCount (some prod)

/-! Well-formed spaces and vectors -/

/-- A space is valid when it is what `NewGF2VectorSpace` returns for its
dimension. -/
def GF2VectorSpace.Valid (s : GF2VectorSpace) : Prop :=
  NewGF2VectorSpace s.dim = Except.ok s

instance (s : GF2VectorSpace) : Decidable s.Valid := by
  unfold GF2VectorSpace.Valid; infer_instance

/-- The vector invariant: the value does not exceed the all-ones mask of the
owning space. -/
def GF2Vector.Inv (v : GF2Vector) : Prop := v.val ≤ v.sp.ones

instance (v : GF2Vector) : Decidable v.Inv := by
  unfold GF2Vector.Inv; infer_instance

/-- A valid vector: a valid space and a value within its mask. -/
def GF2Vector.Valid (v : GF2Vector) : Prop := v.sp.Valid ∧ v.Inv

instance (v : GF2Vector) : Decidable v.Valid := by
  unfold GF2Vector.Valid; infer_instance

/-- What holds of the locals of `NewGF2VectorSpace` after `k` passes of its loop. -/
structure BuildInv (k : Nat) (st : BuildState) : Prop where
  bit : st.bit = 2 ^ k
  ones : st.ones = 2 ^ (k + 1) - 1
  index : st.index = k + 1
  baseIndex : ∀ key v, st.baseIndex.get? key = some v ↔ ∃ i, i ≤ k ∧ key = 2 ^ i ∧ v = i + 1
  baseVector : ∀ key v, st.baseVector.get? key = some v ↔ ∃ i, i ≤ k ∧ key = i + 1 ∧ v = 2 ^ i
  lenIndex : st.baseIndex.len = k + 1
  lenVector : st.baseVector.len = k + 1
  entriesIndex : st.baseIndex.entries = (List.range (k + 1)).map (fun i => (2 ^ i, i + 1))
  entriesVector : st.baseVector.entries = (List.range (k + 1)).map (fun i => (i + 1, 2 ^ i))

/-- The common shape of `andLoop`, `orLoop` and `xorLoop`, with the opening of
the panic text and the word operation as parameters; the three loops are shown
equal to its instances, so that facts about them are proved once. -/
def foldLoop (pre : String) (op : Nat → Nat → Nat) (z : GF2Vector) :
    List (Option GF2Vector) → Except Fault GF2Vector
  | [] => Except.ok z
  | p :: rest => do
    let y ← deref p
    if z.sp.dim != y.sp.dim then
      Except.error (Fault.panic
        (pre ++ "z.dim = " ++ toString z.sp.dim ++
          " != " ++ toString y.sp.dim ++ " = y.dim"))
    else
      foldLoop pre op { sp := z.sp, val := op z.val y.val } rest

/-- The composition `Not(f(x...))` in the words of the spec: `Not` applied to
what the call `f(x...)` returned, a failure of that call being the failure of
the whole. -/
def notAfter (r : Except Fault GF2Vector) : Except Fault GF2Vector :=
  match r with
  | Except.ok z => Not (some z)
  | Except.error e => Except.error e

/-- The word complement `^m` of Go on a `uint`. -/
def wordNot (m : Nat) : Nat := (2 ^ UintSize - 1) ^^^ m

/-- The binary digit character of a bit. -/
def bitChar (b : Bool) : Char := if b then '1' else '0'

/-- The `d` low bits of `n` as digit characters, most significant first. -/
def msbDigits (d n : Nat) : List Char :=
  (List.range d).reverse.map (fun i => bitChar (n.testBit i))

/-! Vectors in memory

A second embedding of the operations, for what they do to memory: a pointer is
an address or nil, the memory holds the allocated spaces and vectors by
address, and every operation returns the memory it leaves behind together with
its result or fault.  The space pointer of a vector is a pointer here, so a read
of `v.sp.dim` or `v.sp.ones` through a nil space pointer is the fault that Go
raises. -/

/-- A `GF2Vector` in memory: the pointer to its space, and its value. -/
structure VecCell where
  sp : Option Nat
  val : Nat
  deriving DecidableEq, Repr

/-- The memory: the allocated spaces and the allocated vectors, by address. -/
structure Heap where
  spaces : List GF2VectorSpace
  vecs : List VecCell
  deriving DecidableEq, Repr

/-- Reading the vector behind a pointer; nil faults, and so does an address that
was never allocated (which no Go program can hold). -/
def Heap.readVec (h : Heap) (p : Option Nat) : Except Fault VecCell :=
  match p with
  | none => Except.error Fault.nilDereference
  | some a =>
    match h.vecs[a]? with
    | some c => Except.ok c
    | none => Except.error Fault.nilDereference

/-- Reading the space behind a pointer; nil faults, and so does an address that
was never allocated. -/
def Heap.readSpace (h : Heap) (p : Option Nat) : Except Fault GF2VectorSpace :=
  match p with
  | none => Except.error Fault.nilDereference
  | some a =>
    match h.spaces[a]? with
    | some s => Except.ok s
    | none => Except.error Fault.nilDereference

/-- A new vector variable holding `c`: its address and the memory with it. -/
def Heap.newVec (h : Heap) (c : VecCell) : Nat × Heap :=
  (h.vecs.length, { spaces := h.spaces, vecs := h.vecs ++ [c] })

/-- The assignment to the field `val` of the vector at address `a`. -/
def Heap.setVal (h : Heap) (a : Nat) (val : Nat) : Heap :=
  match h.vecs[a]? with
  | some c => { spaces := h.spaces, vecs := h.vecs.set a { sp := c.sp, val := val } }
  | none => h

/-- The reads of one pass of the loops of `And`, `Or` and `Xor`: the variable
`z` with its space, and the argument `y` with its space. -/
def Heap.loopReads (h : Heap) (z : Nat) (y : Option Nat) :
    Except Fault (VecCell × GF2VectorSpace × VecCell × GF2VectorSpace) := do
  let zc ← h.readVec (some z)
  let zs ← h.readSpace zc.sp
  let yc ← h.readVec y
  let ys ← h.readSpace yc.sp
  pure (zc, zs, yc, ys)

/-- The function `Not`, in memory. -/
def NotMem (h : Heap) (x : Option Nat) : Except Fault (Option Nat) × Heap :=
  match h.readVec x with
  | Except.error e => (Except.error e, h)
  | Except.ok xc =>
    match h.readSpace xc.sp with
    | Except.error e => (Except.error e, h)
    | Except.ok s =>
      let b := h.newVec { sp := xc.sp, val := s.ones ^^^ xc.val }
      (Except.ok (some b.1), b.2)

/-- The loop of `And`, in memory: `z` is the address of the local variable. -/
def andLoopMem (z : Nat) : Heap → List (Option Nat) → Except Fault Unit × Heap
  | h, [] => (Except.ok (), h)
  | h, y :: rest =>
    match h.loopReads z y with
    | Except.error e => (Except.error e, h)
    | Except.ok (zc, zs, yc, ys) =>
      if zs.dim != ys.dim then
        (Except.error (Fault.panic
          ("And: incompatible vector spaces: " ++ "z.dim = " ++ toString zs.dim ++
            " != " ++ toString ys.dim ++ " = y.dim")), h)
      else
        andLoopMem z (h.setVal z (zc.val &&& yc.val)) rest

/-- The function `And`, in memory: `z := *x[0]` is a new variable holding a copy
of the first argument, and `&z` is returned. -/
def AndMem (h : Heap) (x : List (Option Nat)) : Except Fault (Option Nat) × Heap :=
  match x with
  | [] => (Except.error (Fault.indexOutOfRange 0 0), h)
  | p :: rest =>
    match h.readVec p with
    | Except.error e => (Except.error e, h)
    | Except.ok c =>
      let z := h.newVec c
      let r := andLoopMem z.1 z.2 rest
      (r.1.map (fun _ => some z.1), r.2)

/-- The loop of `Or`, in memory. -/
def orLoopMem (z : Nat) : Heap → List (Option Nat) → Except Fault Unit × Heap
  | h, [] => (Except.ok (), h)
  | h, y :: rest =>
    match h.loopReads z y with
    | Except.error e => (Except.error e, h)
    | Except.ok (zc, zs, yc, ys) =>
      if zs.dim != ys.dim then
        (Except.error (Fault.panic
          ("Or: incompatible vector spaces: " ++ "z.dim = " ++ toString zs.dim ++
            " != " ++ toString ys.dim ++ " = y.dim")), h)
      else
        orLoopMem z (h.setVal z (zc.val ||| yc.val)) rest

/-- The function `Or`, in memory. -/
def OrMem (h : Heap) (x : List (Option Nat)) : Except Fault (Option Nat) × Heap :=
  match x with
  | [] => (Except.error (Fault.indexOutOfRange 0 0), h)
  | p :: rest =>
    match h.readVec p with
    | Except.error e => (Except.error e, h)
    | Except.ok c =>
      let z := h.newVec c
      let r := orLoopMem z.1 z.2 rest
      (r.1.map (fun _ => some z.1), r.2)

/-- The loop of `Xor`, in memory. -/
def xorLoopMem (z : Nat) : Heap → List (Option Nat) → Except Fault Unit × Heap
  | h, [] => (Except.ok (), h)
  | h, y :: rest =>
    match h.loopReads z y with
    | Except.error e => (Except.error e, h)
    | Except.ok (zc, zs, yc, ys) =>
      if zs.dim != ys.dim then
        (Except.error (Fault.panic
          ("Xor: incompatible vector spaces: " ++ "z.dim = " ++ toString zs.dim ++
            " != " ++ toString ys.dim ++ " = y.dim")), h)
      else
        xorLoopMem z (h.setVal z (zc.val ^^^ yc.val)) rest

/-- The function `Xor`, in memory. -/
def XorMem (h : Heap) (x : List (Option Nat)) : Except Fault (Option Nat) × Heap :=
  match x with
  | [] => (Except.error (Fault.indexOutOfRange 0 0), h)
  | p :: rest =>
    match h.readVec p with
    | Except.error e => (Except.error e, h)
    | Except.ok c =>
      let z := h.newVec c
      let r := xorLoopMem z.1 z.2 rest
      (r.1.map (fun _ => some z.1), r.2)

/-- The function `ComplementOr`, in memory. -/
def ComplementOrMem (h : Heap) (x : List (Option Nat)) : Except Fault (Option Nat) × Heap :=
  match OrMem h x with
  | (Except.error e, h1) => (Except.error e, h1)
  | (Except.ok z, h1) => NotMem h1 z

/-- The function `ComplementXor`, in memory. -/
def ComplementXorMem (h : Heap) (x : List (Option Nat)) : Except Fault (Option Nat) × Heap :=
  match XorMem h x with
  | (Except.error e, h1) => (Except.error e, h1)
  | (Except.ok z, h1) => NotMem h1 z

/-- The function `MaskBits`, in memory. -/
def MaskBitsMem (h : Heap) (x m : Option Nat) : Except Fault (Option Nat) × Heap :=
  AndMem h [x, m]

/-- The function `ClearBits`, in memory. -/
def ClearBitsMem (h : Heap) (x m : Option Nat) : Except Fault (Option Nat) × Heap :=
  match NotMem h m with
  | (Except.error e, h1) => (Except.error e, h1)
  | (Except.ok nm, h1) => AndMem h1 [x, nm]

/-- The function `SetBits`, in memory. -/
def SetBitsMem (h : Heap) (x m : Option Nat) : Except Fault (Option Nat) × Heap :=
  OrMem h [x, m]

/-- The function `ToggleBits`, in memory. -/
def ToggleBitsMem (h : Heap) (x m : Option Nat) : Except Fault (Option Nat) × Heap :=
  XorMem h [x, m]

/-- The function `OnesCount`, in memory. -/
def OnesCountMem (h : Heap) (x : Option Nat) : Except Fault Nat × Heap :=
  match h.readVec x with
  | Except.error e => (Except.error e, h)
  | Except.ok c => (Except.ok (bitsOnesCount c.val), h)

/-- The function `ScalarProduct`, in memory. -/
def ScalarProductMem (h : Heap) (a b : Option Nat) : Except Fault Nat × Heap :=
  match AndMem h [a, b] with
  | (Except.error e, h1) => (Except.error e, h1)
  | (Except.ok prod, h1) => OnesCountMem h1 prod

/-- The common shape of `andLoopMem`, `orLoopMem` and `xorLoopMem`. -/
def foldLoopMem (pre : String) (op : Nat → Nat → Nat) (z : Nat) :
    Heap → List (Option Nat) → Except Fault Unit × Heap
  | h, [] => (Except.ok (), h)
  | h, y :: rest =>
    match h.loopReads z y with
    | Except.error e => (Except.error e, h)
    | Except.ok (zc, zs, yc, ys) =>
      if zs.dim != ys.dim then
        (Except.error (Fault.panic
          (pre ++ "z.dim = " ++ toString zs.dim ++
            " != " ++ toString ys.dim ++ " = y.dim")), h)
      else
        foldLoopMem pre op z (h.setVal z (op zc.val yc.val)) rest

/-- Memory `h'` keeps what memory `h` holds: the spaces are the same, and every
vector allocated in `h` is in `h'` at the same address with the same space
pointer and the same value. -/
def Heap.Keeps (h h' : Heap) : Prop :=
  h'.spaces = h.spaces ∧
    ∀ (a : Nat) (c : VecCell), h.vecs[a]? = some c → h'.vecs[a]? = some c

/-- A memory with the space of dimension 3 and one vector of value 5 in it. -/
def heap3 : Heap :=
  { spaces := [{ dim := 3, ones := 7, baseIndex := ⟨[(1, 1), (2, 2), (4, 3)]⟩,
                 baseVector := ⟨[(1, 1), (2, 2), (3, 4)]⟩ }],
    vecs := [{ sp := some 0, val := 5 }] }

/-- The space of dimension 1, as `NewGF2VectorSpace(1)` returns it. -/
def space1 : GF2VectorSpace :=
  { dim := 1, ones := 1, baseIndex := ⟨[(1, 1)]⟩, baseVector := ⟨[(1, 1)]⟩ }

/-- The space of dimension 2, as `NewGF2VectorSpace(2)` returns it. -/
def space2 : GF2VectorSpace :=
  { dim := 2, ones := 3, baseIndex := ⟨[(1, 1), (2, 2)]⟩,
    baseVector := ⟨[(1, 1), (2, 2)]⟩ }

/-- The space of dimension 3, as `NewGF2VectorSpace(3)` returns it. -/
def space3 : GF2VectorSpace :=
  { dim := 3, ones := 7, baseIndex := ⟨[(1, 1), (2, 2), (4, 3)]⟩,
    baseVector := ⟨[(1, 1), (2, 2), (3, 4)]⟩ }

/-- The vector behind a pointer, when the pointer is not nil and the vector has
a space: the space its space pointer leads to, and its value. -/
def Heap.vector (h : Heap) (p : Option Nat) : Option GF2Vector :=
  match h.readVec p with
  | Except.error _ => none
  | Except.ok c =>
    match h.readSpace c.sp with
    | Except.error _ => none
    | Except.ok s => some { sp := s, val := c.val }

/-- A memory holding only the zero value `GF2Vector{}`, a vector whose space
pointer is nil. -/
def heapBare : Heap :=
  { spaces := [], vecs := [{ sp := none, val := 0 }] }

/-- A memory with the space of dimension 2, a vector of value 1 in that space
at address 0, and the zero value `GF2Vector{}` at address 1. -/
def heapMixed : Heap :=
  { spaces := [space2], vecs := [{ sp := some 0, val := 1 }, { sp := none, val := 0 }] }

/-- A memory with the spaces of dimensions 1 and 2 and one vector of value 1 in
each. -/
def heapTwo : Heap :=
  { spaces := [space1, space2],
    vecs := [{ sp := some 0, val := 1 }, { sp := some 1, val := 1 }] }

/-- The contents of the space that `NewGF2VectorSpace n` builds. -/
structure SpaceSpec (n : Nat) (s : GF2VectorSpace) : Prop where
  dim : s.dim = n
  ones : s.ones = 2 ^ n - 1
  baseIndex : ∀ key v, s.baseIndex.get? key = some v ↔ ∃ i, i < n ∧ key = 2 ^ i ∧ v = i + 1
  baseVector : ∀ key v, s.baseVector.get? key = some v ↔ ∃ i, i < n ∧ key = i + 1 ∧ v = 2 ^ i
  lenIndex : s.baseIndex.len = n
  lenVector : s.baseVector.len = n
  entriesIndex : s.baseIndex.entries = (List.range n).map (fun i => (2 ^ i, i + 1))
  entriesVector : s.baseVector.entries = (List.range n).map (fun i => (i + 1, 2 ^ i))

/-! Lemmas on maps -/

theorem GoMap.getEntries_setEntries (k v k' : Nat) (l : List (Nat × Nat)) :
    GoMap.getEntries k' (GoMap.setEntries k v l) =
      if k = k' then some v else GoMap.getEntries k' l := by
  induction l with
  | nil => simp [GoMap.setEntries, GoMap.getEntries]
  | cons p rest ih =>
    obtain ⟨a, b⟩ := p
    by_cases hak : a = k
    · subst hak
      by_cases hk : a = k' <;> simp [GoMap.setEntries, GoMap.getEntries, hk]
    · by_cases hk : k = k'
      · subst hk
        simp [GoMap.setEntries, GoMap.getEntries, hak, ih]
      · by_cases ha : a = k'
        · subst ha
          simp [GoMap.setEntries, GoMap.getEntries, hak, hk]
        · simp [GoMap.setEntries, GoMap.getEntries, hak, hk, ha, ih]

theorem GoMap.get?_set (m : GoMap) (k v k' : Nat) :
    (m.set k v).get? k' = if k = k' then some v else m.get? k' := by
  simp [GoMap.set, GoMap.get?, GoMap.getEntries_setEntries]

theorem GoMap.length_setEntries (k v : Nat) (l : List (Nat × Nat))
    (h : GoMap.getEntries k l = none) :
    (GoMap.setEntries k v l).length = l.length + 1 := by
  induction l with
  | nil => simp [GoMap.setEntries]
  | cons p rest ih =>
    obtain ⟨a, b⟩ := p
    by_cases hak : a = k
    · simp [GoMap.getEntries, hak] at h
    · simp [GoMap.getEntries, hak] at h
      simp [GoMap.setEntries, hak, ih h]

theorem GoMap.setEntries_of_none (k v : Nat) (l : List (Nat × Nat))
    (h : GoMap.getEntries k l = none) :
    GoMap.setEntries k v l = l ++ [(k, v)] := by
  induction l with
  | nil => simp [GoMap.setEntries]
  | cons p rest ih =>
    obtain ⟨a, b⟩ := p
    by_cases hak : a = k
    · simp [GoMap.getEntries, hak] at h
    · simp [GoMap.getEntries, hak] at h
      simp [GoMap.setEntries, hak, ih h]

theorem GoMap.entries_set (m : GoMap) (k v : Nat) (h : m.get? k = none) :
    (m.set k v).entries = m.entries ++ [(k, v)] :=
  GoMap.setEntries_of_none k v m.entries h

theorem GoMap.len_set (m : GoMap) (k v : Nat) (h : m.get? k = none) :
    (m.set k v).len = m.len + 1 := by
  simp only [GoMap.set, GoMap.len]
  exact GoMap.length_setEntries k v m.entries h

theorem GoMap.commaOk_of_some (m : GoMap) (k v : Nat) (h : m.get? k = some v) :
    m.commaOk k = (v, true) := by
  simp [GoMap.commaOk, h]

theorem GoMap.commaOk_of_none (m : GoMap) (k : Nat) (h : m.get? k = none) :
    m.commaOk k = (0, false) := by
  simp [GoMap.commaOk, h]

/-! Lemmas on machine words -/

theorem wrap_of_lt {x : Nat} (h : x < 2 ^ 64) : wrap x = x := by
  unfold wrap UintSize
  exact Nat.mod_eq_of_lt h

theorem two_pow_lt_word {k : Nat} (h : k < 64) : 2 ^ k < 2 ^ 64 :=
  Nat.pow_lt_pow_right (by norm_num) h

theorem two_pow_le_word {k : Nat} (h : k ≤ 64) : 2 ^ k ≤ 2 ^ 64 :=
  Nat.pow_le_pow_right (by norm_num) h

/-! The loop of the constructor -/

theorem buildInv_init : BuildInv 0 buildInit := by
  refine ⟨rfl, rfl, rfl, ?_, ?_, rfl, rfl, rfl, rfl⟩
  · intro key v
    simp only [buildInit, GoMap.get?_set]
    constructor
    · intro h
      by_cases hk : 1 = key
      · subst hk
        simp at h
        exact ⟨0, le_refl 0, by simp, by omega⟩
      · simp [hk, GoMap.get?, GoMap.empty, GoMap.getEntries] at h
    · rintro ⟨i, hi, hkey, hv⟩
      have : i = 0 := by omega
      subst this
      simp [hkey, hv]
  · intro key v
    simp only [buildInit, GoMap.get?_set]
    constructor
    · intro h
      by_cases hk : 1 = key
      · subst hk
        simp at h
        exact ⟨0, le_refl 0, by simp, by omega⟩
      · simp [hk, GoMap.get?, GoMap.empty, GoMap.getEntries] at h
    · rintro ⟨i, hi, hkey, hv⟩
      have : i = 0 := by omega
      subst this
      simp [hkey, hv]

theorem buildInv_step (k : Nat) (st : BuildState) (hk : k + 1 < 64)
    (h : BuildInv k st) : BuildInv (k + 1) (buildStep st) := by
  have hp1 : 2 ^ (k + 1) < 2 ^ 64 := two_pow_lt_word hk
  have hp2 : 2 ^ (k + 2) ≤ 2 ^ 64 := two_pow_le_word (by omega)
  have hpos : 0 < 2 ^ (k + 1) := Nat.two_pow_pos _
  have e1 : 2 ^ (k + 2) = 2 * 2 ^ (k + 1) := by rw [pow_succ]; ring
  have e0 : 2 ^ (k + 1) = 2 * 2 ^ k := by rw [pow_succ]; ring
  have hbit : wrap (st.bit <<< 1) = 2 ^ (k + 1) := by
    rw [h.bit, Nat.shiftLeft_eq, pow_one, ← pow_succ]
    exact wrap_of_lt hp1
  have hones : wrap (wrap (st.ones <<< 1) + 1) = 2 ^ (k + 2) - 1 := by
    rw [h.ones, Nat.shiftLeft_eq, pow_one]
    have a1 : (2 ^ (k + 1) - 1) * 2 < 2 ^ 64 := by omega
    rw [wrap_of_lt a1]
    have a2 : (2 ^ (k + 1) - 1) * 2 + 1 < 2 ^ 64 := by omega
    rw [wrap_of_lt a2]
    omega
  have hindex : wrap (st.index + 1) = k + 2 := by
    rw [h.index]
    exact wrap_of_lt (by omega)
  have hnoneI : st.baseIndex.get? (2 ^ (k + 1)) = none := by
    cases hg : st.baseIndex.get? (2 ^ (k + 1)) with
    | none => rfl
    | some v =>
      obtain ⟨i, hi, hkey, -⟩ := (h.baseIndex _ _).1 hg
      have : k + 1 = i := Nat.pow_right_injective (le_refl 2) hkey
      omega
  have hnoneV : st.baseVector.get? (k + 2) = none := by
    cases hg : st.baseVector.get? (k + 2) with
    | none => rfl
    | some v =>
      obtain ⟨i, hi, hkey, -⟩ := (h.baseVector _ _).1 hg
      omega
  refine ⟨hbit, hones, hindex, ?_, ?_, ?_, ?_, ?_, ?_⟩
  · intro key v
    show (st.baseIndex.set (wrap (st.bit <<< 1)) (wrap (st.index + 1))).get? key = some v ↔ _
    rw [hbit, hindex, GoMap.get?_set]
    by_cases hkey : 2 ^ (k + 1) = key
    · rw [if_pos hkey]
      constructor
      · intro hv
        exact ⟨k + 1, le_refl _, hkey.symm, by injection hv with hv; omega⟩
      · rintro ⟨i, -, hki, hv⟩
        have : k + 1 = i := Nat.pow_right_injective (le_refl 2) (hkey.trans hki)
        subst this
        rw [hv]
    · rw [if_neg hkey, h.baseIndex]
      constructor
      · rintro ⟨i, hi, hki, hv⟩
        exact ⟨i, by omega, hki, hv⟩
      · rintro ⟨i, hi, hki, hv⟩
        have : i ≠ k + 1 := fun hc => hkey (by rw [hki, hc])
        exact ⟨i, by omega, hki, hv⟩
  · intro key v
    show (st.baseVector.set (wrap (st.index + 1)) (wrap (st.bit <<< 1))).get? key = some v ↔ _
    rw [hbit, hindex, GoMap.get?_set]
    by_cases hkey : k + 2 = key
    · rw [if_pos hkey]
      constructor
      · intro hv
        exact ⟨k + 1, le_refl _, hkey.symm, by injection hv with hv; exact hv.symm⟩
      · rintro ⟨i, -, hki, hv⟩
        have : i = k + 1 := by omega
        subst this
        rw [hv]
    · rw [if_neg hkey, h.baseVector]
      constructor
      · rintro ⟨i, hi, hki, hv⟩
        exact ⟨i, by omega, hki, hv⟩
      · rintro ⟨i, hi, hki, hv⟩
        exact ⟨i, by omega, hki, hv⟩
  · show (st.baseIndex.set (wrap (st.bit <<< 1)) (wrap (st.index + 1))).len = _
    rw [hbit, GoMap.len_set _ _ _ hnoneI, h.lenIndex]
  · show (st.baseVector.set (wrap (st.index + 1)) (wrap (st.bit <<< 1))).len = _
    rw [hindex, GoMap.len_set _ _ _ hnoneV, h.lenVector]
  · show (st.baseIndex.set (wrap (st.bit <<< 1)) (wrap (st.index + 1))).entries = _
    rw [hbit, hindex, GoMap.entries_set _ _ _ hnoneI, h.entriesIndex,
      List.range_succ (k + 1), List.map_append]
    rfl
  · show (st.baseVector.set (wrap (st.index + 1)) (wrap (st.bit <<< 1))).entries = _
    rw [hbit, hindex, GoMap.entries_set _ _ _ hnoneV, h.entriesVector,
      List.range_succ (k + 1), List.map_append]
    rfl

theorem buildInv_loop (m : Nat) : ∀ (k : Nat) (st : BuildState), k + m < 64 →
    BuildInv k st → BuildInv (k + m) (buildLoop m st) := by
  induction m with
  | zero => intro k st _ h; exact h
  | succ m ih =>
    intro k st hk h
    have h1 := buildInv_step k st (by omega) h
    have h2 := ih (k + 1) (buildStep st) (by omega) h1
    have e : k + (m + 1) = k + 1 + m := by omega
    rw [e]
    exact h2

/-! The constructor -/

theorem newSpace_eq (n : Nat) (h1 : 1 ≤ n) (h64 : n ≤ 64) :
    NewGF2VectorSpace n = Except.ok
      { dim := n, ones := (buildLoop (n - 1) buildInit).ones,
        baseIndex := (buildLoop (n - 1) buildInit).baseIndex,
        baseVector := (buildLoop (n - 1) buildInit).baseVector } := by
  have a : ¬ n < 1 := by omega
  have b : ¬ n > UintSize := by unfold UintSize; omega
  simp only [NewGF2VectorSpace, if_neg a, if_neg b]

theorem newSpace_spec (n : Nat) (h1 : 1 ≤ n) (h64 : n ≤ 64) :
    ∃ s, NewGF2VectorSpace n = Except.ok s ∧ SpaceSpec n s := by
  refine ⟨_, newSpace_eq n h1 h64, ?_⟩
  have h := buildInv_loop (n - 1) 0 buildInit (by omega) buildInv_init
  have e : 0 + (n - 1) = n - 1 := by omega
  rw [e] at h
  have en : n - 1 + 1 = n := by omega
  refine ⟨rfl, ?_, ?_, ?_, ?_, ?_, ?_, ?_⟩
  · show (buildLoop (n - 1) buildInit).ones = _
    rw [h.ones, en]
  · intro key v
    show (buildLoop (n - 1) buildInit).baseIndex.get? key = some v ↔ _
    rw [h.baseIndex]
    constructor
    · rintro ⟨i, hi, hk, hv⟩
      exact ⟨i, by omega, hk, hv⟩
    · rintro ⟨i, hi, hk, hv⟩
      exact ⟨i, by omega, hk, hv⟩
  · intro key v
    show (buildLoop (n - 1) buildInit).baseVector.get? key = some v ↔ _
    rw [h.baseVector]
    constructor
    · rintro ⟨i, hi, hk, hv⟩
      exact ⟨i, by omega, hk, hv⟩
    · rintro ⟨i, hi, hk, hv⟩
      exact ⟨i, by omega, hk, hv⟩
  · show (buildLoop (n - 1) buildInit).baseIndex.len = _
    rw [h.lenIndex, en]
  · show (buildLoop (n - 1) buildInit).baseVector.len = _
    rw [h.lenVector, en]
  · show (buildLoop (n - 1) buildInit).baseIndex.entries = _
    rw [h.entriesIndex, en]
  · show (buildLoop (n - 1) buildInit).baseVector.entries = _
    rw [h.entriesVector, en]

theorem newSpace_small (n : Nat) (h : n < 1) :
    NewGF2VectorSpace n = Except.error (Fault.panic
      ("NewGF2VectorSpace(dim): dim = " ++ toString n ++ " < 1")) := by
  simp only [NewGF2VectorSpace, if_pos h]

theorem newSpace_large (n : Nat) (h : n > 64) :
    NewGF2VectorSpace n = Except.error (Fault.panic
      ("NewGF2VectorSpace(dim): dim = " ++ toString n ++ " > " ++
        toString UintSize ++ " = bits.UintSize")) := by
  have a : ¬ n < 1 := by omega
  have b : n > UintSize := h
  simp only [NewGF2VectorSpace, if_neg a, if_pos b]

theorem valid_spec (s : GF2VectorSpace) (hs : s.Valid) :
    1 ≤ s.dim ∧ s.dim ≤ 64 ∧ SpaceSpec s.dim s := by
  unfold GF2VectorSpace.Valid at hs
  by_cases h1 : s.dim < 1
  · rw [newSpace_small _ h1] at hs
    cases hs
  · by_cases h64 : s.dim > 64
    · rw [newSpace_large _ h64] at hs
      cases hs
    · obtain ⟨t, ht, hspec⟩ := newSpace_spec s.dim (by omega) (by omega)
      rw [ht] at hs
      injection hs with hs
      subst hs
      exact ⟨by omega, by omega, hspec⟩

theorem newSpace_valid (n : Nat) (s : GF2VectorSpace)
    (h : NewGF2VectorSpace n = Except.ok s) : s.Valid := by
  by_cases h1 : n < 1
  · rw [newSpace_small _ h1] at h
    cases h
  · by_cases h64 : n > 64
    · rw [newSpace_large _ h64] at h
      cases h
    · have e := newSpace_eq n (by omega) (by omega)
      rw [e] at h
      injection h with h
      subst h
      exact e

/-! Vectors of a valid space -/

theorem valid_ones_lt (s : GF2VectorSpace) (hs : s.Valid) :
    s.ones + 1 = 2 ^ s.dim ∧ 2 ^ s.dim ≤ 2 ^ 64 := by
  obtain ⟨-, h64, hspec⟩ := valid_spec s hs
  have := two_pow_le_word h64
  have := Nat.two_pow_pos s.dim
  rw [hspec.ones]
  omega

theorem valid_baseVector_dim (s : GF2VectorSpace) (hs : s.Valid) :
    s.baseVector.index s.dim = 2 ^ (s.dim - 1) := by
  obtain ⟨h1, -, hspec⟩ := valid_spec s hs
  have h := (hspec.baseVector s.dim (2 ^ (s.dim - 1))).2 ⟨s.dim - 1, by omega, by omega, rfl⟩
  simp [GoMap.index, h]

theorem valid_vmx (s : GF2VectorSpace) (hs : s.Valid) :
    wrap (wrap (2 * s.baseVector.index s.dim) + 2 ^ UintSize - 1) = s.ones := by
  obtain ⟨h1, h64, -⟩ := valid_spec s hs
  obtain ⟨ho, hle⟩ := valid_ones_lt s hs
  have e : 2 * 2 ^ (s.dim - 1) = 2 ^ s.dim := by
    rw [← pow_succ']
    congr 1
    omega
  rw [valid_baseVector_dim s hs, e]
  unfold wrap UintSize
  have := Nat.two_pow_pos s.dim
  omega

theorem newVector_ok (s : GF2VectorSpace) (hs : s.Valid) (value : Nat)
    (h : value ≤ s.ones) : s.NewGF2Vector value = Except.ok { sp := s, val := value } := by
  have hv : ¬ value > s.ones := by omega
  simp only [GF2VectorSpace.NewGF2Vector, valid_vmx s hs, if_neg hv]

theorem newVector_panic (s : GF2VectorSpace) (hs : s.Valid) (value : Nat)
    (h : value > s.ones) : s.NewGF2Vector value = Except.error (Fault.panic
      ("NewGF2Vector(value): value = " ++ toString value ++ " > " ++ toString s.ones)) := by
  simp only [GF2VectorSpace.NewGF2Vector, valid_vmx s hs, if_pos h]

theorem baseVector_of_some (s : GF2VectorSpace) (i v : Nat)
    (h : s.baseVector.get? i = some v) :
    s.GF2BaseVector i = Except.ok { sp := s, val := v } := by
  simp [GF2VectorSpace.GF2BaseVector, GoMap.commaOk_of_some _ _ _ h]

theorem baseVector_of_none (s : GF2VectorSpace) (i : Nat)
    (h : s.baseVector.get? i = none) :
    s.GF2BaseVector i = Except.error (Fault.panic
      ("GF2BaseVector(i): i = " ++ toString i ++ " out of range [1, " ++
        toString s.dim ++ "]")) := by
  simp [GF2VectorSpace.GF2BaseVector, GoMap.commaOk_of_none _ _ h]

theorem valid_baseVector_get (s : GF2VectorSpace) (hs : s.Valid) (i : Nat)
    (h1 : 1 ≤ i) (hd : i ≤ s.dim) : s.baseVector.get? i = some (2 ^ (i - 1)) := by
  obtain ⟨-, -, hspec⟩ := valid_spec s hs
  exact (hspec.baseVector i _).2 ⟨i - 1, by omega, by omega, rfl⟩

theorem valid_baseVector_none (s : GF2VectorSpace) (hs : s.Valid) (i : Nat)
    (h : i < 1 ∨ i > s.dim) : s.baseVector.get? i = none := by
  obtain ⟨-, -, hspec⟩ := valid_spec s hs
  cases hg : s.baseVector.get? i with
  | none => rfl
  | some v =>
    obtain ⟨j, hj, hk, -⟩ := (hspec.baseVector i v).1 hg
    omega

theorem valid_baseIndex_get (s : GF2VectorSpace) (hs : s.Valid) (j : Nat)
    (hj : j < s.dim) : s.baseIndex.get? (2 ^ j) = some (j + 1) := by
  obtain ⟨-, -, hspec⟩ := valid_spec s hs
  exact (hspec.baseIndex _ _).2 ⟨j, hj, rfl, rfl⟩

/-! Population count -/

theorem countP_range_decide_eq (j n : Nat) :
    (List.range n).countP (fun i => decide (j = i)) = if j < n then 1 else 0 := by
  induction n with
  | zero => simp
  | succ n ih =>
    rw [List.range_succ, List.countP_append, ih]
    by_cases h1 : j < n
    · have h2 : j ≠ n := by omega
      have h3 : j < n + 1 := by omega
      simp [h1, h2, h3, List.countP_cons]
    · by_cases h2 : j = n
      · subst h2
        simp [List.countP_cons]
      · have h3 : ¬ j < n + 1 := by omega
        simp [h1, h2, h3, List.countP_cons]

theorem bitsOnesCount_two_pow (j : Nat) (hj : j < 64) : bitsOnesCount (2 ^ j) = 1 := by
  unfold bitsOnesCount UintSize
  simp only [Nat.testBit_two_pow]
  rw [countP_range_decide_eq, if_pos hj]

theorem bitsOnesCount_eq_one (x : Nat) (hx : x < 2 ^ 64) (h : bitsOnesCount x = 1) :
    ∃ j, j < 64 ∧ x = 2 ^ j := by
  unfold bitsOnesCount UintSize at h
  rw [List.countP_eq_length_filter, List.length_eq_one] at h
  obtain ⟨a, ha⟩ := h
  have hmem : ∀ i, (i < 64 ∧ x.testBit i = true) ↔ i = a := by
    intro i
    have hm : i ∈ List.filter (fun j => x.testBit j) (List.range 64) ↔
        i ∈ List.range 64 ∧ x.testBit i = true := List.mem_filter
    rw [ha, List.mem_singleton, List.mem_range] at hm
    exact hm.symm
  have haa := (hmem a).2 rfl
  refine ⟨a, haa.1, Nat.eq_of_testBit_eq ?_⟩
  intro i
  rw [Nat.testBit_two_pow]
  by_cases hia : a = i
  · subst hia
    simp [haa.2]
  · have hne : ¬ i = a := fun hc => hia hc.symm
    by_cases hi : i < 64
    · have hf : ¬ (x.testBit i = true) := fun hc => hne ((hmem i).1 ⟨hi, hc⟩)
      simp [hia, hf]
    · have hxi : x < 2 ^ i :=
        lt_of_lt_of_le hx (Nat.pow_le_pow_right (by norm_num) (by omega))
      simp [hia, Nat.testBit_lt_two_pow hxi]

theorem valid_vector_lt (v : GF2Vector) (hv : v.Valid) :
    v.val < 2 ^ v.sp.dim ∧ v.val < 2 ^ 64 := by
  obtain ⟨ho, hle⟩ := valid_ones_lt v.sp hv.1
  have := hv.2
  unfold GF2Vector.Inv at this
  omega

theorem valid_single_bit (v : GF2Vector) (hv : v.Valid) (h : bitsOnesCount v.val = 1) :
    ∃ j, j < v.sp.dim ∧ v.val = 2 ^ j := by
  obtain ⟨hd, h64⟩ := valid_vector_lt v hv
  obtain ⟨j, -, hj⟩ := bitsOnesCount_eq_one v.val h64 h
  refine ⟨j, ?_, hj⟩
  rw [hj] at hd
  exact (Nat.pow_lt_pow_iff_right (by norm_num)).1 hd

theorem valid_baseIndex_none (v : GF2Vector) (hv : v.Valid) (h : bitsOnesCount v.val ≠ 1) :
    v.sp.baseIndex.get? v.val = none := by
  obtain ⟨-, h64, hspec⟩ := valid_spec v.sp hv.1
  cases hg : v.sp.baseIndex.get? v.val with
  | none => rfl
  | some i =>
    obtain ⟨j, hj, hk, -⟩ := (hspec.baseIndex _ _).1 hg
    exact absurd (by rw [hk]; exact bitsOnesCount_two_pow j (by omega)) h

theorem index_some (v : GF2Vector) :
    GF2Vector.Index (some v) = Except.ok (v.sp.baseIndex.commaOk v.val) := rfl

theorem isBaseVector_some (v : GF2Vector) :
    GF2Vector.IsBaseVector (some v) = Except.ok (v.sp.baseIndex.commaOk v.val).2 := rfl

theorem onesCount_some (v : GF2Vector) :
    OnesCount (some v) = Except.ok (bitsOnesCount v.val) := rfl

/-! The variadic folds -/

theorem andLoop_eq (l : List (Option GF2Vector)) : ∀ z : GF2Vector,
    andLoop z l = foldLoop "And: incompatible vector spaces: " (fun a b => a &&& b) z l := by
  induction l with
  | nil => intro z; rfl
  | cons p rest ih =>
    intro z
    cases p with
    | none => rfl
    | some y =>
      simp only [andLoop, foldLoop, deref, ih]

theorem orLoop_eq (l : List (Option GF2Vector)) : ∀ z : GF2Vector,
    orLoop z l = foldLoop "Or: incompatible vector spaces: " (fun a b => a ||| b) z l := by
  induction l with
  | nil => intro z; rfl
  | cons p rest ih =>
    intro z
    cases p with
    | none => rfl
    | some y =>
      simp only [orLoop, foldLoop, deref, ih]

theorem xorLoop_eq (l : List (Option GF2Vector)) : ∀ z : GF2Vector,
    xorLoop z l = foldLoop "Xor: incompatible vector spaces: " (fun a b => a ^^^ b) z l := by
  induction l with
  | nil => intro z; rfl
  | cons p rest ih =>
    intro z
    cases p with
    | none => rfl
    | some y =>
      simp only [xorLoop, foldLoop, deref, ih]

theorem foldLoop_cons_same (pre : String) (op : Nat → Nat → Nat) (z y : GF2Vector)
    (l : List (Option GF2Vector)) (h : y.sp.dim = z.sp.dim) :
    foldLoop pre op z (some y :: l) =
      foldLoop pre op { sp := z.sp, val := op z.val y.val } l := by
  have hb : (z.sp.dim != y.sp.dim) = false := by simp [h]
  show (if (z.sp.dim != y.sp.dim) = true then _ else _) = _
  rw [hb]
  rfl

theorem foldLoop_cons_diff (pre : String) (op : Nat → Nat → Nat) (z y : GF2Vector)
    (l : List (Option GF2Vector)) (h : y.sp.dim ≠ z.sp.dim) :
    foldLoop pre op z (some y :: l) = Except.error (Fault.panic
      (pre ++ "z.dim = " ++ toString z.sp.dim ++
        " != " ++ toString y.sp.dim ++ " = y.dim")) := by
  have hb : (z.sp.dim != y.sp.dim) = true := by
    simp only [bne_iff_ne]
    exact fun hc => h hc.symm
  show (if (z.sp.dim != y.sp.dim) = true then _ else _) = _
  rw [hb]
  rfl

theorem foldLoop_ok (pre : String) (op : Nat → Nat → Nat) (rest : List GF2Vector) :
    ∀ z : GF2Vector, (∀ y ∈ rest, y.sp.dim = z.sp.dim) →
      foldLoop pre op z (rest.map some) = Except.ok
        { sp := z.sp, val := List.foldl op z.val (rest.map GF2Vector.val) } := by
  induction rest with
  | nil => intro z _; rfl
  | cons y rest ih =>
    intro z h
    have hy : y.sp.dim = z.sp.dim := h y (List.mem_cons_self _ _)
    rw [List.map_cons, foldLoop_cons_same pre op z y _ hy]
    exact ih _ (fun w hw => h w (List.mem_cons_of_mem _ hw))

theorem foldLoop_panic (pre : String) (op : Nat → Nat → Nat) (rest : List GF2Vector) :
    ∀ z : GF2Vector, (∃ y, y ∈ rest ∧ y.sp.dim ≠ z.sp.dim) →
      ∃ msg, foldLoop pre op z (rest.map some) = Except.error (Fault.panic msg) := by
  induction rest with
  | nil =>
    rintro z ⟨y, hy, -⟩
    cases hy
  | cons y rest ih =>
    rintro z ⟨w, hw, hd⟩
    by_cases hy : y.sp.dim = z.sp.dim
    · rw [List.map_cons, foldLoop_cons_same pre op z y _ hy]
      have hw2 : w ∈ rest := by
        rcases List.mem_cons.1 hw with h | h
        · exact absurd (h ▸ hy) hd
        · exact h
      exact ih _ ⟨w, hw2, hd⟩
    · exact ⟨_, foldLoop_cons_diff pre op z y _ hy⟩

theorem and_cons (x0 : GF2Vector) (l : List (Option GF2Vector)) :
    And (some x0 :: l) =
      foldLoop "And: incompatible vector spaces: " (fun a b => a &&& b) x0 l :=
  andLoop_eq l x0

theorem or_cons (x0 : GF2Vector) (l : List (Option GF2Vector)) :
    Or (some x0 :: l) =
      foldLoop "Or: incompatible vector spaces: " (fun a b => a ||| b) x0 l :=
  orLoop_eq l x0

theorem xor_cons (x0 : GF2Vector) (l : List (Option GF2Vector)) :
    Xor (some x0 :: l) =
      foldLoop "Xor: incompatible vector spaces: " (fun a b => a ^^^ b) x0 l :=
  xorLoop_eq l x0

theorem mismatch_index_iff (x0 : GF2Vector) (rest : List GF2Vector) :
    (∃ k, 1 ≤ k ∧ ∃ y, (x0 :: rest)[k]? = some y ∧ y.sp.dim ≠ x0.sp.dim) ↔
      ∃ y, y ∈ rest ∧ y.sp.dim ≠ x0.sp.dim := by
  constructor
  · rintro ⟨k, hk, y, hy, hd⟩
    obtain ⟨j, rfl⟩ : ∃ j, k = j + 1 := ⟨k - 1, by omega⟩
    rw [List.getElem?_cons_succ] at hy
    exact ⟨y, List.mem_iff_getElem?.2 ⟨j, hy⟩, hd⟩
  · rintro ⟨y, hy, hd⟩
    obtain ⟨j, hj⟩ := List.mem_iff_getElem?.1 hy
    exact ⟨j + 1, by omega, y, by rw [List.getElem?_cons_succ]; exact hj, hd⟩

theorem fold_error_iff (pre : String) (op : Nat → Nat → Nat) (x0 : GF2Vector)
    (rest : List GF2Vector) :
    ((∃ msg, foldLoop pre op x0 (rest.map some) = Except.error (Fault.panic msg)) ↔
      ∃ y, y ∈ rest ∧ y.sp.dim ≠ x0.sp.dim) ∧
    ((∃ e, foldLoop pre op x0 (rest.map some) = Except.error e) ↔
      ∃ y, y ∈ rest ∧ y.sp.dim ≠ x0.sp.dim) := by
  have hgood : ∀ e, foldLoop pre op x0 (rest.map some) = Except.error e →
      ∃ y, y ∈ rest ∧ y.sp.dim ≠ x0.sp.dim := by
    intro e he
    by_contra hc
    have hall : ∀ y ∈ rest, y.sp.dim = x0.sp.dim := by
      intro y hy
      by_contra hd
      exact hc ⟨y, hy, hd⟩
    rw [foldLoop_ok pre op rest x0 hall] at he
    cases he
  refine ⟨⟨?_, foldLoop_panic pre op rest x0⟩, ⟨?_, ?_⟩⟩
  · rintro ⟨msg, h⟩
    exact hgood _ h
  · rintro ⟨e, h⟩
    exact hgood _ h
  · intro h
    obtain ⟨msg, hm⟩ := foldLoop_panic pre op rest x0 h
    exact ⟨_, hm⟩

/-! The vector invariant -/

theorem inv_iff_lt (v : GF2Vector) (hs : v.sp.Valid) : v.Inv ↔ v.val < 2 ^ v.sp.dim := by
  obtain ⟨ho, -⟩ := valid_ones_lt v.sp hs
  unfold GF2Vector.Inv
  omega

theorem lt_two_pow_iff_bits (x n : Nat) :
    x < 2 ^ n ↔ ∀ j, n ≤ j → x.testBit j = false := by
  constructor
  · intro h j hj
    exact Nat.testBit_lt_two_pow
      (lt_of_lt_of_le h (Nat.pow_le_pow_right (by norm_num) hj))
  · intro h
    exact Nat.lt_pow_two_of_testBit x h

theorem foldl_lt (op : Nat → Nat → Nat) (N : Nat)
    (hop : ∀ a b, a < N → b < N → op a b < N) (l : List Nat) :
    ∀ z, z < N → (∀ b ∈ l, b < N) → List.foldl op z l < N := by
  induction l with
  | nil => intro z hz _; exact hz
  | cons b l ih =>
    intro z hz h
    rw [List.foldl_cons]
    exact ih _ (hop z b hz (h b (List.mem_cons_self _ _)))
      (fun c hc => h c (List.mem_cons_of_mem _ hc))

theorem fold_inv (pre : String) (op : Nat → Nat → Nat)
    (hop : ∀ n a b, a < 2 ^ n → b < 2 ^ n → op a b < 2 ^ n)
    (x0 : GF2Vector) (rest : List GF2Vector) (hx : x0.Valid)
    (hrest : ∀ y ∈ rest, y.Valid ∧ y.sp.dim = x0.sp.dim) :
    ∃ r, foldLoop pre op x0 (rest.map some) = Except.ok r ∧ r.sp = x0.sp ∧ r.Inv := by
  refine ⟨_, foldLoop_ok pre op rest x0 (fun y hy => (hrest y hy).2), rfl, ?_⟩
  refine (inv_iff_lt ⟨x0.sp, List.foldl op x0.val (rest.map GF2Vector.val)⟩ hx.1).2 ?_
  show List.foldl op x0.val (rest.map GF2Vector.val) < 2 ^ x0.sp.dim
  refine foldl_lt op _ (hop x0.sp.dim) _ _ ((inv_iff_lt x0 hx.1).1 hx.2) ?_
  intro b hb
  obtain ⟨y, hy, rfl⟩ := List.mem_map.1 hb
  obtain ⟨hyv, hyd⟩ := hrest y hy
  rw [← hyd]
  exact (inv_iff_lt y hyv.1).1 hyv.2

theorem not_some (x : GF2Vector) :
    Not (some x) = Except.ok { sp := x.sp, val := x.sp.ones ^^^ x.val } := rfl

theorem not_inv (x : GF2Vector) (hx : x.Valid) :
    ({ sp := x.sp, val := x.sp.ones ^^^ x.val } : GF2Vector).Inv := by
  refine (inv_iff_lt ⟨x.sp, x.sp.ones ^^^ x.val⟩ hx.1).2 ?_
  show x.sp.ones ^^^ x.val < 2 ^ x.sp.dim
  obtain ⟨ho, -⟩ := valid_ones_lt x.sp hx.1
  exact Nat.xor_lt_two_pow (by omega) ((inv_iff_lt x hx.1).1 hx.2)

theorem complementOr_of_ok (x : List (Option GF2Vector)) (z : GF2Vector)
    (h : Or x = Except.ok z) : ComplementOr x = Not (some z) := by
  unfold ComplementOr
  rw [h]
  rfl

theorem complementXor_of_ok (x : List (Option GF2Vector)) (z : GF2Vector)
    (h : Xor x = Except.ok z) : ComplementXor x = Not (some z) := by
  unfold ComplementXor
  rw [h]
  rfl

theorem and_lt (n a b : Nat) (_ : a < 2 ^ n) (hb : b < 2 ^ n) : a &&& b < 2 ^ n :=
  Nat.and_lt_two_pow a hb

theorem or_lt (n a b : Nat) (ha : a < 2 ^ n) (hb : b < 2 ^ n) : a ||| b < 2 ^ n :=
  Nat.or_lt_two_pow ha hb

theorem xor_lt (n a b : Nat) (ha : a < 2 ^ n) (hb : b < 2 ^ n) : a ^^^ b < 2 ^ n :=
  Nat.xor_lt_two_pow ha hb

/-! The text of the panic -/

theorem foldLoop_first_mismatch (pre : String) (op : Nat → Nat → Nat)
    (before : List GF2Vector) (y : GF2Vector) (after : List (Option GF2Vector)) :
    ∀ z : GF2Vector, (∀ w ∈ before, w.sp.dim = z.sp.dim) → y.sp.dim ≠ z.sp.dim →
      foldLoop pre op z (before.map some ++ some y :: after) =
        Except.error (Fault.panic
          (pre ++ "z.dim = " ++ toString z.sp.dim ++
            " != " ++ toString y.sp.dim ++ " = y.dim")) := by
  induction before with
  | nil =>
    intro z _ hy
    exact foldLoop_cons_diff pre op z y after hy
  | cons w before ih =>
    intro z hb hy
    have hw : w.sp.dim = z.sp.dim := hb w (List.mem_cons_self _ _)
    rw [List.map_cons, List.cons_append, foldLoop_cons_same pre op z w _ hw]
    exact ih _ (fun u hu => hb u (List.mem_cons_of_mem _ hu)) hy

theorem and_text : "And: incompatible vector spaces: " ++ "z.dim = " =
    "And: incompatible vector spaces: z.dim = " := by decide

theorem or_text : "Or: incompatible vector spaces: " ++ "z.dim = " =
    "Or: incompatible vector spaces: z.dim = " := by decide

theorem xor_text : "Xor: incompatible vector spaces: " ++ "z.dim = " =
    "Xor: incompatible vector spaces: z.dim = " := by decide

/-! Two arguments -/

theorem fold_two (pre : String) (op : Nat → Nat → Nat) (x m : GF2Vector)
    (h : m.sp.dim = x.sp.dim) :
    foldLoop pre op x [some m] = Except.ok { sp := x.sp, val := op x.val m.val } := by
  rw [foldLoop_cons_same pre op x m [] h]
  rfl

theorem and_two (x m : GF2Vector) (h : m.sp.dim = x.sp.dim) :
    And [some x, some m] = Except.ok { sp := x.sp, val := x.val &&& m.val } := by
  rw [and_cons]
  exact fold_two _ _ x m h

theorem or_two (x m : GF2Vector) (h : m.sp.dim = x.sp.dim) :
    Or [some x, some m] = Except.ok { sp := x.sp, val := x.val ||| m.val } := by
  rw [or_cons]
  exact fold_two _ _ x m h

theorem xor_two (x m : GF2Vector) (h : m.sp.dim = x.sp.dim) :
    Xor [some x, some m] = Except.ok { sp := x.sp, val := x.val ^^^ m.val } := by
  rw [xor_cons]
  exact fold_two _ _ x m h

theorem and_two_diff (x m : GF2Vector) (h : m.sp.dim ≠ x.sp.dim) :
    And [some x, some m] = Except.error (Fault.panic
      ("And: incompatible vector spaces: z.dim = " ++ toString x.sp.dim ++
        " != " ++ toString m.sp.dim ++ " = y.dim")) := by
  rw [and_cons, ← and_text]
  exact foldLoop_cons_diff _ _ x m [] h

theorem or_two_diff (x m : GF2Vector) (h : m.sp.dim ≠ x.sp.dim) :
    Or [some x, some m] = Except.error (Fault.panic
      ("Or: incompatible vector spaces: z.dim = " ++ toString x.sp.dim ++
        " != " ++ toString m.sp.dim ++ " = y.dim")) := by
  rw [or_cons, ← or_text]
  exact foldLoop_cons_diff _ _ x m [] h

theorem xor_two_diff (x m : GF2Vector) (h : m.sp.dim ≠ x.sp.dim) :
    Xor [some x, some m] = Except.error (Fault.panic
      ("Xor: incompatible vector spaces: z.dim = " ++ toString x.sp.dim ++
        " != " ++ toString m.sp.dim ++ " = y.dim")) := by
  rw [xor_cons, ← xor_text]
  exact foldLoop_cons_diff _ _ x m [] h

theorem valid_ones_testBit (s : GF2VectorSpace) (hs : s.Valid) (j : Nat) :
    s.ones.testBit j = decide (j < s.dim) := by
  obtain ⟨-, -, hspec⟩ := valid_spec s hs
  rw [hspec.ones]
  exact Nat.testBit_two_pow_sub_one s.dim j

theorem valid_high_bit (x : GF2Vector) (hx : x.Valid) (j : Nat) (hj : x.sp.dim ≤ j) :
    x.val.testBit j = false :=
  (lt_two_pow_iff_bits x.val x.sp.dim).1 ((inv_iff_lt x hx.1).1 hx.2) j hj

/-! Commutativity and associativity -/

theorem valid_space_eq (s t : GF2VectorSpace) (hs : s.Valid) (ht : t.Valid)
    (hd : s.dim = t.dim) : s = t := by
  unfold GF2VectorSpace.Valid at hs ht
  rw [hd, ht] at hs
  injection hs with hs
  exact hs.symm

theorem foldl_assoc (op : Nat → Nat → Nat)
    (hassoc : ∀ a b c, op (op a b) c = op a (op b c)) (l : List Nat) :
    ∀ a b, List.foldl op (op a b) l = op a (List.foldl op b l) := by
  induction l with
  | nil => intro a b; rfl
  | cons c l ih =>
    intro a b
    rw [List.foldl_cons, List.foldl_cons, hassoc, ih]

theorem fold_split (pre : String) (op : Nat → Nat → Nat)
    (hassoc : ∀ a b c, op (op a b) c = op a (op b c))
    (x0 : GF2Vector) (rest : List GF2Vector) (y0 : GF2Vector) (ys : List GF2Vector)
    (hd : ∀ w ∈ rest ++ y0 :: ys, w.sp.dim = x0.sp.dim) :
    ∃ p q r, foldLoop pre op x0 (rest.map some) = Except.ok p ∧
      foldLoop pre op y0 (ys.map some) = Except.ok q ∧
      foldLoop pre op x0 ((rest ++ y0 :: ys).map some) = Except.ok r ∧
      foldLoop pre op p [some q] = Except.ok r ∧
      r.sp = x0.sp ∧
      r.val = List.foldl op x0.val ((rest ++ y0 :: ys).map GF2Vector.val) := by
  have hrest : ∀ w ∈ rest, w.sp.dim = x0.sp.dim :=
    fun w hw => hd w (List.mem_append_left _ hw)
  have hy0 : y0.sp.dim = x0.sp.dim :=
    hd y0 (List.mem_append_right _ (List.mem_cons_self _ _))
  have hys : ∀ w ∈ ys, w.sp.dim = y0.sp.dim := by
    intro w hw
    rw [hy0]
    exact hd w (List.mem_append_right _ (List.mem_cons_of_mem _ hw))
  refine ⟨_, _, _, foldLoop_ok pre op rest x0 hrest, foldLoop_ok pre op ys y0 hys,
    foldLoop_ok pre op (rest ++ y0 :: ys) x0 hd, ?_, rfl, rfl⟩
  have e : List.foldl op x0.val ((rest ++ y0 :: ys).map GF2Vector.val) =
      op (List.foldl op x0.val (rest.map GF2Vector.val))
        (List.foldl op y0.val (ys.map GF2Vector.val)) := by
    rw [List.map_append, List.foldl_append, List.map_cons, List.foldl_cons,
      foldl_assoc op hassoc]
  rw [e]
  exact fold_two pre op _ _ hy0

theorem fold_triple (pre : String) (op : Nat → Nat → Nat)
    (hassoc : ∀ a b c, op (op a b) c = op a (op b c))
    (a b c : GF2Vector) (hb : b.sp.dim = a.sp.dim) (hc : c.sp.dim = a.sp.dim) :
    ∃ ab bc r, foldLoop pre op a [some b] = Except.ok ab ∧
      foldLoop pre op b [some c] = Except.ok bc ∧
      foldLoop pre op a [some b, some c] = Except.ok r ∧
      foldLoop pre op ab [some c] = Except.ok r ∧
      foldLoop pre op a [some bc] = Except.ok r ∧
      r.sp = a.sp ∧ r.val = op (op a.val b.val) c.val := by
  have hcb : c.sp.dim = b.sp.dim := by rw [hc, hb]
  have hall : ∀ w ∈ [b, c], w.sp.dim = a.sp.dim := by
    intro w hw
    rcases List.mem_cons.1 hw with h | h
    · rw [h]; exact hb
    · rw [List.mem_singleton.1 h]; exact hc
  refine ⟨_, _, _, fold_two pre op a b hb, fold_two pre op b c hcb,
    foldLoop_ok pre op [b, c] a hall, fold_two pre op _ c hc, ?_, rfl, rfl⟩
  have h := fold_two pre op a ⟨b.sp, op b.val c.val⟩ hb
  rw [h]
  show Except.ok (⟨a.sp, op a.val (op b.val c.val)⟩ : GF2Vector) =
    Except.ok ⟨a.sp, op (op a.val b.val) c.val⟩
  rw [hassoc]

/-! Derived operations -/

theorem complementOr_eq (x : List (Option GF2Vector)) :
    ComplementOr x = notAfter (Or x) := by
  unfold ComplementOr notAfter
  cases Or x with
  | error e => rfl
  | ok z => rfl

theorem complementXor_eq (x : List (Option GF2Vector)) :
    ComplementXor x = notAfter (Xor x) := by
  unfold ComplementXor notAfter
  cases Xor x with
  | error e => rfl
  | ok z => rfl

theorem clearBits_some (x m : GF2Vector) :
    ClearBits (some x) (some m) =
      And [some x, some { sp := m.sp, val := m.sp.ones ^^^ m.val }] := rfl

theorem clearBits_bit (x m : GF2Vector) (hx : x.Valid) (hm : m.Valid)
    (hd : x.sp.dim = m.sp.dim) (j : Nat) :
    (x.val &&& (m.sp.ones ^^^ m.val)).testBit j =
      (x.val.testBit j && !(m.val.testBit j)) := by
  rw [Nat.testBit_and, Nat.testBit_xor, valid_ones_testBit m.sp hm.1]
  by_cases hj : j < m.sp.dim
  · simp [hj]
  · rw [valid_high_bit x hx j (by omega)]
    simp

theorem wordNot_bit (m j : Nat) :
    (wordNot m).testBit j = (decide (j < 64) ^^ m.testBit j) := by
  unfold wordNot UintSize
  rw [Nat.testBit_xor, Nat.testBit_two_pow_sub_one]

theorem clearBits_word (x m : GF2Vector) (hx : x.Valid) (hm : m.Valid)
    (hd : x.sp.dim = m.sp.dim) :
    x.val &&& (m.sp.ones ^^^ m.val) = x.val &&& wordNot m.val := by
  apply Nat.eq_of_testBit_eq
  intro j
  rw [clearBits_bit x m hx hm hd j, Nat.testBit_and, wordNot_bit]
  by_cases hj : j < 64
  · simp [hj]
  · have hx64 : x.val < 2 ^ j :=
      lt_of_lt_of_le (valid_vector_lt x hx).2 (Nat.pow_le_pow_right (by norm_num) (by omega))
    rw [Nat.testBit_lt_two_pow hx64]
    simp

/-! Counting bits -/

theorem countP_range_high (p : Nat → Bool) (d : Nat) (hp : ∀ j, d ≤ j → p j = false) :
    ∀ N, d ≤ N → (List.range N).countP p = (List.range d).countP p := by
  intro N hN
  induction N, hN using Nat.le_induction with
  | base => rfl
  | succ N hN ih =>
    rw [List.range_succ, List.countP_append, ih]
    simp [List.countP_cons, hp N hN]

theorem bitsOnesCount_eq_low (x : GF2Vector) (hx : x.Valid) :
    bitsOnesCount x.val = (List.range x.sp.dim).countP (fun j => x.val.testBit j) := by
  obtain ⟨-, h64, -⟩ := valid_spec x.sp hx.1
  unfold bitsOnesCount UintSize
  exact countP_range_high _ x.sp.dim (fun j hj => valid_high_bit x hx j hj) 64 h64

theorem card_filter_range (p : Nat → Bool) (d : Nat) :
    (Finset.filter (fun j => p j = true) (Finset.range d)).card =
      (List.range d).countP p := by
  show Multiset.card (Multiset.filter (fun j => p j = true) (Multiset.range d)) = _
  unfold Multiset.range
  rw [Multiset.filter_coe, Multiset.coe_card, List.countP_eq_length_filter]
  congr 2
  funext j
  simp

theorem ncard_setBits (x d : Nat) (h : ∀ j, d ≤ j → x.testBit j = false) :
    Set.ncard {j | x.testBit j = true} =
      (List.range d).countP (fun j => x.testBit j) := by
  have e : {j | x.testBit j = true} =
      ((Finset.filter (fun j => x.testBit j = true) (Finset.range d) : Finset Nat) :
        Set Nat) := by
    ext j
    simp only [Set.mem_setOf_eq, Finset.coe_filter, Finset.mem_range]
    constructor
    · intro hj
      refine ⟨?_, hj⟩
      by_contra hc
      rw [h j (by omega)] at hj
      cases hj
    · intro hj
      exact hj.2
  rw [e, Set.ncard_coe_Finset, card_filter_range]

theorem or_first_mismatch (x0 : GF2Vector) (before : List GF2Vector)
    (y : GF2Vector) (after : List (Option GF2Vector))
    (hb : ∀ w ∈ before, w.sp.dim = x0.sp.dim) (hy : y.sp.dim ≠ x0.sp.dim) :
    Or (some x0 :: (before.map some ++ some y :: after)) =
      Except.error (Fault.panic
        ("Or: incompatible vector spaces: z.dim = " ++ toString x0.sp.dim ++
          " != " ++ toString y.sp.dim ++ " = y.dim")) := by
  rw [or_cons, ← or_text]
  exact foldLoop_first_mismatch _ _ before y after x0 hb hy

theorem xor_first_mismatch (x0 : GF2Vector) (before : List GF2Vector)
    (y : GF2Vector) (after : List (Option GF2Vector))
    (hb : ∀ w ∈ before, w.sp.dim = x0.sp.dim) (hy : y.sp.dim ≠ x0.sp.dim) :
    Xor (some x0 :: (before.map some ++ some y :: after)) =
      Except.error (Fault.panic
        ("Xor: incompatible vector spaces: z.dim = " ++ toString x0.sp.dim ++
          " != " ++ toString y.sp.dim ++ " = y.dim")) := by
  rw [xor_cons, ← xor_text]
  exact foldLoop_first_mismatch _ _ before y after x0 hb hy

theorem or_ok (x0 : GF2Vector) (rest : List GF2Vector)
    (h : ∀ y ∈ rest, y.sp.dim = x0.sp.dim) :
    Or ((x0 :: rest).map some) = Except.ok
      { sp := x0.sp, val := List.foldl (fun a b => a ||| b) x0.val (rest.map GF2Vector.val) } := by
  rw [List.map_cons, or_cons]
  exact foldLoop_ok _ _ rest x0 h

theorem xor_ok (x0 : GF2Vector) (rest : List GF2Vector)
    (h : ∀ y ∈ rest, y.sp.dim = x0.sp.dim) :
    Xor ((x0 :: rest).map some) = Except.ok
      { sp := x0.sp, val := List.foldl (fun a b => a ^^^ b) x0.val (rest.map GF2Vector.val) } := by
  rw [List.map_cons, xor_cons]
  exact foldLoop_ok _ _ rest x0 h

/-! Weight and scalar product -/

theorem bitsOnesCount_ones (d : Nat) (hd : d ≤ 64) : bitsOnesCount (2 ^ d - 1) = d := by
  unfold bitsOnesCount UintSize
  have hhigh : ∀ j, d ≤ j → (2 ^ d - 1).testBit j = false := by
    intro j hj
    rw [Nat.testBit_two_pow_sub_one]
    simp
    omega
  rw [countP_range_high _ d hhigh 64 hd]
  have hall : ∀ j ∈ List.range d, (2 ^ d - 1).testBit j = true := by
    intro j hj
    rw [Nat.testBit_two_pow_sub_one]
    simpa using List.mem_range.1 hj
  rw [List.countP_eq_length.2 hall, List.length_range]

theorem scalarProduct_of_ok (a b : Option GF2Vector) (r : GF2Vector)
    (h : And [a, b] = Except.ok r) : ScalarProduct a b = OnesCount (some r) := by
  unfold ScalarProduct
  rw [h]
  rfl

theorem scalarProduct_of_error (a b : Option GF2Vector) (e : Fault)
    (h : And [a, b] = Except.error e) : ScalarProduct a b = Except.error e := by
  unfold ScalarProduct
  rw [h]
  rfl

theorem scalarProduct_same (a b : GF2Vector) (h : b.sp.dim = a.sp.dim) :
    ScalarProduct (some a) (some b) = Except.ok (bitsOnesCount (a.val &&& b.val)) := by
  rw [scalarProduct_of_ok _ _ _ (and_two a b h)]
  rfl

/-! Absent vectors and the ways a fold can fail -/

theorem foldLoop_none (pre : String) (op : Nat → Nat → Nat)
    (l : List (Option GF2Vector)) :
    ∀ z : GF2Vector, none ∈ l → ∃ e, foldLoop pre op z l = Except.error e := by
  induction l with
  | nil => intro z h; cases h
  | cons p rest ih =>
    intro z h
    cases p with
    | none => exact ⟨Fault.nilDereference, rfl⟩
    | some y =>
      have hrest : none ∈ rest := by
        rcases List.mem_cons.1 h with hc | hc
        · cases hc
        · exact hc
      by_cases hd : y.sp.dim = z.sp.dim
      · rw [foldLoop_cons_same pre op z y rest hd]
        exact ih _ hrest
      · exact ⟨_, foldLoop_cons_diff pre op z y rest hd⟩

theorem foldLoop_error_form (pre : String) (op : Nat → Nat → Nat)
    (rest : List GF2Vector) :
    ∀ (z : GF2Vector) (e : Fault), foldLoop pre op z (rest.map some) = Except.error e →
      ∃ y, y ∈ rest ∧ y.sp.dim ≠ z.sp.dim ∧
        e = Fault.panic (pre ++ "z.dim = " ++ toString z.sp.dim ++
          " != " ++ toString y.sp.dim ++ " = y.dim") := by
  induction rest with
  | nil =>
    intro z e h
    cases h
  | cons y rest ih =>
    intro z e h
    by_cases hd : y.sp.dim = z.sp.dim
    · rw [List.map_cons, foldLoop_cons_same pre op z y _ hd] at h
      obtain ⟨w, hw, hwd, he⟩ := ih _ e h
      exact ⟨w, List.mem_cons_of_mem _ hw, hwd, he⟩
    · rw [List.map_cons, foldLoop_cons_diff pre op z y _ hd] at h
      injection h with h
      exact ⟨y, List.mem_cons_self _ _, hd, h.symm⟩

theorem and_none (x : List (Option GF2Vector)) (h : none ∈ x) :
    ∃ e, And x = Except.error e := by
  cases x with
  | nil => cases h
  | cons p rest =>
    cases p with
    | none => exact ⟨Fault.nilDereference, rfl⟩
    | some x0 =>
      rw [and_cons]
      refine foldLoop_none _ _ rest x0 ?_
      rcases List.mem_cons.1 h with hc | hc
      · cases hc
      · exact hc

theorem or_none (x : List (Option GF2Vector)) (h : none ∈ x) :
    ∃ e, Or x = Except.error e := by
  cases x with
  | nil => cases h
  | cons p rest =>
    cases p with
    | none => exact ⟨Fault.nilDereference, rfl⟩
    | some x0 =>
      rw [or_cons]
      refine foldLoop_none _ _ rest x0 ?_
      rcases List.mem_cons.1 h with hc | hc
      · cases hc
      · exact hc

theorem xor_none (x : List (Option GF2Vector)) (h : none ∈ x) :
    ∃ e, Xor x = Except.error e := by
  cases x with
  | nil => cases h
  | cons p rest =>
    cases p with
    | none => exact ⟨Fault.nilDereference, rfl⟩
    | some x0 =>
      rw [xor_cons]
      refine foldLoop_none _ _ rest x0 ?_
      rcases List.mem_cons.1 h with hc | hc
      · cases hc
      · exact hc

/-! De Morgan -/

theorem mask_deMorgan_or (d a b : Nat) (ha : a < 2 ^ d) (hb : b < 2 ^ d) :
    (2 ^ d - 1) ^^^ (a ||| b) = ((2 ^ d - 1) ^^^ a) &&& ((2 ^ d - 1) ^^^ b) := by
  apply Nat.eq_of_testBit_eq
  intro j
  simp only [Nat.testBit_xor, Nat.testBit_or, Nat.testBit_and, Nat.testBit_two_pow_sub_one]
  by_cases hj : j < d
  · simp only [hj, decide_True]
    cases a.testBit j <;> cases b.testBit j <;> rfl
  · rw [(lt_two_pow_iff_bits a d).1 ha j (by omega),
      (lt_two_pow_iff_bits b d).1 hb j (by omega)]
    simp [hj]

theorem mask_deMorgan_and (d a b : Nat) (ha : a < 2 ^ d) (hb : b < 2 ^ d) :
    (2 ^ d - 1) ^^^ (a &&& b) = ((2 ^ d - 1) ^^^ a) ||| ((2 ^ d - 1) ^^^ b) := by
  apply Nat.eq_of_testBit_eq
  intro j
  simp only [Nat.testBit_xor, Nat.testBit_or, Nat.testBit_and, Nat.testBit_two_pow_sub_one]
  by_cases hj : j < d
  · simp only [hj, decide_True]
    cases a.testBit j <;> cases b.testBit j <;> rfl
  · rw [(lt_two_pow_iff_bits a d).1 ha j (by omega),
      (lt_two_pow_iff_bits b d).1 hb j (by omega)]
    simp [hj]

theorem valid_ones_eq (s : GF2VectorSpace) (hs : s.Valid) : s.ones = 2 ^ s.dim - 1 :=
  (valid_spec s hs).2.2.ones

/-! The binary rendering -/

theorem tdc_append (fuel : Nat) : ∀ (n : Nat) (ds : List Char),
    Nat.toDigitsCore 2 fuel n ds = Nat.toDigitsCore 2 fuel n [] ++ ds := by
  induction fuel with
  | zero => intro n ds; rfl
  | succ f ih =>
    intro n ds
    simp only [Nat.toDigitsCore]
    by_cases h : n / 2 = 0
    · simp [h]
    · simp only [h, if_false]
      rw [ih (n / 2) (Nat.digitChar (n % 2) :: ds), ih (n / 2) [Nat.digitChar (n % 2)]]
      simp

theorem tdc_fuel (f1 : Nat) : ∀ (f2 n : Nat), n < f1 → n < f2 →
    Nat.toDigitsCore 2 f1 n [] = Nat.toDigitsCore 2 f2 n [] := by
  induction f1 with
  | zero => intro f2 n h; omega
  | succ f ih =>
    intro f2 n h1 h2
    obtain ⟨g, rfl⟩ : ∃ g, f2 = g + 1 := ⟨f2 - 1, by omega⟩
    simp only [Nat.toDigitsCore]
    by_cases h : n / 2 = 0
    · simp [h]
    · simp only [h, if_false]
      rw [tdc_append f, tdc_append g, ih g (n / 2) (by omega) (by omega)]

theorem toDigits_small (n : Nat) (h : n < 2) : Nat.toDigits 2 n = [Nat.digitChar (n % 2)] := by
  have h0 : n / 2 = 0 := by omega
  have h1 : n % 2 = n := by omega
  simp [Nat.toDigits, Nat.toDigitsCore, h0]

theorem toDigits_step (n : Nat) (h : 2 ≤ n) :
    Nat.toDigits 2 n = Nat.toDigits 2 (n / 2) ++ [Nat.digitChar (n % 2)] := by
  have h0 : ¬ n / 2 = 0 := by omega
  have e : Nat.toDigits 2 n = Nat.toDigitsCore 2 n (n / 2) [Nat.digitChar (n % 2)] := by
    unfold Nat.toDigits
    simp only [Nat.toDigitsCore, h0, if_false]
  rw [e, tdc_append, tdc_fuel n (n / 2 + 1) (n / 2) (by omega) (by omega)]
  rfl

theorem digitChar_mod_two (n : Nat) : Nat.digitChar (n % 2) = bitChar (n.testBit 0) := by
  rw [Nat.testBit_zero]
  rcases Nat.mod_two_eq_zero_or_one n with h | h <;> rw [h] <;> rfl

theorem msbDigits_succ (d n : Nat) :
    msbDigits (d + 1) n = msbDigits d (n / 2) ++ [bitChar (n.testBit 0)] := by
  unfold msbDigits
  rw [List.range_succ_eq_map, List.reverse_cons, List.map_append, ← List.map_reverse,
    List.map_map]
  congr 1
  apply List.map_congr_left
  intro i _
  show bitChar (n.testBit (i + 1)) = bitChar ((n / 2).testBit i)
  rw [Nat.testBit_succ]

theorem msbDigits_zero (d : Nat) : msbDigits d 0 = List.replicate d '0' := by
  unfold msbDigits
  rw [List.eq_replicate_iff]
  constructor
  · simp
  · intro c hc
    obtain ⟨i, -, rfl⟩ := List.mem_map.1 hc
    simp [bitChar]

theorem padded_eq_msb (k : Nat) : ∀ n, n < 2 ^ (k + 1) →
    (Nat.toDigits 2 n).length ≤ k + 1 ∧
    List.replicate (k + 1 - (Nat.toDigits 2 n).length) '0' ++ Nat.toDigits 2 n =
      msbDigits (k + 1) n := by
  induction k with
  | zero =>
    intro n hn
    have h2 : n < 2 := by simpa using hn
    rw [toDigits_small n h2, msbDigits_succ, digitChar_mod_two]
    have h0 : n / 2 = 0 := by omega
    simp [h0, msbDigits]
  | succ k ih =>
    intro n hn
    rw [msbDigits_succ]
    by_cases h2 : n < 2
    · have h0 : n / 2 = 0 := by omega
      rw [toDigits_small n h2, digitChar_mod_two, h0, msbDigits_zero]
      simp
    · have hlt : n / 2 < 2 ^ (k + 1) := by
        rw [pow_succ] at hn
        omega
      obtain ⟨hlen, heq⟩ := ih (n / 2) hlt
      rw [toDigits_step n (by omega), digitChar_mod_two, List.length_append,
        List.length_singleton]
      refine ⟨by omega, ?_⟩
      rw [← heq, List.append_assoc]
      congr 2
      omega

theorem msbDigits_eq_map (d n : Nat) :
    msbDigits d n = (List.range d).map (fun j => bitChar (n.testBit (d - 1 - j))) := by
  unfold msbDigits
  conv_lhs => rw [List.range_eq_range', List.reverse_range', List.map_map]
  apply List.map_congr_left
  intro j _
  simp

theorem msbDigits_inj (d n m : Nat) (hn : n < 2 ^ d) (hm : m < 2 ^ d)
    (h : msbDigits d n = msbDigits d m) : n = m := by
  apply Nat.eq_of_testBit_eq
  intro i
  by_cases hi : i < d
  · unfold msbDigits at h
    have hmem : i ∈ (List.range d).reverse := by simpa using hi
    have := (List.map_inj_left.1 h) i hmem
    revert this
    cases n.testBit i <;> cases m.testBit i <;> simp [bitChar]
  · rw [Nat.testBit_lt_two_pow (lt_of_lt_of_le hn (Nat.pow_le_pow_right (by norm_num) (by omega))),
      Nat.testBit_lt_two_pow (lt_of_lt_of_le hm (Nat.pow_le_pow_right (by norm_num) (by omega)))]

theorem string_some (v : GF2Vector) :
    GF2Vector.String (some v) = Except.ok (fmtBinary v.sp.dim v.val) := rfl

theorem fmtBinary_eq (d n : Nat) (hd : 1 ≤ d) (hn : n < 2 ^ d) :
    fmtBinary d n = String.mk (msbDigits d n) := by
  obtain ⟨k, rfl⟩ : ∃ k, d = k + 1 := ⟨d - 1, by omega⟩
  unfold fmtBinary
  exact congrArg String.mk (padded_eq_msb k n hn).2

theorem msbDigits_length (d n : Nat) : (msbDigits d n).length = d := by
  simp [msbDigits]

/-! Memory is kept -/

theorem Heap.keeps_refl (h : Heap) : h.Keeps h := ⟨rfl, fun _ _ hc => hc⟩

theorem Heap.keeps_trans {h1 h2 h3 : Heap} (h12 : h1.Keeps h2) (h23 : h2.Keeps h3) :
    h1.Keeps h3 :=
  ⟨h23.1.trans h12.1, fun a c hc => h23.2 a c (h12.2 a c hc)⟩

theorem Heap.keeps_newVec (h : Heap) (c : VecCell) : h.Keeps (h.newVec c).2 := by
  refine ⟨rfl, ?_⟩
  intro a c' hc
  show (h.vecs ++ [c])[a]? = some c'
  have hlt : a < h.vecs.length := (List.getElem?_eq_some.1 hc).1
  rw [List.getElem?_append_left hlt]
  exact hc

theorem Heap.keeps_setVal (h0 h : Heap) (z v : Nat) (hk : h0.Keeps h)
    (hz : h0.vecs.length ≤ z) : h0.Keeps (h.setVal z v) := by
  unfold Heap.setVal
  cases hg : h.vecs[z]? with
  | none => exact hk
  | some c =>
    refine ⟨hk.1, ?_⟩
    intro a c' hc
    have hlt : a < h0.vecs.length := (List.getElem?_eq_some.1 hc).1
    show (h.vecs.set z _)[a]? = some c'
    rw [List.getElem?_set_ne (by omega)]
    exact hk.2 a c' hc

theorem Heap.length_setVal (h : Heap) (z v : Nat) :
    (h.setVal z v).vecs.length = h.vecs.length := by
  unfold Heap.setVal
  cases h.vecs[z]? with
  | none => rfl
  | some c => simp

theorem foldLoopMem_keeps (pre : String) (op : Nat → Nat → Nat) (z : Nat) (h0 : Heap)
    (hz : h0.vecs.length ≤ z) (l : List (Option Nat)) :
    ∀ h, h0.Keeps h → h0.Keeps (foldLoopMem pre op z h l).2 := by
  induction l with
  | nil => intro h hk; exact hk
  | cons y rest ih =>
    intro h hk
    unfold foldLoopMem
    cases hr : h.loopReads z y with
    | error e => exact hk
    | ok r =>
      obtain ⟨zc, zs, yc, ys⟩ := r
      simp only
      by_cases hd : (zs.dim != ys.dim) = true
      · rw [if_pos hd]
        exact hk
      · rw [if_neg hd]
        exact ih _ (Heap.keeps_setVal h0 h z _ hk hz)

theorem andLoopMem_eq (z : Nat) (l : List (Option Nat)) : ∀ h,
    andLoopMem z h l =
      foldLoopMem "And: incompatible vector spaces: " (fun a b => a &&& b) z h l := by
  induction l with
  | nil => intro h; rfl
  | cons y rest ih =>
    intro h
    unfold andLoopMem foldLoopMem
    cases h.loopReads z y with
    | error e => rfl
    | ok r =>
      obtain ⟨zc, zs, yc, ys⟩ := r
      simp only [ih]

theorem orLoopMem_eq (z : Nat) (l : List (Option Nat)) : ∀ h,
    orLoopMem z h l =
      foldLoopMem "Or: incompatible vector spaces: " (fun a b => a ||| b) z h l := by
  induction l with
  | nil => intro h; rfl
  | cons y rest ih =>
    intro h
    unfold orLoopMem foldLoopMem
    cases h.loopReads z y with
    | error e => rfl
    | ok r =>
      obtain ⟨zc, zs, yc, ys⟩ := r
      simp only [ih]

theorem xorLoopMem_eq (z : Nat) (l : List (Option Nat)) : ∀ h,
    xorLoopMem z h l =
      foldLoopMem "Xor: incompatible vector spaces: " (fun a b => a ^^^ b) z h l := by
  induction l with
  | nil => intro h; rfl
  | cons y rest ih =>
    intro h
    unfold xorLoopMem foldLoopMem
    cases h.loopReads z y with
    | error e => rfl
    | ok r =>
      obtain ⟨zc, zs, yc, ys⟩ := r
      simp only [ih]

theorem startLoop_keeps (pre : String) (op : Nat → Nat → Nat) (h : Heap) (c : VecCell)
    (rest : List (Option Nat)) :
    h.Keeps (foldLoopMem pre op (h.newVec c).1 (h.newVec c).2 rest).2 :=
  foldLoopMem_keeps pre op _ h (le_refl _) rest _ (Heap.keeps_newVec h c)

theorem andMem_keeps (h : Heap) (x : List (Option Nat)) : h.Keeps (AndMem h x).2 := by
  unfold AndMem
  cases x with
  | nil => exact Heap.keeps_refl h
  | cons p rest =>
    simp only
    cases h.readVec p with
    | error e => exact Heap.keeps_refl h
    | ok c =>
      simp only [andLoopMem_eq]
      exact startLoop_keeps _ _ h c rest

theorem orMem_keeps (h : Heap) (x : List (Option Nat)) : h.Keeps (OrMem h x).2 := by
  unfold OrMem
  cases x with
  | nil => exact Heap.keeps_refl h
  | cons p rest =>
    simp only
    cases h.readVec p with
    | error e => exact Heap.keeps_refl h
    | ok c =>
      simp only [orLoopMem_eq]
      exact startLoop_keeps _ _ h c rest

theorem xorMem_keeps (h : Heap) (x : List (Option Nat)) : h.Keeps (XorMem h x).2 := by
  unfold XorMem
  cases x with
  | nil => exact Heap.keeps_refl h
  | cons p rest =>
    simp only
    cases h.readVec p with
    | error e => exact Heap.keeps_refl h
    | ok c =>
      simp only [xorLoopMem_eq]
      exact startLoop_keeps _ _ h c rest

theorem notMem_keeps (h : Heap) (x : Option Nat) : h.Keeps (NotMem h x).2 := by
  unfold NotMem
  cases h.readVec x with
  | error e => exact Heap.keeps_refl h
  | ok xc =>
    simp only
    cases h.readSpace xc.sp with
    | error e => exact Heap.keeps_refl h
    | ok s => exact Heap.keeps_newVec h _

theorem onesCountMem_keeps (h : Heap) (x : Option Nat) : h.Keeps (OnesCountMem h x).2 := by
  unfold OnesCountMem
  cases h.readVec x with
  | error e => exact Heap.keeps_refl h
  | ok c => exact Heap.keeps_refl h

theorem complementOrMem_keeps (h : Heap) (x : List (Option Nat)) :
    h.Keeps (ComplementOrMem h x).2 := by
  unfold ComplementOrMem
  have hk := orMem_keeps h x
  rcases hr : OrMem h x with ⟨r, h1⟩
  rw [hr] at hk
  cases r with
  | error e => exact hk
  | ok z => exact Heap.keeps_trans hk (notMem_keeps h1 z)

theorem complementXorMem_keeps (h : Heap) (x : List (Option Nat)) :
    h.Keeps (ComplementXorMem h x).2 := by
  unfold ComplementXorMem
  have hk := xorMem_keeps h x
  rcases hr : XorMem h x with ⟨r, h1⟩
  rw [hr] at hk
  cases r with
  | error e => exact hk
  | ok z => exact Heap.keeps_trans hk (notMem_keeps h1 z)

theorem clearBitsMem_keeps (h : Heap) (x m : Option Nat) :
    h.Keeps (ClearBitsMem h x m).2 := by
  unfold ClearBitsMem
  have hk := notMem_keeps h m
  rcases hr : NotMem h m with ⟨r, h1⟩
  rw [hr] at hk
  cases r with
  | error e => exact hk
  | ok nm => exact Heap.keeps_trans hk (andMem_keeps h1 _)

theorem scalarProductMem_keeps (h : Heap) (a b : Option Nat) :
    h.Keeps (ScalarProductMem h a b).2 := by
  unfold ScalarProductMem
  have hk := andMem_keeps h [a, b]
  rcases hr : AndMem h [a, b] with ⟨r, h1⟩
  rw [hr] at hk
  cases r with
  | error e => exact hk
  | ok prod => exact Heap.keeps_trans hk (onesCountMem_keeps h1 prod)

theorem map_fresh (r : Except Fault Unit) (z : Nat) (q : Option Nat)
    (h : r.map (fun _ => some z) = Except.ok q) : q = some z := by
  cases r with
  | error e => cases h
  | ok u =>
    injection h with h
    exact h.symm

theorem andMem_fresh (h : Heap) (x : List (Option Nat)) (q : Option Nat)
    (hq : (AndMem h x).1 = Except.ok q) : q = some h.vecs.length := by
  unfold AndMem at hq
  cases x with
  | nil => cases hq
  | cons p rest =>
    simp only at hq
    cases hr : h.readVec p with
    | error e => rw [hr] at hq; cases hq
    | ok c =>
      rw [hr] at hq
      exact map_fresh _ _ _ hq

theorem orMem_fresh (h : Heap) (x : List (Option Nat)) (q : Option Nat)
    (hq : (OrMem h x).1 = Except.ok q) : q = some h.vecs.length := by
  unfold OrMem at hq
  cases x with
  | nil => cases hq
  | cons p rest =>
    simp only at hq
    cases hr : h.readVec p with
    | error e => rw [hr] at hq; cases hq
    | ok c =>
      rw [hr] at hq
      exact map_fresh _ _ _ hq

theorem xorMem_fresh (h : Heap) (x : List (Option Nat)) (q : Option Nat)
    (hq : (XorMem h x).1 = Except.ok q) : q = some h.vecs.length := by
  unfold XorMem at hq
  cases x with
  | nil => cases hq
  | cons p rest =>
    simp only at hq
    cases hr : h.readVec p with
    | error e => rw [hr] at hq; cases hq
    | ok c =>
      rw [hr] at hq
      exact map_fresh _ _ _ hq

/-! Weight of the complement -/

theorem countLow_xor (d x : Nat) :
    (List.range d).countP (fun j => ((2 ^ d - 1) ^^^ x).testBit j) +
      (List.range d).countP (fun j => x.testBit j) = d := by
  have hlen := @List.length_eq_countP_add_countP _ (fun j => x.testBit j) (List.range d)
  rw [List.length_range] at hlen
  have hc : (List.range d).countP (fun j => ((2 ^ d - 1) ^^^ x).testBit j) =
      (List.range d).countP (fun a => decide (¬ x.testBit a = true)) := by
    apply List.countP_congr
    intro j hj
    have hjd : j < d := List.mem_range.1 hj
    rw [Nat.testBit_xor, Nat.testBit_two_pow_sub_one]
    simp [hjd]
  rw [hc]
  omega

theorem countLow_eq_dim (d x : Nat) (hx : x < 2 ^ d) :
    (List.range d).countP (fun j => x.testBit j) = d ↔ x = 2 ^ d - 1 := by
  constructor
  · intro h
    have hall : ∀ j ∈ List.range d, x.testBit j = true := by
      have h' : (List.range d).countP (fun j => x.testBit j) = (List.range d).length := by
        rw [h, List.length_range]
      exact List.countP_eq_length.1 h'
    apply Nat.eq_of_testBit_eq
    intro j
    rw [Nat.testBit_two_pow_sub_one]
    by_cases hj : j < d
    · rw [hall j (List.mem_range.2 hj)]
      simp [hj]
    · rw [Nat.testBit_lt_two_pow
        (lt_of_lt_of_le hx (Nat.pow_le_pow_right (by norm_num) (by omega)))]
      simp [hj]
  · intro h
    have hall : ∀ j ∈ List.range d, (fun j => x.testBit j) j = true := by
      intro j hj
      show x.testBit j = true
      rw [h, Nat.testBit_two_pow_sub_one]
      simpa using List.mem_range.1 hj
    rw [List.countP_eq_length.2 hall, List.length_range]

theorem countLow_eq_zero (d x : Nat) (hx : x < 2 ^ d) :
    (List.range d).countP (fun j => x.testBit j) = 0 ↔ x = 0 := by
  constructor
  · intro h
    have hnone := List.countP_eq_zero.1 h
    apply Nat.eq_of_testBit_eq
    intro j
    rw [Nat.zero_testBit]
    by_cases hj : j < d
    · have := hnone j (List.mem_range.2 hj)
      simpa using this
    · exact Nat.testBit_lt_two_pow
        (lt_of_lt_of_le hx (Nat.pow_le_pow_right (by norm_num) (by omega)))
  · intro h
    rw [h]
    apply List.countP_eq_zero.2
    intro j _
    simp

theorem mask_xor_eq_zero (o x : Nat) : o ^^^ x = 0 ↔ x = o := by
  rw [Nat.xor_eq_zero]
  exact eq_comm

theorem mask_xor_eq_self (o x : Nat) : o ^^^ x = o ↔ x = 0 := by
  constructor
  · intro h
    have h2 : o ^^^ x = o ^^^ 0 := by rw [h, Nat.xor_zero]
    exact Nat.xor_right_inj.1 h2
  · intro h
    rw [h, Nat.xor_zero]

theorem isZeros_some (v : GF2Vector) :
    GF2Vector.IsZeros (some v) = Except.ok (v.val == 0) := rfl

theorem isOnes_some (v : GF2Vector) :
    GF2Vector.IsOnes (some v) = Except.ok (v.val == v.sp.ones) := rfl

theorem ok_beq_true (a b : Nat) :
    (Except.ok (a == b) : Except Fault Bool) = Except.ok true ↔ a = b := by
  constructor
  · intro h
    injection h with h
    exact beq_iff_eq.1 h
  · intro h
    rw [beq_iff_eq.2 h]

/-! The two embeddings agree on vectors that have a space -/

theorem Heap.vector_some (h : Heap) (p : Option Nat) (v : GF2Vector)
    (hv : h.vector p = some v) :
    ∃ c, h.readVec p = Except.ok c ∧ h.readSpace c.sp = Except.ok v.sp ∧ c.val = v.val := by
  unfold Heap.vector at hv
  cases hc : h.readVec p with
  | error e => rw [hc] at hv; cases hv
  | ok c =>
    rw [hc] at hv
    simp only at hv
    cases hs : h.readSpace c.sp with
    | error e => rw [hs] at hv; cases hv
    | ok s =>
      rw [hs] at hv
      simp only at hv
      injection hv with hv
      subst hv
      exact ⟨c, rfl, hs, rfl⟩

theorem Heap.vector_of_reads (h : Heap) (p : Option Nat) (c : VecCell)
    (s : GF2VectorSpace) (hc : h.readVec p = Except.ok c)
    (hs : h.readSpace c.sp = Except.ok s) :
    h.vector p = some { sp := s, val := c.val } := by
  unfold Heap.vector
  rw [hc]
  simp only
  rw [hs]

theorem Heap.readVec_at (h : Heap) (z : Nat) (c : VecCell) (hz : h.vecs[z]? = some c) :
    h.readVec (some z) = Except.ok c := by
  unfold Heap.readVec
  simp only
  rw [hz]

theorem Heap.readVec_keeps {h h' : Heap} (hk : h.Keeps h') (p : Option Nat) (c : VecCell)
    (hc : h.readVec p = Except.ok c) : h'.readVec p = Except.ok c := by
  cases p with
  | none => cases hc
  | some a =>
    unfold Heap.readVec at hc
    simp only at hc
    cases hg : h.vecs[a]? with
    | none => rw [hg] at hc; cases hc
    | some c' =>
      rw [hg] at hc
      injection hc with hc
      subst hc
      exact Heap.readVec_at h' a c' (hk.2 a c' hg)

theorem Heap.readSpace_keeps {h h' : Heap} (hk : h.Keeps h') (q : Option Nat) :
    h'.readSpace q = h.readSpace q := by
  unfold Heap.readSpace
  rw [hk.1]

theorem Heap.vector_keeps {h h' : Heap} (hk : h.Keeps h') (p : Option Nat) (v : GF2Vector)
    (hv : h.vector p = some v) : h'.vector p = some v := by
  obtain ⟨c, hc, hs, hval⟩ := Heap.vector_some h p v hv
  have h1 := Heap.vector_of_reads h' p c v.sp (Heap.readVec_keeps hk p c hc)
    ((Heap.readSpace_keeps hk c.sp).trans hs)
  rw [h1, hval]

theorem Heap.setVal_at (h : Heap) (z : Nat) (c : VecCell) (v : Nat)
    (hz : h.vecs[z]? = some c) :
    (h.setVal z v).vecs[z]? = some { sp := c.sp, val := v } := by
  unfold Heap.setVal
  rw [hz]
  simp only
  have hlt : z < h.vecs.length := (List.getElem?_eq_some.1 hz).1
  rw [List.getElem?_set_self hlt]

theorem Heap.newVec_at (h : Heap) (c : VecCell) :
    (h.newVec c).2.vecs[(h.newVec c).1]? = some c := by
  show (h.vecs ++ [c])[h.vecs.length]? = some c
  simp

theorem Heap.loopReads_eq (h : Heap) (z : Nat) (y : Option Nat) (zc yc : VecCell)
    (zs ys : GF2VectorSpace) (h1 : h.readVec (some z) = Except.ok zc)
    (h2 : h.readSpace zc.sp = Except.ok zs) (h3 : h.readVec y = Except.ok yc)
    (h4 : h.readSpace yc.sp = Except.ok ys) :
    h.loopReads z y = Except.ok (zc, zs, yc, ys) := by
  unfold Heap.loopReads
  rw [h1]
  show (do
    let zs ← h.readSpace zc.sp
    let yc ← h.readVec y
    let ys ← h.readSpace yc.sp
    pure (zc, zs, yc, ys)) = _
  rw [h2]
  show (do
    let yc ← h.readVec y
    let ys ← h.readSpace yc.sp
    pure (zc, zs, yc, ys)) = _
  rw [h3]
  show (do
    let ys ← h.readSpace yc.sp
    pure (zc, zs, yc, ys)) = _
  rw [h4]
  rfl

theorem foldLoopMem_cons (pre : String) (op : Nat → Nat → Nat) (z : Nat) (h : Heap)
    (y : Option Nat) (rest : List (Option Nat)) (zc yc : VecCell)
    (zs ys : GF2VectorSpace) (hr : h.loopReads z y = Except.ok (zc, zs, yc, ys)) :
    foldLoopMem pre op z h (y :: rest) =
      if zs.dim != ys.dim then
        (Except.error (Fault.panic
          (pre ++ "z.dim = " ++ toString zs.dim ++
            " != " ++ toString ys.dim ++ " = y.dim")), h)
      else
        foldLoopMem pre op z (h.setVal z (op zc.val yc.val)) rest := by
  conv_lhs => unfold foldLoopMem
  rw [hr]

theorem foldLoopMem_sim (pre : String) (op : Nat → Nat → Nat) (h0 : Heap) (z : Nat)
    (hz : h0.vecs.length ≤ z) (spz : Option Nat) (sz : GF2VectorSpace)
    (hsz : h0.readSpace spz = Except.ok sz) :
    ∀ (ps : List (Option Nat)) (vs : List GF2Vector), ps.map h0.vector = vs.map some →
    ∀ (h : Heap) (acc : Nat), h0.Keeps h → h.vecs[z]? = some { sp := spz, val := acc } →
      (∀ r, foldLoop pre op { sp := sz, val := acc } (vs.map some) = Except.ok r →
        ∃ h', foldLoopMem pre op z h ps = (Except.ok (), h') ∧ h0.Keeps h' ∧
          h'.vecs[z]? = some { sp := spz, val := r.val } ∧ r.sp = sz) ∧
      (∀ e, foldLoop pre op { sp := sz, val := acc } (vs.map some) = Except.error e →
        (foldLoopMem pre op z h ps).1 = Except.error e) := by
  intro ps
  induction ps with
  | nil =>
    intro vs hvs h acc hk hcell
    cases vs with
    | cons v vs => cases hvs
    | nil =>
      refine ⟨?_, ?_⟩
      · intro r hr
        injection hr with hr
        subst hr
        exact ⟨h, rfl, hk, hcell, rfl⟩
      · intro e he
        cases he
  | cons y ps ih =>
    intro vs hvs h acc hk hcell
    cases vs with
    | nil => cases hvs
    | cons v vs =>
      rw [List.map_cons, List.map_cons] at hvs
      injection hvs with hy hrest
      obtain ⟨c, hc, hs, hval⟩ := Heap.vector_some h0 y v hy
      have hreads : h.loopReads z y =
          Except.ok (({ sp := spz, val := acc } : VecCell), sz, c, v.sp) :=
        Heap.loopReads_eq h z y _ c sz v.sp (Heap.readVec_at h z _ hcell)
          ((Heap.readSpace_keeps hk spz).trans hsz) (Heap.readVec_keeps hk y c hc)
          ((Heap.readSpace_keeps hk c.sp).trans hs)
      rw [foldLoopMem_cons pre op z h y ps _ c sz v.sp hreads, List.map_cons]
      by_cases hd : v.sp.dim = sz.dim
      · have hb : (sz.dim != v.sp.dim) = false := by simp [hd]
        rw [hb, foldLoop_cons_same pre op { sp := sz, val := acc } v _ hd]
        simp only [Bool.false_eq_true, if_false]
        have hcell2 := Heap.setVal_at h z _ (op acc v.val) hcell
        have h2 := ih vs hrest (h.setVal z (op acc v.val)) (op acc v.val)
          (Heap.keeps_setVal h0 h z _ hk hz) hcell2
        rw [hval]
        exact h2
      · have hb : (sz.dim != v.sp.dim) = true := by
          simp only [bne_iff_ne]
          exact fun hc2 => hd hc2.symm
        rw [hb, foldLoop_cons_diff pre op { sp := sz, val := acc } v _ hd]
        simp only [if_true]
        refine ⟨?_, ?_⟩
        · intro r hr
          cases hr
        · intro e he
          injection he with he
          rw [← he]

theorem startLoop_sim (pre : String) (op : Nat → Nat → Nat) (h : Heap) (p : Option Nat)
    (ps : List (Option Nat)) (v0 : GF2Vector) (vs : List GF2Vector)
    (hp : h.vector p = some v0) (hps : ps.map h.vector = vs.map some) :
    ∃ c, h.readVec p = Except.ok c ∧
      (∀ r, foldLoop pre op v0 (vs.map some) = Except.ok r →
        ∃ h', foldLoopMem pre op (h.newVec c).1 (h.newVec c).2 ps = (Except.ok (), h') ∧
          h.Keeps h' ∧ h'.vector (some h.vecs.length) = some r) ∧
      (∀ e, foldLoop pre op v0 (vs.map some) = Except.error e →
        (foldLoopMem pre op (h.newVec c).1 (h.newVec c).2 ps).1 = Except.error e) := by
  obtain ⟨c, hc, hs, hval⟩ := Heap.vector_some h p v0 hp
  have hcell : (h.newVec c).2.vecs[h.vecs.length]? = some { sp := c.sp, val := v0.val } := by
    have := Heap.newVec_at h c
    rw [← hval]
    exact this
  have hsim := foldLoopMem_sim pre op h h.vecs.length (le_refl _) c.sp v0.sp hs ps vs hps
    (h.newVec c).2 v0.val (Heap.keeps_newVec h c) hcell
  refine ⟨c, hc, ?_, hsim.2⟩
  intro r hr
  obtain ⟨h', hrun, hk, hz, hsp⟩ := hsim.1 r hr
  refine ⟨h', hrun, hk, ?_⟩
  have hv := Heap.vector_of_reads h' (some h.vecs.length) _ v0.sp
    (Heap.readVec_at h' _ _ hz) ((Heap.readSpace_keeps hk c.sp).trans hs)
  rw [hv]
  cases r
  simp only at hsp
  rw [hsp]

theorem andMem_sim (h : Heap) (p : Option Nat) (ps : List (Option Nat)) (v0 : GF2Vector)
    (vs : List GF2Vector) (hp : h.vector p = some v0)
    (hps : ps.map h.vector = vs.map some) :
    (∀ r, And ((v0 :: vs).map some) = Except.ok r →
      ∃ h', AndMem h (p :: ps) = (Except.ok (some h.vecs.length), h') ∧ h.Keeps h' ∧
        h'.vector (some h.vecs.length) = some r) ∧
    (∀ e, And ((v0 :: vs).map some) = Except.error e →
      (AndMem h (p :: ps)).1 = Except.error e) := by
  obtain ⟨c, hc, hok, herr⟩ := startLoop_sim "And: incompatible vector spaces: "
    (fun a b => a &&& b) h p ps v0 vs hp hps
  rw [List.map_cons, and_cons]
  unfold AndMem
  simp only [hc, andLoopMem_eq]
  refine ⟨?_, ?_⟩
  · intro r hr
    obtain ⟨h', hrun, hk, hv⟩ := hok r hr
    exact ⟨h', by rw [hrun]; rfl, hk, hv⟩
  · intro e he
    rw [herr e he]
    rfl

theorem orMem_sim (h : Heap) (p : Option Nat) (ps : List (Option Nat)) (v0 : GF2Vector)
    (vs : List GF2Vector) (hp : h.vector p = some v0)
    (hps : ps.map h.vector = vs.map some) :
    (∀ r, Or ((v0 :: vs).map some) = Except.ok r →
      ∃ h', OrMem h (p :: ps) = (Except.ok (some h.vecs.length), h') ∧ h.Keeps h' ∧
        h'.vector (some h.vecs.length) = some r) ∧
    (∀ e, Or ((v0 :: vs).map some) = Except.error e →
      (OrMem h (p :: ps)).1 = Except.error e) := by
  obtain ⟨c, hc, hok, herr⟩ := startLoop_sim "Or: incompatible vector spaces: "
    (fun a b => a ||| b) h p ps v0 vs hp hps
  rw [List.map_cons, or_cons]
  unfold OrMem
  simp only [hc, orLoopMem_eq]
  refine ⟨?_, ?_⟩
  · intro r hr
    obtain ⟨h', hrun, hk, hv⟩ := hok r hr
    exact ⟨h', by rw [hrun]; rfl, hk, hv⟩
  · intro e he
    rw [herr e he]
    rfl

theorem xorMem_sim (h : Heap) (p : Option Nat) (ps : List (Option Nat)) (v0 : GF2Vector)
    (vs : List GF2Vector) (hp : h.vector p = some v0)
    (hps : ps.map h.vector = vs.map some) :
    (∀ r, Xor ((v0 :: vs).map some) = Except.ok r →
      ∃ h', XorMem h (p :: ps) = (Except.ok (some h.vecs.length), h') ∧ h.Keeps h' ∧
        h'.vector (some h.vecs.length) = some r) ∧
    (∀ e, Xor ((v0 :: vs).map some) = Except.error e →
      (XorMem h (p :: ps)).1 = Except.error e) := by
  obtain ⟨c, hc, hok, herr⟩ := startLoop_sim "Xor: incompatible vector spaces: "
    (fun a b => a ^^^ b) h p ps v0 vs hp hps
  rw [List.map_cons, xor_cons]
  unfold XorMem
  simp only [hc, xorLoopMem_eq]
  refine ⟨?_, ?_⟩
  · intro r hr
    obtain ⟨h', hrun, hk, hv⟩ := hok r hr
    exact ⟨h', by rw [hrun]; rfl, hk, hv⟩
  · intro e he
    rw [herr e he]
    rfl

theorem notMem_sim (h : Heap) (p : Option Nat) (v : GF2Vector)
    (hp : h.vector p = some v) :
    ∃ h', NotMem h p = (Except.ok (some h.vecs.length), h') ∧ h.Keeps h' ∧
      h'.vector (some h.vecs.length) = some { sp := v.sp, val := v.sp.ones ^^^ v.val } ∧
      ∃ c, h.readVec p = Except.ok c ∧
        h'.readVec (some h.vecs.length) =
          Except.ok { sp := c.sp, val := v.sp.ones ^^^ v.val } := by
  obtain ⟨c, hc, hs, hval⟩ := Heap.vector_some h p v hp
  have hrun : NotMem h p = (Except.ok (some h.vecs.length),
      (h.newVec { sp := c.sp, val := v.sp.ones ^^^ c.val }).2) := by
    unfold NotMem
    simp only [hc, hs]
    rfl
  have hk := Heap.keeps_newVec h { sp := c.sp, val := v.sp.ones ^^^ c.val }
  have hread := Heap.readVec_at _ _ _
    (Heap.newVec_at h { sp := c.sp, val := v.sp.ones ^^^ c.val })
  have hvec := Heap.vector_of_reads _ _ _ v.sp hread ((Heap.readSpace_keeps hk c.sp).trans hs)
  rw [hval] at hrun hk hread hvec
  exact ⟨_, hrun, hk, hvec, c, hc, hread⟩

theorem onesCountMem_sim (h : Heap) (p : Option Nat) (v : GF2Vector)
    (hp : h.vector p = some v) :
    OnesCountMem h p = (Except.ok (bitsOnesCount v.val), h) := by
  obtain ⟨c, hc, -, hval⟩ := Heap.vector_some h p v hp
  unfold OnesCountMem
  simp only [hc, hval]

/-! Facts of the first embedding, whose vectors all have a space -/

theorem pure_fold_panics_iff (x0 : GF2Vector) (rest : List GF2Vector) :
    ((∃ e, And ((x0 :: rest).map some) = Except.error e) ↔
      ∃ k, 1 ≤ k ∧ ∃ y, (x0 :: rest)[k]? = some y ∧ y.sp.dim ≠ x0.sp.dim) ∧
    ((∃ e, Or ((x0 :: rest).map some) = Except.error e) ↔
      ∃ k, 1 ≤ k ∧ ∃ y, (x0 :: rest)[k]? = some y ∧ y.sp.dim ≠ x0.sp.dim) ∧
    ((∃ e, Xor ((x0 :: rest).map some) = Except.error e) ↔
      ∃ k, 1 ≤ k ∧ ∃ y, (x0 :: rest)[k]? = some y ∧ y.sp.dim ≠ x0.sp.dim) ∧
    ((∃ msg, And ((x0 :: rest).map some) = Except.error (Fault.panic msg)) ↔
      ∃ k, 1 ≤ k ∧ ∃ y, (x0 :: rest)[k]? = some y ∧ y.sp.dim ≠ x0.sp.dim) ∧
    ((∃ msg, Or ((x0 :: rest).map some) = Except.error (Fault.panic msg)) ↔
      ∃ k, 1 ≤ k ∧ ∃ y, (x0 :: rest)[k]? = some y ∧ y.sp.dim ≠ x0.sp.dim) ∧
    ((∃ msg, Xor ((x0 :: rest).map some) = Except.error (Fault.panic msg)) ↔
      ∃ k, 1 ≤ k ∧ ∃ y, (x0 :: rest)[k]? = some y ∧ y.sp.dim ≠ x0.sp.dim) := by
  rw [mismatch_index_iff, List.map_cons, and_cons, or_cons, xor_cons]
  exact ⟨(fold_error_iff _ _ x0 rest).2, (fold_error_iff _ _ x0 rest).2,
    (fold_error_iff _ _ x0 rest).2, (fold_error_iff _ _ x0 rest).1,
    (fold_error_iff _ _ x0 rest).1, (fold_error_iff _ _ x0 rest).1⟩


theorem pure_not_not (v : GF2Vector) :
    ∃ r, Not (some v) = Except.ok r ∧ Not (some r) = Except.ok v ∧
      ∃ w, Not (some r) = Except.ok w ∧ w.val = v.val ∧ w.sp = v.sp := by
  have e : v.sp.ones ^^^ (v.sp.ones ^^^ v.val) = v.val := by
    rw [← Nat.xor_assoc, Nat.xor_self, Nat.zero_xor]
  have h2 : Not (some ({ sp := v.sp, val := v.sp.ones ^^^ v.val } : GF2Vector)) =
      Except.ok v := by
    rw [not_some]
    show Except.ok ({ sp := v.sp, val := v.sp.ones ^^^ (v.sp.ones ^^^ v.val) } : GF2Vector) = _
    rw [e]
  exact ⟨_, not_some v, h2, v, h2, rfl, rfl⟩


theorem pure_idempotent (v : GF2Vector) :
    And [some v, some v] = Except.ok { sp := v.sp, val := v.val } ∧
    Or [some v, some v] = Except.ok { sp := v.sp, val := v.val } ∧
    Xor [some v, some v] = Except.ok { sp := v.sp, val := 0 } := by
  refine ⟨?_, ?_, ?_⟩
  · rw [and_two v v rfl, Nat.and_self]
  · rw [or_two v v rfl, Nat.or_self]
  · rw [xor_two v v rfl, Nat.xor_self]


theorem pure_named_binary (x m : GF2Vector) :
    (∀ p q : Option GF2Vector, MaskBits p q = And [p, q] ∧ SetBits p q = Or [p, q] ∧
      ToggleBits p q = Xor [p, q]) ∧
    (x.sp.dim = m.sp.dim →
      MaskBits (some x) (some m) = Except.ok { sp := x.sp, val := x.val &&& m.val } ∧
      SetBits (some x) (some m) = Except.ok { sp := x.sp, val := x.val ||| m.val } ∧
      ToggleBits (some x) (some m) = Except.ok { sp := x.sp, val := x.val ^^^ m.val }) ∧
    ((∃ e, MaskBits (some x) (some m) = Except.error e) ↔ x.sp.dim ≠ m.sp.dim) ∧
    ((∃ e, SetBits (some x) (some m) = Except.error e) ↔ x.sp.dim ≠ m.sp.dim) ∧
    ((∃ e, ToggleBits (some x) (some m) = Except.error e) ↔ x.sp.dim ≠ m.sp.dim) := by
  have hne : x.sp.dim ≠ m.sp.dim → m.sp.dim ≠ x.sp.dim := fun h hc => h hc.symm
  refine ⟨fun p q => ⟨rfl, rfl, rfl⟩, ?_, ⟨?_, ?_⟩, ⟨?_, ?_⟩, ⟨?_, ?_⟩⟩
  · intro hd
    exact ⟨and_two x m hd.symm, or_two x m hd.symm, xor_two x m hd.symm⟩
  · rintro ⟨e, he⟩ hd
    have h : MaskBits (some x) (some m) = And [some x, some m] := rfl
    rw [h, and_two x m hd.symm] at he
    cases he
  · intro hd
    exact ⟨_, and_two_diff x m (hne hd)⟩
  · rintro ⟨e, he⟩ hd
    have h : SetBits (some x) (some m) = Or [some x, some m] := rfl
    rw [h, or_two x m hd.symm] at he
    cases he
  · intro hd
    exact ⟨_, or_two_diff x m (hne hd)⟩
  · rintro ⟨e, he⟩ hd
    have h : ToggleBits (some x) (some m) = Xor [some x, some m] := rfl
    rw [h, xor_two x m hd.symm] at he
    cases he
  · intro hd
    exact ⟨_, xor_two_diff x m (hne hd)⟩


theorem pure_scalarProduct_norm (v a b : GF2Vector) :
    ScalarProduct (some v) (some v) = OnesCount (some v) ∧
    (∃ c, ScalarProduct (some v) (some v) = Except.ok c ∧ OnesCount (some v) = Except.ok c) ∧
    (a.sp.dim = b.sp.dim →
      ScalarProduct (some a) (some b) = ScalarProduct (some b) (some a) ∧
      ∃ c, ScalarProduct (some a) (some b) = Except.ok c) := by
  have hv : ScalarProduct (some v) (some v) = OnesCount (some v) := by
    rw [scalarProduct_same v v rfl, Nat.and_self]
    rfl
  refine ⟨hv, ⟨_, hv.trans (onesCount_some v), onesCount_some v⟩, ?_⟩
  intro hd
  rw [scalarProduct_same a b hd.symm, scalarProduct_same b a hd, Nat.and_comm]
  exact ⟨rfl, _, rfl⟩


theorem pure_empty_and_first_read :
    And [] = Except.error (Fault.indexOutOfRange 0 0) ∧
    Or [] = Except.error (Fault.indexOutOfRange 0 0) ∧
    Xor [] = Except.error (Fault.indexOutOfRange 0 0) ∧
    (∀ (x0 : GF2Vector) (rest : List GF2Vector),
      firstArg ((x0 :: rest).map some) = Except.ok x0) ∧
    (∀ (x0 : GF2Vector) (rest : List GF2Vector) (e : Fault),
      And ((x0 :: rest).map some) = Except.error e →
      ∃ y, y ∈ rest ∧ y.sp.dim ≠ x0.sp.dim ∧
        e = Fault.panic ("And: incompatible vector spaces: z.dim = " ++
          toString x0.sp.dim ++ " != " ++ toString y.sp.dim ++ " = y.dim")) ∧
    (∀ (x0 : GF2Vector) (rest : List GF2Vector) (e : Fault),
      Or ((x0 :: rest).map some) = Except.error e →
      ∃ y, y ∈ rest ∧ y.sp.dim ≠ x0.sp.dim ∧
        e = Fault.panic ("Or: incompatible vector spaces: z.dim = " ++
          toString x0.sp.dim ++ " != " ++ toString y.sp.dim ++ " = y.dim")) ∧
    (∀ (x0 : GF2Vector) (rest : List GF2Vector) (e : Fault),
      Xor ((x0 :: rest).map some) = Except.error e →
      ∃ y, y ∈ rest ∧ y.sp.dim ≠ x0.sp.dim ∧
        e = Fault.panic ("Xor: incompatible vector spaces: z.dim = " ++
          toString x0.sp.dim ++ " != " ++ toString y.sp.dim ++ " = y.dim")) := by
  refine ⟨rfl, rfl, rfl, fun _ _ => rfl, ?_, ?_, ?_⟩
  · intro x0 rest e h
    rw [List.map_cons, and_cons] at h
    rw [← and_text]
    exact foldLoop_error_form _ _ rest x0 e h
  · intro x0 rest e h
    rw [List.map_cons, or_cons] at h
    rw [← or_text]
    exact foldLoop_error_form _ _ rest x0 e h
  · intro x0 rest e h
    rw [List.map_cons, xor_cons] at h
    rw [← xor_text]
    exact foldLoop_error_form _ _ rest x0 e h


/-! Failures in memory, for vectors that have a space -/

theorem sim_error (P : Except Fault GF2Vector) (M : Except Fault (Option Nat))
    (hok : ∀ r, P = Except.ok r → ∃ q, M = Except.ok q)
    (herr : ∀ e, P = Except.error e → M = Except.error e) (e : Fault) :
    M = Except.error e ↔ P = Except.error e := by
  constructor
  · intro hM
    cases hP : P with
    | ok r =>
      obtain ⟨q, hq⟩ := hok r hP
      rw [hq] at hM
      cases hM
    | error e2 =>
      have := herr e2 hP
      rw [this] at hM
      injection hM with hM
      rw [hM]
  · intro hP
    exact herr e hP

theorem andMem_error_iff (h : Heap) (p : Option Nat) (ps : List (Option Nat))
    (v0 : GF2Vector) (vs : List GF2Vector) (hp : h.vector p = some v0)
    (hps : ps.map h.vector = vs.map some) (e : Fault) :
    (AndMem h (p :: ps)).1 = Except.error e ↔
      And ((v0 :: vs).map some) = Except.error e := by
  have hsim := andMem_sim h p ps v0 vs hp hps
  refine sim_error _ _ ?_ hsim.2 e
  intro r hr
  obtain ⟨h', hrun, -, -⟩ := hsim.1 r hr
  exact ⟨_, by rw [hrun]⟩

theorem orMem_error_iff (h : Heap) (p : Option Nat) (ps : List (Option Nat))
    (v0 : GF2Vector) (vs : List GF2Vector) (hp : h.vector p = some v0)
    (hps : ps.map h.vector = vs.map some) (e : Fault) :
    (OrMem h (p :: ps)).1 = Except.error e ↔
      Or ((v0 :: vs).map some) = Except.error e := by
  have hsim := orMem_sim h p ps v0 vs hp hps
  refine sim_error _ _ ?_ hsim.2 e
  intro r hr
  obtain ⟨h', hrun, -, -⟩ := hsim.1 r hr
  exact ⟨_, by rw [hrun]⟩

theorem xorMem_error_iff (h : Heap) (p : Option Nat) (ps : List (Option Nat))
    (v0 : GF2Vector) (vs : List GF2Vector) (hp : h.vector p = some v0)
    (hps : ps.map h.vector = vs.map some) (e : Fault) :
    (XorMem h (p :: ps)).1 = Except.error e ↔
      Xor ((v0 :: vs).map some) = Except.error e := by
  have hsim := xorMem_sim h p ps v0 vs hp hps
  refine sim_error _ _ ?_ hsim.2 e
  intro r hr
  obtain ⟨h', hrun, -, -⟩ := hsim.1 r hr
  exact ⟨_, by rw [hrun]⟩

theorem map_vector_two (h : Heap) (p : Option Nat) (v : GF2Vector)
    (hp : h.vector p = some v) : [p].map h.vector = [v].map some := by
  rw [List.map_cons, hp]
  rfl

theorem scalarProductMem_sim (h : Heap) (a b : Option Nat) (va vb : GF2Vector)
    (ha : h.vector a = some va) (hb : h.vector b = some vb)
    (hd : vb.sp.dim = va.sp.dim) :
    (ScalarProductMem h a b).1 = Except.ok (bitsOnesCount (va.val &&& vb.val)) := by
  obtain ⟨h', hrun, -, hv⟩ :=
    (andMem_sim h a [b] va [vb] ha (map_vector_two h b vb hb)).1 _ (and_two va vb hd)
  unfold ScalarProductMem
  rw [hrun]
  simp only
  rw [onesCountMem_sim h' _ _ hv]

theorem Heap.readVec_error (h : Heap) (p : Option Nat) (e : Fault)
    (he : h.readVec p = Except.error e) : e = Fault.nilDereference := by
  unfold Heap.readVec at he
  cases p with
  | none =>
    injection he with he
    exact he.symm
  | some a =>
    simp only at he
    cases hc : h.vecs[a]? with
    | none =>
      rw [hc] at he
      injection he with he
      exact he.symm
    | some c =>
      rw [hc] at he
      cases he

theorem Heap.readSpace_error (h : Heap) (p : Option Nat) (e : Fault)
    (he : h.readSpace p = Except.error e) : e = Fault.nilDereference := by
  unfold Heap.readSpace at he
  cases p with
  | none =>
    injection he with he
    exact he.symm
  | some a =>
    simp only at he
    cases hc : h.spaces[a]? with
    | none =>
      rw [hc] at he
      injection he with he
      exact he.symm
    | some c =>
      rw [hc] at he
      cases he

theorem Heap.loopReads_error (h : Heap) (z : Nat) (y : Option Nat) (e : Fault)
    (he : h.loopReads z y = Except.error e) : e = Fault.nilDereference := by
  unfold Heap.loopReads at he
  cases h1 : h.readVec (some z) with
  | error e1 =>
    rw [h1] at he
    injection he with he
    rw [← he]
    exact Heap.readVec_error h _ e1 h1
  | ok zc =>
    cases h2 : h.readSpace zc.sp with
    | error e2 =>
      rw [h1] at he
      simp only [bind, Except.bind] at he
      rw [h2] at he
      injection he with he
      rw [← he]
      exact Heap.readSpace_error h _ e2 h2
    | ok zs =>
      cases h3 : h.readVec y with
      | error e3 =>
        rw [h1] at he
        simp only [bind, Except.bind] at he
        rw [h2] at he
        simp only at he
        rw [h3] at he
        injection he with he
        rw [← he]
        exact Heap.readVec_error h _ e3 h3
      | ok yc =>
        cases h4 : h.readSpace yc.sp with
        | error e4 =>
          rw [h1] at he
          simp only [bind, Except.bind] at he
          rw [h2] at he
          simp only at he
          rw [h3] at he
          simp only at he
          rw [h4] at he
          injection he with he
          rw [← he]
          exact Heap.readSpace_error h _ e4 h4
        | ok ys =>
          rw [h1] at he
          simp only [bind, Except.bind] at he
          rw [h2] at he
          simp only at he
          rw [h3] at he
          simp only at he
          rw [h4] at he
          cases he

theorem foldLoopMem_not_index (pre : String) (op : Nat → Nat → Nat) (z : Nat)
    (l : List (Option Nat)) (i n : Nat) :
    ∀ h, (foldLoopMem pre op z h l).1 ≠ Except.error (Fault.indexOutOfRange i n) := by
  induction l with
  | nil =>
    intro h hc
    cases hc
  | cons y rest ih =>
    intro h
    unfold foldLoopMem
    cases hr : h.loopReads z y with
    | error e =>
      intro hc
      have := Heap.loopReads_error h z y e hr
      subst this
      cases hc
    | ok r =>
      obtain ⟨zc, zs, yc, ys⟩ := r
      simp only
      by_cases hd : (zs.dim != ys.dim) = true
      · rw [if_pos hd]
        intro hc
        cases hc
      · rw [if_neg hd]
        exact ih _

theorem map_not_index (r : Except Fault Unit) (q : Option Nat) (i n : Nat)
    (hr : r ≠ Except.error (Fault.indexOutOfRange i n)) :
    r.map (fun _ => q) ≠ Except.error (Fault.indexOutOfRange i n) := by
  cases r with
  | error e =>
    intro hc
    apply hr
    injection hc with hc
    rw [hc]
  | ok u =>
    intro hc
    cases hc

theorem andMem_not_index (h : Heap) (q : Option Nat) (qs : List (Option Nat)) (c : VecCell)
    (hq : h.readVec q = Except.ok c) (i n : Nat) :
    (AndMem h (q :: qs)).1 ≠ Except.error (Fault.indexOutOfRange i n) := by
  unfold AndMem
  simp only [hq, andLoopMem_eq]
  exact map_not_index _ _ i n (foldLoopMem_not_index _ _ _ qs i n _)

theorem orMem_not_index (h : Heap) (q : Option Nat) (qs : List (Option Nat)) (c : VecCell)
    (hq : h.readVec q = Except.ok c) (i n : Nat) :
    (OrMem h (q :: qs)).1 ≠ Except.error (Fault.indexOutOfRange i n) := by
  unfold OrMem
  simp only [hq, orLoopMem_eq]
  exact map_not_index _ _ i n (foldLoopMem_not_index _ _ _ qs i n _)

theorem xorMem_not_index (h : Heap) (q : Option Nat) (qs : List (Option Nat)) (c : VecCell)
    (hq : h.readVec q = Except.ok c) (i n : Nat) :
    (XorMem h (q :: qs)).1 ≠ Except.error (Fault.indexOutOfRange i n) := by
  unfold XorMem
  simp only [hq, xorLoopMem_eq]
  exact map_not_index _ _ i n (foldLoopMem_not_index _ _ _ qs i n _)

/-! Claims -/

/-- C1: in a valid space `s` the invariant `value ≤ s.ones`, which says that no
bit at a position `≥ dim` is set, holds of the vectors returned by `GF2Zeros`,
`GF2Ones`, a successful `NewGF2Vector` and a successful `GF2BaseVector`, and
`Zeros`, `Copy`, `Not`, `And`, `Or`, `Xor`, `ComplementOr`, `ComplementXor`,
`MaskBits`, `ClearBits`, `SetBits` and `ToggleBits` return a vector satisfying
it whenever their arguments are valid vectors of equal dimension. -/
theorem C1_vector_invariant (s : GF2VectorSpace) (hs : s.Valid) :
    s.GF2Zeros.Inv ∧ s.GF2Ones.Inv ∧
    (∀ value v, s.NewGF2Vector value = Except.ok v → v.sp = s ∧ v.Inv) ∧
    (∀ i v, s.GF2BaseVector i = Except.ok v → v.sp = s ∧ v.Inv) ∧
    (∀ v : GF2Vector, v.sp = s →
      (v.Inv ↔ ∀ j, s.dim ≤ j → v.val.testBit j = false)) ∧
    (∀ x : GF2Vector, x.sp = s → x.Inv →
      (∃ r, GF2Vector.Zeros (some x) = Except.ok r ∧ r.sp = s ∧ r.Inv) ∧
      (∃ r, GF2Vector.Copy (some x) = some r ∧ r.sp = s ∧ r.Inv) ∧
      (∃ r, Not (some x) = Except.ok r ∧ r.sp = s ∧ r.Inv)) ∧
    (∀ (x0 : GF2Vector) (rest : List GF2Vector), x0.sp = s → x0.Inv →
      (∀ y ∈ rest, y.Valid ∧ y.sp.dim = s.dim) →
      (∃ r, And ((x0 :: rest).map some) = Except.ok r ∧ r.sp = s ∧ r.Inv) ∧
      (∃ r, Or ((x0 :: rest).map some) = Except.ok r ∧ r.sp = s ∧ r.Inv) ∧
      (∃ r, Xor ((x0 :: rest).map some) = Except.ok r ∧ r.sp = s ∧ r.Inv) ∧
      (∃ r, ComplementOr ((x0 :: rest).map some) = Except.ok r ∧ r.sp = s ∧ r.Inv) ∧
      (∃ r, ComplementXor ((x0 :: rest).map some) = Except.ok r ∧ r.sp = s ∧ r.Inv)) ∧
    (∀ x m : GF2Vector, x.sp = s → x.Inv → m.Valid → m.sp.dim = s.dim →
      (∃ r, MaskBits (some x) (some m) = Except.ok r ∧ r.sp = s ∧ r.Inv) ∧
      (∃ r, ClearBits (some x) (some m) = Except.ok r ∧ r.sp = s ∧ r.Inv) ∧
      (∃ r, SetBits (some x) (some m) = Except.ok r ∧ r.sp = s ∧ r.Inv) ∧
      (∃ r, ToggleBits (some x) (some m) = Except.ok r ∧ r.sp = s ∧ r.Inv)) := by
  have hfold : ∀ (x0 : GF2Vector) (rest : List GF2Vector), x0.sp = s → x0.Inv →
      (∀ y ∈ rest, y.Valid ∧ y.sp.dim = s.dim) →
      (∃ r, And ((x0 :: rest).map some) = Except.ok r ∧ r.sp = s ∧ r.Inv) ∧
      (∃ r, Or ((x0 :: rest).map some) = Except.ok r ∧ r.sp = s ∧ r.Inv) ∧
      (∃ r, Xor ((x0 :: rest).map some) = Except.ok r ∧ r.sp = s ∧ r.Inv) := by
    intro x0 rest hsp hinv hrest
    subst hsp
    have hx : x0.Valid := ⟨hs, hinv⟩
    rw [List.map_cons, and_cons, or_cons, xor_cons]
    exact ⟨fold_inv _ _ and_lt x0 rest hx hrest, fold_inv _ _ or_lt x0 rest hx hrest,
      fold_inv _ _ xor_lt x0 rest hx hrest⟩
  refine ⟨Nat.zero_le _, le_refl _, ?_, ?_, ?_, ?_, ?_, ?_⟩
  · intro value v hv
    by_cases hc : value > s.ones
    · rw [newVector_panic s hs value hc] at hv
      cases hv
    · rw [newVector_ok s hs value (by omega)] at hv
      injection hv with hv
      subst hv
      exact ⟨rfl, by show value ≤ s.ones; omega⟩
  · intro i v hv
    by_cases hc : i < 1 ∨ i > s.dim
    · rw [baseVector_of_none s i (valid_baseVector_none s hs i hc)] at hv
      cases hv
    · rw [baseVector_of_some s i _ (valid_baseVector_get s hs i (by omega) (by omega))] at hv
      injection hv with hv
      subst hv
      refine ⟨rfl, (inv_iff_lt ⟨s, 2 ^ (i - 1)⟩ hs).2 ?_⟩
      show 2 ^ (i - 1) < 2 ^ s.dim
      exact Nat.pow_lt_pow_right (by norm_num) (by omega)
  · intro v hsp
    subst hsp
    rw [inv_iff_lt v hs]
    exact lt_two_pow_iff_bits _ _
  · intro x hsp hinv
    subst hsp
    exact ⟨⟨_, rfl, rfl, Nat.zero_le _⟩, ⟨_, rfl, rfl, hinv⟩,
      ⟨_, rfl, rfl, not_inv x ⟨hs, hinv⟩⟩⟩
  · intro x0 rest hsp hinv hrest
    obtain ⟨ha, ⟨ro, ho, hosp, hoinv⟩, ⟨rx, hxo, hxsp, hxinv⟩⟩ := hfold x0 rest hsp hinv hrest
    refine ⟨ha, ⟨ro, ho, hosp, hoinv⟩, ⟨rx, hxo, hxsp, hxinv⟩, ?_, ?_⟩
    · rw [complementOr_of_ok _ ro ho]
      exact ⟨_, rfl, hosp, not_inv ro ⟨hosp ▸ hs, hoinv⟩⟩
    · rw [complementXor_of_ok _ rx hxo]
      exact ⟨_, rfl, hxsp, not_inv rx ⟨hxsp ▸ hs, hxinv⟩⟩
  · intro x m hsp hinv hm hd
    have hone : ∀ y ∈ [m], y.Valid ∧ y.sp.dim = s.dim := by
      intro y hy
      rw [List.mem_singleton] at hy
      subst hy
      exact ⟨hm, hd⟩
    have hnot : ∀ y ∈ [({ sp := m.sp, val := m.sp.ones ^^^ m.val } : GF2Vector)],
        y.Valid ∧ y.sp.dim = s.dim := by
      intro y hy
      rw [List.mem_singleton] at hy
      subst hy
      exact ⟨⟨hm.1, not_inv m hm⟩, hd⟩
    obtain ⟨ha, ho, hx⟩ := hfold x [m] hsp hinv hone
    obtain ⟨hc, -, -⟩ := hfold x [_] hsp hinv hnot
    exact ⟨ha, hc, ho, hx⟩


/-- Witness of C1 in the space of dimension 3: the all-ones vector, and the
`Or` of the values 5 and 2. -/
theorem C1_vector_invariant_witness :
    space3.GF2Ones.Inv ∧
    ∃ r, Or [some { sp := space3, val := 5 }, some { sp := space3, val := 2 }] =
      Except.ok r ∧ r.sp = space3 ∧ r.Inv :=
  ⟨(C1_vector_invariant space3 (by decide)).2.1,
   ((C1_vector_invariant space3 (by decide)).2.2.2.2.2.2.1
      { sp := space3, val := 5 } [{ sp := space3, val := 2 }] rfl (by decide)
      (by decide)).2.1⟩


/-- C2: `NewGF2VectorSpace(n)` panics if and only if `n < 1` or `n > 64`, and
for every `n` with `1 ≤ n ≤ 64` it returns a space whose `dim` is `n`. -/
theorem C2_newSpace_panics_iff (n : Nat) :
    ((∃ msg, NewGF2VectorSpace n = Except.error (Fault.panic msg)) ↔ (n < 1 ∨ n > 64)) ∧
    ((∃ e, NewGF2VectorSpace n = Except.error e) ↔ (n < 1 ∨ n > 64)) ∧
    (1 ≤ n → n ≤ 64 → ∃ s, NewGF2VectorSpace n = Except.ok s ∧ s.dim = n) := by
  have hok : 1 ≤ n → n ≤ 64 → ∃ s, NewGF2VectorSpace n = Except.ok s ∧ s.dim = n := by
    intro h1 h64
    obtain ⟨s, hs, hspec⟩ := newSpace_spec n h1 h64
    exact ⟨s, hs, hspec.dim⟩
  have hbad : (n < 1 ∨ n > 64) → ∃ msg, NewGF2VectorSpace n = Except.error (Fault.panic msg) := by
    rintro (h | h)
    · exact ⟨_, newSpace_small n h⟩
    · exact ⟨_, newSpace_large n h⟩
  have hgood : ∀ e, NewGF2VectorSpace n = Except.error e → (n < 1 ∨ n > 64) := by
    intro e he
    by_contra hc
    obtain ⟨s, hs, -⟩ := hok (by omega) (by omega)
    rw [hs] at he
    cases he
  refine ⟨⟨?_, hbad⟩, ⟨?_, ?_⟩, hok⟩
  · rintro ⟨msg, h⟩
    exact hgood _ h
  · rintro ⟨e, h⟩
    exact hgood _ h
  · intro h
    obtain ⟨msg, hm⟩ := hbad h
    exact ⟨_, hm⟩


/-- Witness of C2 at the dimensions 3 (accepted) and 0 (rejected). -/
theorem C2_newSpace_panics_iff_witness :
    (∃ s, NewGF2VectorSpace 3 = Except.ok s ∧ s.dim = 3) ∧
    (∃ msg, NewGF2VectorSpace 0 = Except.error (Fault.panic msg)) :=
  ⟨(C2_newSpace_panics_iff 3).2.2 (by decide) (by decide),
   (C2_newSpace_panics_iff 0).1.2 (Or.inl (by decide))⟩


/-- C3: for `1 ≤ n ≤ 64` the space returned by `NewGF2VectorSpace(n)` has
`ones = 2^n - 1`, the word whose set bits are exactly the `n` low ones; the
shifts and additions of the loop never leave the 64-bit word, also for
`n = 64`. -/
theorem C3_ones_low_bits (n : Nat) (h1 : 1 ≤ n) (h64 : n ≤ 64) :
    ∃ s, NewGF2VectorSpace n = Except.ok s ∧ s.ones = 2 ^ n - 1 ∧
      (∀ j, s.ones.testBit j = decide (j < n)) ∧ s.ones < 2 ^ 64 := by
  obtain ⟨s, hs, hspec⟩ := newSpace_spec n h1 h64
  refine ⟨s, hs, hspec.ones, ?_, ?_⟩
  · intro j
    rw [hspec.ones]
    exact Nat.testBit_two_pow_sub_one n j
  · rw [hspec.ones]
    have := two_pow_le_word h64
    have := Nat.two_pow_pos n
    omega


/-- Witness of C3 at the full word, `n = 64`, where `ones = 2^64 - 1`. -/
theorem C3_ones_low_bits_witness :
    ∃ s, NewGF2VectorSpace 64 = Except.ok s ∧ s.ones = 2 ^ 64 - 1 ∧
      (∀ j, s.ones.testBit j = decide (j < 64)) ∧ s.ones < 2 ^ 64 :=
  C3_ones_low_bits 64 (by decide) (by decide)


/-- C4: for `1 ≤ n ≤ 64`, in the space returned by `NewGF2VectorSpace(n)` the
map `baseIndex` has exactly the `n` keys `2^0, ..., 2^(n-1)` with
`baseIndex[2^i] = i+1`, the map `baseVector` has exactly the `n` keys `1..n`
with `baseVector[i+1] = 2^i`, and each map is the inverse of the other. -/
theorem C4_base_maps (n : Nat) (h1 : 1 ≤ n) (h64 : n ≤ 64) :
    ∃ s, NewGF2VectorSpace n = Except.ok s ∧
      s.baseIndex.len = n ∧ s.baseVector.len = n ∧
      s.baseIndex.keys.Perm ((List.range n).map (fun i => 2 ^ i)) ∧
      s.baseVector.keys.Perm ((List.range n).map (fun i => i + 1)) ∧
      (∀ key, (∃ v, s.baseIndex.get? key = some v) ↔ ∃ i, i < n ∧ key = 2 ^ i) ∧
      (∀ key, (∃ v, s.baseVector.get? key = some v) ↔ (1 ≤ key ∧ key ≤ n)) ∧
      (∀ i, i < n → s.baseIndex.get? (2 ^ i) = some (i + 1)) ∧
      (∀ i, i < n → s.baseVector.get? (i + 1) = some (2 ^ i)) ∧
      (∀ b i, s.baseIndex.get? b = some i → s.baseVector.get? i = some b) ∧
      (∀ i b, s.baseVector.get? i = some b → s.baseIndex.get? b = some i) := by
  obtain ⟨s, hs, hspec⟩ := newSpace_spec n h1 h64
  refine ⟨s, hs, hspec.lenIndex, hspec.lenVector, ?_, ?_, ?_, ?_, ?_, ?_, ?_, ?_⟩
  · unfold GoMap.keys
    rw [hspec.entriesIndex, List.map_map]
    exact List.Perm.refl _
  · unfold GoMap.keys
    rw [hspec.entriesVector, List.map_map]
    exact List.Perm.refl _
  · intro key
    constructor
    · rintro ⟨v, hv⟩
      obtain ⟨i, hi, hk, -⟩ := (hspec.baseIndex key v).1 hv
      exact ⟨i, hi, hk⟩
    · rintro ⟨i, hi, hk⟩
      exact ⟨i + 1, (hspec.baseIndex key (i + 1)).2 ⟨i, hi, hk, rfl⟩⟩
  · intro key
    constructor
    · rintro ⟨v, hv⟩
      obtain ⟨i, hi, hk, -⟩ := (hspec.baseVector key v).1 hv
      omega
    · rintro ⟨hk1, hkn⟩
      exact ⟨2 ^ (key - 1),
        (hspec.baseVector key _).2 ⟨key - 1, by omega, by omega, rfl⟩⟩
  · intro i hi
    exact (hspec.baseIndex _ _).2 ⟨i, hi, rfl, rfl⟩
  · intro i hi
    exact (hspec.baseVector _ _).2 ⟨i, hi, rfl, rfl⟩
  · intro b i hb
    obtain ⟨j, hj, hk, hv⟩ := (hspec.baseIndex b i).1 hb
    exact (hspec.baseVector i b).2 ⟨j, hj, hv, hk⟩
  · intro i b hb
    obtain ⟨j, hj, hk, hv⟩ := (hspec.baseVector i b).1 hb
    exact (hspec.baseIndex b i).2 ⟨j, hj, hv, hk⟩


/-- Witness of C4 at dimension 3. -/
theorem C4_base_maps_witness :
    ∃ s, NewGF2VectorSpace 3 = Except.ok s ∧
      s.baseIndex.len = 3 ∧ s.baseVector.len = 3 ∧
      s.baseIndex.keys.Perm ((List.range 3).map (fun i => 2 ^ i)) ∧
      s.baseVector.keys.Perm ((List.range 3).map (fun i => i + 1)) ∧
      (∀ key, (∃ v, s.baseIndex.get? key = some v) ↔ ∃ i, i < 3 ∧ key = 2 ^ i) ∧
      (∀ key, (∃ v, s.baseVector.get? key = some v) ↔ (1 ≤ key ∧ key ≤ 3)) ∧
      (∀ i, i < 3 → s.baseIndex.get? (2 ^ i) = some (i + 1)) ∧
      (∀ i, i < 3 → s.baseVector.get? (i + 1) = some (2 ^ i)) ∧
      (∀ b i, s.baseIndex.get? b = some i → s.baseVector.get? i = some b) ∧
      (∀ i b, s.baseVector.get? i = some b → s.baseIndex.get? b = some i) :=
  C4_base_maps 3 (by decide) (by decide)


/-- C5: in a valid space `s`, `s.NewGF2Vector(value)` panics if and only if
`value > s.ones` and otherwise returns the vector of `s` with exactly that
value; the bound `2*baseVector[dim] - 1`, computed in wrapping 64-bit
arithmetic, equals `s.ones`, and for `dim = 64` the doubling wraps to 0 so that
no word value is rejected. -/
theorem C5_newVector_panics_iff (s : GF2VectorSpace) (hs : s.Valid) (value : Nat) :
    ((∃ msg, s.NewGF2Vector value = Except.error (Fault.panic msg)) ↔ value > s.ones) ∧
    ((∃ e, s.NewGF2Vector value = Except.error e) ↔ value > s.ones) ∧
    (value ≤ s.ones → s.NewGF2Vector value = Except.ok { sp := s, val := value }) ∧
    wrap (wrap (2 * s.baseVector.index s.dim) + 2 ^ UintSize - 1) = s.ones ∧
    (s.dim = 64 → wrap (2 * s.baseVector.index s.dim) = 0 ∧ s.ones = 2 ^ 64 - 1 ∧
      (value < 2 ^ 64 → s.NewGF2Vector value = Except.ok { sp := s, val := value })) := by
  have hgood : ∀ e, s.NewGF2Vector value = Except.error e → value > s.ones := by
    intro e he
    by_contra hc
    rw [newVector_ok s hs value (by omega)] at he
    cases he
  refine ⟨⟨?_, ?_⟩, ⟨?_, ?_⟩, newVector_ok s hs value, valid_vmx s hs, ?_⟩
  · rintro ⟨msg, h⟩
    exact hgood _ h
  · intro h
    exact ⟨_, newVector_panic s hs value h⟩
  · rintro ⟨e, h⟩
    exact hgood _ h
  · intro h
    exact ⟨_, newVector_panic s hs value h⟩
  · intro hd
    obtain ⟨ho, -⟩ := valid_ones_lt s hs
    rw [hd] at ho
    refine ⟨?_, by omega, ?_⟩
    · rw [valid_baseVector_dim s hs, hd]
      decide
    · intro hv
      exact newVector_ok s hs value (by omega)


/-- Witness of C5: in the space of dimension 2 the value 3 is accepted and the
value 4 is rejected. -/
theorem C5_newVector_panics_iff_witness :
    (space2.NewGF2Vector 3 =
      Except.ok { sp := space2, val := 3 }) ∧
    (∃ msg, space2.NewGF2Vector 4 =
      Except.error (Fault.panic msg)) :=
  ⟨(C5_newVector_panics_iff _ (by decide) 3).2.2.1 (by decide),
   (C5_newVector_panics_iff _ (by decide) 4).1.2 (by decide)⟩


/-- C6: in a valid space `s`, `s.GF2BaseVector(i)` panics if and only if
`i < 1` or `i > s.dim`; for `1 ≤ i ≤ s.dim` it returns the vector of `s` whose
value is `1 << (i-1)`, the word with bit `i-1` set and no other. -/
theorem C6_baseVector_panics_iff (s : GF2VectorSpace) (hs : s.Valid) (i : Nat) :
    ((∃ msg, s.GF2BaseVector i = Except.error (Fault.panic msg)) ↔ (i < 1 ∨ i > s.dim)) ∧
    ((∃ e, s.GF2BaseVector i = Except.error e) ↔ (i < 1 ∨ i > s.dim)) ∧
    (1 ≤ i → i ≤ s.dim →
      s.GF2BaseVector i = Except.ok { sp := s, val := 1 <<< (i - 1) } ∧
      1 <<< (i - 1) < 2 ^ 64 ∧
      ∀ j, (1 <<< (i - 1)).testBit j = decide (j = i - 1)) := by
  have hok : 1 ≤ i → i ≤ s.dim →
      s.GF2BaseVector i = Except.ok { sp := s, val := 1 <<< (i - 1) } := by
    intro h1 hd
    rw [Nat.shiftLeft_eq, one_mul]
    exact baseVector_of_some s i _ (valid_baseVector_get s hs i h1 hd)
  have hgood : ∀ e, s.GF2BaseVector i = Except.error e → (i < 1 ∨ i > s.dim) := by
    intro e he
    by_contra hc
    rw [hok (by omega) (by omega)] at he
    cases he
  have hbad : (i < 1 ∨ i > s.dim) →
      ∃ msg, s.GF2BaseVector i = Except.error (Fault.panic msg) := by
    intro h
    exact ⟨_, baseVector_of_none s i (valid_baseVector_none s hs i h)⟩
  refine ⟨⟨?_, hbad⟩, ⟨?_, ?_⟩, ?_⟩
  · rintro ⟨msg, h⟩
    exact hgood _ h
  · rintro ⟨e, h⟩
    exact hgood _ h
  · intro h
    obtain ⟨msg, hm⟩ := hbad h
    exact ⟨_, hm⟩
  · intro h1 hd
    obtain ⟨-, h64, -⟩ := valid_spec s hs
    refine ⟨hok h1 hd, ?_, ?_⟩
    · rw [Nat.shiftLeft_eq, one_mul]
      exact two_pow_lt_word (by omega)
    · intro j
      rw [Nat.shiftLeft_eq, one_mul, Nat.testBit_two_pow]
      by_cases hj : j = i - 1
      · simp [hj]
      · have : ¬ i - 1 = j := fun hc => hj hc.symm
        simp [hj, this]


/-- Witness of C6: in the space of dimension 2 index 2 gives the value 2 and
index 3 is rejected. -/
theorem C6_baseVector_panics_iff_witness :
    (space2.GF2BaseVector 2 =
      Except.ok { sp := space2, val := 1 <<< (2 - 1) }) ∧
    (∃ msg, space2.GF2BaseVector 3 =
      Except.error (Fault.panic msg)) :=
  ⟨((C6_baseVector_panics_iff _ (by decide) 2).2.2 (by decide) (by decide)).1,
   (C6_baseVector_panics_iff _ (by decide) 3).1.2 (Or.inr (by decide))⟩


/-- C7: base-vector round trip: in a valid space `s`, for `1 ≤ i ≤ s.dim` the
vector `s.GF2BaseVector(i)` has `Index() = (i, true)` and `IsBaseVector()` true. -/
theorem C7_baseVector_roundtrip (s : GF2VectorSpace) (hs : s.Valid) (i : Nat)
    (h1 : 1 ≤ i) (hd : i ≤ s.dim) :
    ∃ v, s.GF2BaseVector i = Except.ok v ∧
      GF2Vector.Index (some v) = Except.ok (i, true) ∧
      GF2Vector.IsBaseVector (some v) = Except.ok true := by
  refine ⟨_, baseVector_of_some s i _ (valid_baseVector_get s hs i h1 hd), ?_, ?_⟩
  · have hg := valid_baseIndex_get s hs (i - 1) (by omega)
    have e : i - 1 + 1 = i := by omega
    rw [e] at hg
    rw [index_some]
    exact congrArg Except.ok (GoMap.commaOk_of_some _ _ _ hg)
  · have hg := valid_baseIndex_get s hs (i - 1) (by omega)
    rw [isBaseVector_some]
    exact congrArg (fun p => Except.ok p.2) (GoMap.commaOk_of_some _ _ _ hg)


/-- Witness of C7: the third base vector of the space of dimension 3. -/
theorem C7_baseVector_roundtrip_witness :
    ∃ v, space3.GF2BaseVector 3 = Except.ok v ∧
      GF2Vector.Index (some v) = Except.ok (3, true) ∧
      GF2Vector.IsBaseVector (some v) = Except.ok true :=
  C7_baseVector_roundtrip space3 (by decide) 3 (by decide) (by decide)


/-- C8: for a valid vector `v`, `Index()` reports found, and `IsBaseVector()`
is true, if and only if `OnesCount(v) = 1`, which is when the value is a single
bit `2^j` with `j < dim`; otherwise `Index()` is exactly `(0, false)`.  On every
vector reference `IsBaseVector()` is the found flag of `Index()`. -/
theorem C8_index_iff_single_bit (v : GF2Vector) (hv : v.Valid) :
    ((∃ idx, GF2Vector.Index (some v) = Except.ok (idx, true)) ↔
      OnesCount (some v) = Except.ok 1) ∧
    (GF2Vector.IsBaseVector (some v) = Except.ok true ↔
      OnesCount (some v) = Except.ok 1) ∧
    (OnesCount (some v) = Except.ok 1 ↔ ∃ j, j < v.sp.dim ∧ v.val = 2 ^ j) ∧
    (OnesCount (some v) ≠ Except.ok 1 →
      GF2Vector.Index (some v) = Except.ok (0, false) ∧
      GF2Vector.IsBaseVector (some v) = Except.ok false) ∧
    (∀ w : Option GF2Vector,
      GF2Vector.IsBaseVector w = (GF2Vector.Index w).map Prod.snd) := by
  obtain ⟨-, h64, hspec⟩ := valid_spec v.sp hv.1
  have hone : bitsOnesCount v.val = 1 →
      ∃ j, j < v.sp.dim ∧ v.val = 2 ^ j ∧ v.sp.baseIndex.commaOk v.val = (j + 1, true) := by
    intro h
    obtain ⟨j, hj, hval⟩ := valid_single_bit v hv h
    refine ⟨j, hj, hval, ?_⟩
    rw [hval]
    exact GoMap.commaOk_of_some _ _ _ (valid_baseIndex_get v.sp hv.1 j hj)
  have hnot : bitsOnesCount v.val ≠ 1 → v.sp.baseIndex.commaOk v.val = (0, false) := by
    intro h
    exact GoMap.commaOk_of_none _ _ (valid_baseIndex_none v hv h)
  have hcount : OnesCount (some v) = Except.ok 1 ↔ bitsOnesCount v.val = 1 := by
    rw [onesCount_some]
    constructor
    · intro h
      injection h
    · intro h
      rw [h]
  refine ⟨?_, ?_, ?_, ?_, ?_⟩
  · rw [hcount, index_some]
    constructor
    · rintro ⟨idx, h⟩
      by_contra hc
      rw [hnot hc] at h
      injection h with h
      injection h with _ h
      cases h
    · intro h
      obtain ⟨j, -, -, hc⟩ := hone h
      exact ⟨j + 1, by rw [hc]⟩
  · rw [hcount, isBaseVector_some]
    constructor
    · intro h
      by_contra hc
      rw [hnot hc] at h
      injection h with h
      cases h
    · intro h
      obtain ⟨j, -, -, hc⟩ := hone h
      rw [hc]
  · rw [hcount]
    constructor
    · intro h
      obtain ⟨j, hj, hval, -⟩ := hone h
      exact ⟨j, hj, hval⟩
    · rintro ⟨j, hj, hval⟩
      rw [hval]
      exact bitsOnesCount_two_pow j (by omega)
  · intro h
    have hc : bitsOnesCount v.val ≠ 1 := fun hc => h (hcount.2 hc)
    rw [index_some, isBaseVector_some, hnot hc]
    exact ⟨rfl, rfl⟩
  · intro w
    cases w with
    | none => rfl
    | some w => rfl


/-- Witness of C8: in the space of dimension 3 the value 4 is a base vector
and the value 5 is not. -/
theorem C8_index_iff_single_bit_witness :
    (∃ idx, GF2Vector.Index (some { sp := space3, val := 4 }) = Except.ok (idx, true)) ∧
    GF2Vector.Index (some { sp := space3, val := 5 }) = Except.ok (0, false) :=
  ⟨(C8_index_iff_single_bit { sp := space3, val := 4 } (by decide)).1.2 (by decide),
   ((C8_index_iff_single_bit { sp := space3, val := 5 } (by decide)).2.2.2.1
      (by decide)).1⟩


/-- C9: for a non-empty list `x0, rest...` of vectors whose spaces all have the
dimension of `x0`'s, `And`, `Or` and `Xor` return the vector of `x0`'s space
whose value is the left-to-right fold of `&`, `|` and `^` over the values; with
a single argument the result is that argument's value and space. -/
theorem C9_fold_value (x0 : GF2Vector) (rest : List GF2Vector)
    (h : ∀ y ∈ rest, y.sp.dim = x0.sp.dim) :
    And ((x0 :: rest).map some) = Except.ok
      { sp := x0.sp, val := List.foldl (fun a b => a &&& b) x0.val (rest.map GF2Vector.val) } ∧
    Or ((x0 :: rest).map some) = Except.ok
      { sp := x0.sp, val := List.foldl (fun a b => a ||| b) x0.val (rest.map GF2Vector.val) } ∧
    Xor ((x0 :: rest).map some) = Except.ok
      { sp := x0.sp, val := List.foldl (fun a b => a ^^^ b) x0.val (rest.map GF2Vector.val) } ∧
    And [some x0] = Except.ok { sp := x0.sp, val := x0.val } ∧
    Or [some x0] = Except.ok { sp := x0.sp, val := x0.val } ∧
    Xor [some x0] = Except.ok { sp := x0.sp, val := x0.val } := by
  refine ⟨?_, ?_, ?_, rfl, rfl, rfl⟩
  · rw [List.map_cons, and_cons]
    exact foldLoop_ok _ _ rest x0 h
  · rw [List.map_cons, or_cons]
    exact foldLoop_ok _ _ rest x0 h
  · rw [List.map_cons, xor_cons]
    exact foldLoop_ok _ _ rest x0 h


/-- Witness of C9: the values 7, 6, 3 in the space of dimension 3. -/
theorem C9_fold_value_witness :
    And [some { sp := space3, val := 7 }, some { sp := space3, val := 6 },
         some { sp := space3, val := 3 }] = Except.ok { sp := space3, val := 2 } ∧
    Or [some { sp := space3, val := 7 }, some { sp := space3, val := 6 },
        some { sp := space3, val := 3 }] = Except.ok { sp := space3, val := 7 } ∧
    Xor [some { sp := space3, val := 7 }, some { sp := space3, val := 6 },
         some { sp := space3, val := 3 }] = Except.ok { sp := space3, val := 2 } :=
  ⟨(C9_fold_value { sp := space3, val := 7 }
      [{ sp := space3, val := 6 }, { sp := space3, val := 3 }] (by decide)).1,
   (C9_fold_value { sp := space3, val := 7 }
      [{ sp := space3, val := 6 }, { sp := space3, val := 3 }] (by decide)).2.1,
   (C9_fold_value { sp := space3, val := 7 }
      [{ sp := space3, val := 6 }, { sp := space3, val := 3 }] (by decide)).2.2.1⟩


/-- C11: when `And`, `Or` or `Xor` fails on `x0, before..., y, after...`, where
`y` is the first argument whose dimension differs from that of `x0`, the panic
text is `<Op>: incompatible vector spaces: z.dim = d0 != dk = y.dim` with `d0`
the dimension of `x0` and `dk` the dimension of `y`. -/
theorem C11_panic_reports_first_mismatch (x0 : GF2Vector) (before : List GF2Vector)
    (y : GF2Vector) (after : List (Option GF2Vector))
    (hb : ∀ w ∈ before, w.sp.dim = x0.sp.dim) (hy : y.sp.dim ≠ x0.sp.dim) :
    And (some x0 :: (before.map some ++ some y :: after)) =
      Except.error (Fault.panic
        ("And: incompatible vector spaces: z.dim = " ++ toString x0.sp.dim ++
          " != " ++ toString y.sp.dim ++ " = y.dim")) ∧
    Or (some x0 :: (before.map some ++ some y :: after)) =
      Except.error (Fault.panic
        ("Or: incompatible vector spaces: z.dim = " ++ toString x0.sp.dim ++
          " != " ++ toString y.sp.dim ++ " = y.dim")) ∧
    Xor (some x0 :: (before.map some ++ some y :: after)) =
      Except.error (Fault.panic
        ("Xor: incompatible vector spaces: z.dim = " ++ toString x0.sp.dim ++
          " != " ++ toString y.sp.dim ++ " = y.dim")) := by
  rw [and_cons, or_cons, xor_cons, ← and_text, ← or_text, ← xor_text]
  exact ⟨foldLoop_first_mismatch _ _ before y after x0 hb hy,
    foldLoop_first_mismatch _ _ before y after x0 hb hy,
    foldLoop_first_mismatch _ _ before y after x0 hb hy⟩


/-- Witness of C11: the dimensions 1, 2, 2 and 1, 1, 2 both report 1 and 2. -/
theorem C11_panic_reports_first_mismatch_witness :
    And [some { sp := space1, val := 1 }, some { sp := space2, val := 1 },
         some { sp := space2, val := 1 }] =
      Except.error (Fault.panic
        "And: incompatible vector spaces: z.dim = 1 != 2 = y.dim") ∧
    Xor [some { sp := space1, val := 1 }, some { sp := space1, val := 1 },
         some { sp := space2, val := 1 }] =
      Except.error (Fault.panic
        "Xor: incompatible vector spaces: z.dim = 1 != 2 = y.dim") :=
  ⟨(C11_panic_reports_first_mismatch { sp := space1, val := 1 } []
      { sp := space2, val := 1 } [some { sp := space2, val := 1 }]
      (by decide) (by decide)).1,
   (C11_panic_reports_first_mismatch { sp := space1, val := 1 }
      [{ sp := space1, val := 1 }] { sp := space2, val := 1 } []
      (by decide) (by decide)).2.2⟩


/-- C12: for a valid vector `x` of dimension `d`, `Not(x)` is the vector of
`x`'s space with value `ones XOR x.val`: below `d` every bit is the negation of
the bit of `x`, and every bit at a position `≥ d` is 0. -/
theorem C12_not_bits (x : GF2Vector) (hx : x.Valid) :
    ∃ r, Not (some x) = Except.ok r ∧ r.sp = x.sp ∧ r.val = x.sp.ones ^^^ x.val ∧
      (∀ j, j < x.sp.dim → r.val.testBit j = !(x.val.testBit j)) ∧
      (∀ j, x.sp.dim ≤ j → r.val.testBit j = false) := by
  refine ⟨_, not_some x, rfl, rfl, ?_, ?_⟩
  · intro j hj
    show (x.sp.ones ^^^ x.val).testBit j = _
    rw [Nat.testBit_xor, valid_ones_testBit x.sp hx.1]
    simp [hj]
  · intro j hj
    show (x.sp.ones ^^^ x.val).testBit j = _
    have hn : ¬ j < x.sp.dim := by omega
    rw [Nat.testBit_xor, valid_ones_testBit x.sp hx.1, valid_high_bit x hx j hj]
    simp [hn]


/-- Witness of C12: in the space of dimension 3 the complement of 5 is 2. -/
theorem C12_not_bits_witness :
    ∃ r, Not (some { sp := space3, val := 5 }) = Except.ok r ∧ r.sp = space3 ∧
      r.val = 7 ^^^ 5 ∧
      (∀ j, j < 3 → r.val.testBit j = !(Nat.testBit 5 j)) ∧
      (∀ j, 3 ≤ j → r.val.testBit j = false) :=
  C12_not_bits { sp := space3, val := 5 } (by decide)


/-- C14: commutativity: for valid vectors `v1`, `v2` of equal dimension, also
when their spaces were constructed separately, `Xor(v1, v2)` and `Xor(v2, v1)`
are the same vector, with equal value and equal owning space, and likewise
for `And` and `Or`. -/
theorem C14_commutative (v1 v2 : GF2Vector) (h1 : v1.Valid) (h2 : v2.Valid)
    (hd : v1.sp.dim = v2.sp.dim) :
    v1.sp = v2.sp ∧
    (∃ r, Xor [some v1, some v2] = Except.ok r ∧ Xor [some v2, some v1] = Except.ok r) ∧
    (∃ r, And [some v1, some v2] = Except.ok r ∧ And [some v2, some v1] = Except.ok r) ∧
    (∃ r, Or [some v1, some v2] = Except.ok r ∧ Or [some v2, some v1] = Except.ok r) := by
  have hsp : v1.sp = v2.sp := valid_space_eq v1.sp v2.sp h1.1 h2.1 hd
  refine ⟨hsp, ⟨_, xor_two v1 v2 hd.symm, ?_⟩, ⟨_, and_two v1 v2 hd.symm, ?_⟩,
    ⟨_, or_two v1 v2 hd.symm, ?_⟩⟩
  · rw [xor_two v2 v1 hd, hsp, Nat.xor_comm]
  · rw [and_two v2 v1 hd, hsp, Nat.and_comm]
  · rw [or_two v2 v1 hd, hsp, Nat.or_comm]


/-- Witness of C14: the values 5 and 3 in the space of dimension 3. -/
theorem C14_commutative_witness :
    ∃ r, Xor [some { sp := space3, val := 5 }, some { sp := space3, val := 3 }] =
        Except.ok r ∧
      Xor [some { sp := space3, val := 3 }, some { sp := space3, val := 5 }] =
        Except.ok r :=
  (C14_commutative { sp := space3, val := 5 } { sp := space3, val := 3 }
    (by decide) (by decide) rfl).2.1


/-- C15: associativity under the left-to-right fold: for vectors of equal
dimension the variadic result on `x0, rest..., y0, ys...` is the binary
operation applied to the variadic result on the prefix `x0, rest...` and the
variadic result on the suffix `y0, ys...`, as a vector (value and space); in
particular `And(a, b, c)`, `And(And(a, b), c)` and `And(a, And(b, c))` agree,
and likewise for `Or` and `Xor`. -/
theorem C15_associative (x0 : GF2Vector) (rest : List GF2Vector) (y0 : GF2Vector)
    (ys : List GF2Vector) (hd : ∀ w ∈ rest ++ y0 :: ys, w.sp.dim = x0.sp.dim) :
    (∃ p q r, And ((x0 :: rest).map some) = Except.ok p ∧
      And ((y0 :: ys).map some) = Except.ok q ∧
      And ((x0 :: (rest ++ y0 :: ys)).map some) = Except.ok r ∧
      And [some p, some q] = Except.ok r ∧ r.sp = x0.sp ∧
      r.val = List.foldl (fun a b => a &&& b) x0.val
        ((rest ++ y0 :: ys).map GF2Vector.val)) ∧
    (∃ p q r, Or ((x0 :: rest).map some) = Except.ok p ∧
      Or ((y0 :: ys).map some) = Except.ok q ∧
      Or ((x0 :: (rest ++ y0 :: ys)).map some) = Except.ok r ∧
      Or [some p, some q] = Except.ok r ∧ r.sp = x0.sp ∧
      r.val = List.foldl (fun a b => a ||| b) x0.val
        ((rest ++ y0 :: ys).map GF2Vector.val)) ∧
    (∃ p q r, Xor ((x0 :: rest).map some) = Except.ok p ∧
      Xor ((y0 :: ys).map some) = Except.ok q ∧
      Xor ((x0 :: (rest ++ y0 :: ys)).map some) = Except.ok r ∧
      Xor [some p, some q] = Except.ok r ∧ r.sp = x0.sp ∧
      r.val = List.foldl (fun a b => a ^^^ b) x0.val
        ((rest ++ y0 :: ys).map GF2Vector.val)) ∧
    (∀ a b c : GF2Vector, b.sp.dim = a.sp.dim → c.sp.dim = a.sp.dim →
      (∃ ab bc r, And [some a, some b] = Except.ok ab ∧
        And [some b, some c] = Except.ok bc ∧
        And [some a, some b, some c] = Except.ok r ∧
        And [some ab, some c] = Except.ok r ∧ And [some a, some bc] = Except.ok r ∧
        r.sp = a.sp ∧ r.val = (a.val &&& b.val) &&& c.val) ∧
      (∃ ab bc r, Or [some a, some b] = Except.ok ab ∧
        Or [some b, some c] = Except.ok bc ∧
        Or [some a, some b, some c] = Except.ok r ∧
        Or [some ab, some c] = Except.ok r ∧ Or [some a, some bc] = Except.ok r ∧
        r.sp = a.sp ∧ r.val = (a.val ||| b.val) ||| c.val) ∧
      (∃ ab bc r, Xor [some a, some b] = Except.ok ab ∧
        Xor [some b, some c] = Except.ok bc ∧
        Xor [some a, some b, some c] = Except.ok r ∧
        Xor [some ab, some c] = Except.ok r ∧ Xor [some a, some bc] = Except.ok r ∧
        r.sp = a.sp ∧ r.val = (a.val ^^^ b.val) ^^^ c.val)) := by
  simp only [List.map_cons, and_cons, or_cons, xor_cons]
  refine ⟨fold_split _ _ Nat.and_assoc x0 rest y0 ys hd,
    fold_split _ _ Nat.or_assoc x0 rest y0 ys hd,
    fold_split _ _ Nat.xor_assoc x0 rest y0 ys hd, ?_⟩
  intro a b c hb hc
  exact ⟨fold_triple _ _ Nat.and_assoc a b c hb hc,
    fold_triple _ _ Nat.or_assoc a b c hb hc,
    fold_triple _ _ Nat.xor_assoc a b c hb hc⟩


/-- Witness of C15: the values 7, 6, 3 in the space of dimension 3, split after
the first argument, and the three ways of computing `And(7, 6, 3)`. -/
theorem C15_associative_witness :
    (∃ p q r, And [some { sp := space3, val := 7 }] = Except.ok p ∧
      And [some { sp := space3, val := 6 }, some { sp := space3, val := 3 }] =
        Except.ok q ∧
      And [some { sp := space3, val := 7 }, some { sp := space3, val := 6 },
           some { sp := space3, val := 3 }] = Except.ok r ∧
      And [some p, some q] = Except.ok r ∧ r.sp = space3 ∧ r.val = 2) ∧
    (∃ ab bc r, Xor [some { sp := space3, val := 7 }, some { sp := space3, val := 6 }] =
        Except.ok ab ∧
      Xor [some { sp := space3, val := 6 }, some { sp := space3, val := 3 }] =
        Except.ok bc ∧
      Xor [some { sp := space3, val := 7 }, some { sp := space3, val := 6 },
           some { sp := space3, val := 3 }] = Except.ok r ∧
      Xor [some ab, some { sp := space3, val := 3 }] = Except.ok r ∧
      Xor [some { sp := space3, val := 7 }, some bc] = Except.ok r ∧
      r.sp = space3 ∧ r.val = 2) :=
  ⟨(C15_associative { sp := space3, val := 7 } [] { sp := space3, val := 6 }
      [{ sp := space3, val := 3 }] (by decide)).1,
   ((C15_associative { sp := space3, val := 7 } [] { sp := space3, val := 6 }
      [{ sp := space3, val := 3 }] (by decide)).2.2.2
      { sp := space3, val := 7 } { sp := space3, val := 6 } { sp := space3, val := 3 }
      rfl rfl).2.2⟩


/-- C17: on every argument list `ComplementOr(x...)` is `Not(Or(x...))` and
`ComplementXor(x...)` is `Not(Xor(x...))`: when `Or` resp. `Xor` returns a
vector the result is its `Not`, and when it fails the failure is the same; on
present vectors of equal dimension this is the complement of the fold in the
first argument's space, and on a dimension mismatch it is the panic of `Or`
resp. `Xor`, whose text starts with `Or:` resp. `Xor:` and reports the same two
dimensions. -/
theorem C17_complement_refines (x : List (Option GF2Vector)) :
    ComplementOr x = notAfter (Or x) ∧ ComplementXor x = notAfter (Xor x) ∧
    (∀ z, Or x = Except.ok z → ComplementOr x = Not (some z)) ∧
    (∀ e, Or x = Except.error e → ComplementOr x = Except.error e) ∧
    (∀ z, Xor x = Except.ok z → ComplementXor x = Not (some z)) ∧
    (∀ e, Xor x = Except.error e → ComplementXor x = Except.error e) ∧
    (∀ (x0 : GF2Vector) (rest : List GF2Vector), x = (x0 :: rest).map some →
      (∀ y ∈ rest, y.sp.dim = x0.sp.dim) →
      ComplementOr x = Except.ok ⟨x0.sp, x0.sp.ones ^^^
        List.foldl (fun a b => a ||| b) x0.val (rest.map GF2Vector.val)⟩ ∧
      ComplementXor x = Except.ok ⟨x0.sp, x0.sp.ones ^^^
        List.foldl (fun a b => a ^^^ b) x0.val (rest.map GF2Vector.val)⟩) ∧
    (∀ (x0 : GF2Vector) (before : List GF2Vector) (y : GF2Vector)
        (after : List (Option GF2Vector)),
      x = some x0 :: (before.map some ++ some y :: after) →
      (∀ w ∈ before, w.sp.dim = x0.sp.dim) → y.sp.dim ≠ x0.sp.dim →
      ComplementOr x = Except.error (Fault.panic
        ("Or: incompatible vector spaces: z.dim = " ++ toString x0.sp.dim ++
          " != " ++ toString y.sp.dim ++ " = y.dim")) ∧
      ComplementXor x = Except.error (Fault.panic
        ("Xor: incompatible vector spaces: z.dim = " ++ toString x0.sp.dim ++
          " != " ++ toString y.sp.dim ++ " = y.dim"))) := by
  refine ⟨complementOr_eq x, complementXor_eq x, ?_, ?_, ?_, ?_, ?_, ?_⟩
  · intro z h
    rw [complementOr_eq, h]
    rfl
  · intro e h
    rw [complementOr_eq, h]
    rfl
  · intro z h
    rw [complementXor_eq, h]
    rfl
  · intro e h
    rw [complementXor_eq, h]
    rfl
  · intro x0 rest hx h
    subst hx
    rw [complementOr_eq, complementXor_eq, or_ok x0 rest h, xor_ok x0 rest h]
    exact ⟨rfl, rfl⟩
  · intro x0 before y after hx hb hy
    subst hx
    rw [complementOr_eq, complementXor_eq, or_first_mismatch x0 before y after hb hy,
      xor_first_mismatch x0 before y after hb hy]
    exact ⟨rfl, rfl⟩


/-- Witness of C17: in the space of dimension 3 the complement of `1 | 2` is 4,
and across the dimensions 1 and 2 `ComplementXor` fails with the panic of `Xor`. -/
theorem C17_complement_refines_witness :
    ComplementOr [some { sp := space3, val := 1 }, some { sp := space3, val := 2 }] =
      Except.ok { sp := space3, val := 4 } ∧
    ComplementXor [some { sp := space1, val := 1 }, some { sp := space2, val := 1 }] =
      Except.error (Fault.panic
        "Xor: incompatible vector spaces: z.dim = 1 != 2 = y.dim") :=
  ⟨((C17_complement_refines
        [some { sp := space3, val := 1 }, some { sp := space3, val := 2 }]).2.2.2.2.2.2.1
      { sp := space3, val := 1 } [{ sp := space3, val := 2 }] rfl (by decide)).1,
   ((C17_complement_refines
        [some { sp := space1, val := 1 }, some { sp := space2, val := 1 }]).2.2.2.2.2.2.2
      { sp := space1, val := 1 } [] { sp := space2, val := 1 } [] rfl
      (by decide) (by decide)).2⟩


/-- C18: for valid vectors `x` and `m`, `ClearBits(x, m)` fails if and only if
their dimensions differ; when they agree it returns the vector of `x`'s space
with value `x.val AND NOT m.val`: at every bit position of the word, the bit of
the result is set iff the bit of `x` is set and the bit of `m` is not. -/
theorem C18_clearBits (x m : GF2Vector) (hx : x.Valid) (hm : m.Valid) :
    ((∃ e, ClearBits (some x) (some m) = Except.error e) ↔ x.sp.dim ≠ m.sp.dim) ∧
    (x.sp.dim = m.sp.dim →
      ∃ r, ClearBits (some x) (some m) = Except.ok r ∧ r.sp = x.sp ∧
        r.val = x.val &&& wordNot m.val ∧
        r.val = x.val &&& (m.sp.ones ^^^ m.val) ∧
        ∀ j, r.val.testBit j = (x.val.testBit j && !(m.val.testBit j))) := by
  have hok : x.sp.dim = m.sp.dim →
      ClearBits (some x) (some m) =
        Except.ok { sp := x.sp, val := x.val &&& (m.sp.ones ^^^ m.val) } := by
    intro hd
    rw [clearBits_some]
    exact and_two x ⟨m.sp, m.sp.ones ^^^ m.val⟩ hd.symm
  refine ⟨⟨?_, ?_⟩, ?_⟩
  · rintro ⟨e, he⟩ hd
    rw [hok hd] at he
    cases he
  · intro hd
    rw [clearBits_some]
    exact ⟨_, and_two_diff x ⟨m.sp, m.sp.ones ^^^ m.val⟩ (fun hc => hd hc.symm)⟩
  · intro hd
    exact ⟨_, hok hd, rfl, clearBits_word x m hx hm hd, rfl,
      fun j => clearBits_bit x m hx hm hd j⟩


/-- Witness of C18: in the space of dimension 3, clearing the bits of 6 in 7
leaves 1, and across the dimensions 1 and 2 `ClearBits` fails. -/
theorem C18_clearBits_witness :
    (∃ r, ClearBits (some { sp := space3, val := 7 }) (some { sp := space3, val := 6 }) =
        Except.ok r ∧ r.sp = space3 ∧
      r.val = 7 &&& wordNot 6 ∧ r.val = 7 &&& (7 ^^^ 6) ∧
      ∀ j, r.val.testBit j = (Nat.testBit 7 j && !(Nat.testBit 6 j))) ∧
    (∃ e, ClearBits (some { sp := space1, val := 1 }) (some { sp := space2, val := 1 }) =
      Except.error e) :=
  ⟨(C18_clearBits { sp := space3, val := 7 } { sp := space3, val := 6 }
      (by decide) (by decide)).2 rfl,
   (C18_clearBits { sp := space1, val := 1 } { sp := space2, val := 1 }
      (by decide) (by decide)).1.2 (by decide)⟩


/-- C20: for a valid vector `x` of dimension `d`, `OnesCount(x)` returns the
number of set bits of `x.val`, which is the number of set bits among the
positions below `d`, and this count is at most `d`. -/
theorem C20_onesCount_bound (x : GF2Vector) (hx : x.Valid) :
    ∃ c, OnesCount (some x) = Except.ok c ∧ 0 ≤ c ∧ c ≤ x.sp.dim ∧
      c = Set.ncard {j | x.val.testBit j = true} ∧
      c = (List.range x.sp.dim).countP (fun j => x.val.testBit j) ∧
      ∀ N, x.sp.dim ≤ N → c = (List.range N).countP (fun j => x.val.testBit j) := by
  have hlow := bitsOnesCount_eq_low x hx
  have hhigh : ∀ j, x.sp.dim ≤ j → x.val.testBit j = false :=
    fun j hj => valid_high_bit x hx j hj
  refine ⟨_, onesCount_some x, Nat.zero_le _, ?_, ?_, hlow, ?_⟩
  · rw [hlow]
    have h := @List.countP_le_length _ (fun j => x.val.testBit j) (List.range x.sp.dim)
    rw [List.length_range] at h
    exact h
  · rw [hlow, ncard_setBits x.val x.sp.dim hhigh]
  · intro N hN
    rw [hlow]
    exact (countP_range_high _ x.sp.dim hhigh N hN).symm


/-- Witness of C20: the value 5 in the space of dimension 3 has two set bits. -/
theorem C20_onesCount_bound_witness :
    ∃ c, OnesCount (some { sp := space3, val := 5 }) = Except.ok c ∧ 0 ≤ c ∧ c ≤ 3 ∧
      c = Set.ncard {j | Nat.testBit 5 j = true} ∧
      c = (List.range 3).countP (fun j => Nat.testBit 5 j) ∧
      ∀ N, 3 ≤ N → c = (List.range N).countP (fun j => Nat.testBit 5 j) :=
  C20_onesCount_bound { sp := space3, val := 5 } (by decide)


/-- C21: for every dimension `d` with `1 ≤ d ≤ 64`, in the space returned by
`NewGF2VectorSpace(d)` the vector `GF2Ones()` has the value `ones` and
`OnesCount` of it is `d`, and `GF2Zeros()` has the value 0; both are returned
without any failure. -/
theorem C21_onesCount_ones (d : Nat) (h1 : 1 ≤ d) (h64 : d ≤ 64) :
    ∃ s, NewGF2VectorSpace d = Except.ok s ∧
      OnesCount (some s.GF2Ones) = Except.ok d ∧
      s.GF2Ones = { sp := s, val := s.ones } ∧
      s.GF2Zeros = { sp := s, val := 0 } ∧ GF2Vector.Val (some s.GF2Zeros) = 0 := by
  obtain ⟨s, hs, hspec⟩ := newSpace_spec d h1 h64
  refine ⟨s, hs, ?_, rfl, rfl, rfl⟩
  rw [onesCount_some]
  show Except.ok (bitsOnesCount s.ones) = _
  rw [hspec.ones, bitsOnesCount_ones d h64]


/-- Witness of C21 at the full word, `d = 64`. -/
theorem C21_onesCount_ones_witness :
    ∃ s, NewGF2VectorSpace 64 = Except.ok s ∧
      OnesCount (some s.GF2Ones) = Except.ok 64 ∧
      s.GF2Ones = { sp := s, val := s.ones } ∧
      s.GF2Zeros = { sp := s, val := 0 } ∧ GF2Vector.Val (some s.GF2Zeros) = 0 :=
  C21_onesCount_ones 64 (by decide) (by decide)


/-- C22: for vectors `a`, `b` of equal dimension `ScalarProduct(a, b)` is
`OnesCount(And(a, b))`, the number of bit positions at which both `a` and `b`
are 1 (the count, not its parity); when the dimensions differ `ScalarProduct`
fails with exactly the failure of `And(a, b)`. -/
theorem C22_scalarProduct (a b : GF2Vector) :
    (b.sp.dim = a.sp.dim →
      ∃ r, And [some a, some b] = Except.ok r ∧
        ScalarProduct (some a) (some b) = OnesCount (some r) ∧
        ScalarProduct (some a) (some b) = Except.ok
          ((List.range 64).countP (fun j => a.val.testBit j && b.val.testBit j)) ∧
        (a.val < 2 ^ 64 → ScalarProduct (some a) (some b) = Except.ok
          (Set.ncard {j | a.val.testBit j = true ∧ b.val.testBit j = true}))) ∧
    (∀ e, And [some a, some b] = Except.error e →
      ScalarProduct (some a) (some b) = Except.error e) ∧
    ((∃ e, ScalarProduct (some a) (some b) = Except.error e) ↔ b.sp.dim ≠ a.sp.dim) := by
  have hcount : bitsOnesCount (a.val &&& b.val) =
      (List.range 64).countP (fun j => a.val.testBit j && b.val.testBit j) := by
    unfold bitsOnesCount UintSize
    congr 1
    funext j
    exact Nat.testBit_and _ _ _
  refine ⟨?_, fun e he => scalarProduct_of_error _ _ e he, ⟨?_, ?_⟩⟩
  · intro hd
    refine ⟨_, and_two a b hd, scalarProduct_of_ok _ _ _ (and_two a b hd), ?_, ?_⟩
    · rw [scalarProduct_same a b hd, hcount]
    · intro ha
      have hhigh : ∀ j, 64 ≤ j → (a.val &&& b.val).testBit j = false := by
        intro j hj
        have hlt : a.val &&& b.val < 2 ^ j :=
          lt_of_le_of_lt Nat.and_le_left
            (lt_of_lt_of_le ha (Nat.pow_le_pow_right (by norm_num) hj))
        exact Nat.testBit_lt_two_pow hlt
      have hset : {j | a.val.testBit j = true ∧ b.val.testBit j = true} =
          {j | (a.val &&& b.val).testBit j = true} := by
        ext j
        simp [Nat.testBit_and]
      rw [scalarProduct_same a b hd, hset, ncard_setBits _ 64 hhigh]
      rfl
  · rintro ⟨e, he⟩ hd
    rw [scalarProduct_same a b hd] at he
    cases he
  · intro hd
    exact ⟨_, scalarProduct_of_error _ _ _ (and_two_diff a b hd)⟩


/-- Witness of C22: in the space of dimension 2 the scalar product of 3 and 3
is 2, and across the dimensions 1 and 2 it fails with the panic of `And`. -/
theorem C22_scalarProduct_witness :
    ScalarProduct (some { sp := space2, val := 3 }) (some { sp := space2, val := 3 }) =
      Except.ok 2 ∧
    ScalarProduct (some { sp := space1, val := 1 }) (some { sp := space2, val := 1 }) =
      Except.error (Fault.panic
        "And: incompatible vector spaces: z.dim = 1 != 2 = y.dim") :=
  ⟨by
    obtain ⟨r, -, -, h, -⟩ :=
      (C22_scalarProduct { sp := space2, val := 3 } { sp := space2, val := 3 }).1 rfl
    exact h,
   (C22_scalarProduct { sp := space1, val := 1 } { sp := space2, val := 1 }).2.1 _ rfl⟩


/-- C25: `Val()` never fails: on an absent vector it returns 0, and on a
present vector it returns exactly the stored value. -/
theorem C25_val_total :
    GF2Vector.Val none = 0 ∧ ∀ v : GF2Vector, GF2Vector.Val (some v) = v.val :=
  ⟨rfl, fun _ => rfl⟩


/-- C27: `Copy()` of a present vector returns a vector with the same space and
the same value, `Zeros()` of a present vector returns the vector of the same
space with value 0, and `Copy()` of an absent vector returns an absent vector
without failing. -/
theorem C27_copy_zeros :
    (∀ x : GF2Vector, GF2Vector.Copy (some x) = some { sp := x.sp, val := x.val } ∧
      GF2Vector.Copy (some x) = some x ∧
      GF2Vector.Zeros (some x) = Except.ok { sp := x.sp, val := 0 }) ∧
    GF2Vector.Copy none = none :=
  ⟨fun _ => ⟨rfl, rfl, rfl⟩, rfl⟩


/-- C26, as stated, fails for `Copy`: on an absent vector `Copy()` takes its nil
guard and returns the absent vector, so the outcome of the call is a returned
value and not a fault. -/
theorem C26_copy_absent_counterexample :
    GF2Vector.Copy none = none ∧
    ¬ ∃ e : Fault,
      (Except.ok (GF2Vector.Copy none) : Except Fault (Option GF2Vector)) = Except.error e :=
  ⟨rfl, fun h => h.elim (fun _ he => by cases he)⟩


/-- C26, amended: on an absent vector every listed operation other than `Copy`
faults: `String`, `IsZeros`, `IsOnes`, `Index`, `IsBaseVector`, `Zeros`,
`GF2BaseVector`, `Not` and `OnesCount` by the nil dereference, `And`, `Or` and
`Xor` whenever some argument is absent, and `ScalarProduct` when either
argument is absent; `Copy` of an absent vector returns the absent vector. -/
theorem C26_absent_vector_faults :
    GF2Vector.String none = Except.error Fault.nilDereference ∧
    GF2Vector.IsZeros none = Except.error Fault.nilDereference ∧
    GF2Vector.IsOnes none = Except.error Fault.nilDereference ∧
    GF2Vector.Index none = Except.error Fault.nilDereference ∧
    GF2Vector.IsBaseVector none = Except.error Fault.nilDereference ∧
    GF2Vector.Zeros none = Except.error Fault.nilDereference ∧
    (∀ i, GF2Vector.GF2BaseVector none i = Except.error Fault.nilDereference) ∧
    Not none = Except.error Fault.nilDereference ∧
    OnesCount none = Except.error Fault.nilDereference ∧
    (∀ x : List (Option GF2Vector), none ∈ x →
      (∃ e, And x = Except.error e) ∧ (∃ e, Or x = Except.error e) ∧
      (∃ e, Xor x = Except.error e)) ∧
    (∀ rest : List (Option GF2Vector),
      And (none :: rest) = Except.error Fault.nilDereference ∧
      Or (none :: rest) = Except.error Fault.nilDereference ∧
      Xor (none :: rest) = Except.error Fault.nilDereference) ∧
    (∀ b : Option GF2Vector, ∃ e, ScalarProduct none b = Except.error e) ∧
    (∀ a : Option GF2Vector, ∃ e, ScalarProduct a none = Except.error e) ∧
    GF2Vector.Copy none = none := by
  refine ⟨rfl, rfl, rfl, rfl, rfl, rfl, fun _ => rfl, rfl, rfl, ?_,
    fun _ => ⟨rfl, rfl, rfl⟩, ?_, ?_, rfl⟩
  · intro x hx
    exact ⟨and_none x hx, or_none x hx, xor_none x hx⟩
  · intro b
    exact ⟨Fault.nilDereference, rfl⟩
  · intro a
    obtain ⟨e, he⟩ := and_none [a, none] (by simp)
    exact ⟨e, scalarProduct_of_error _ _ e he⟩


/-- Witness of C26 amended: `And` of a present vector and an absent one fails. -/
theorem C26_absent_vector_faults_witness :
    ∃ e, And [some { sp := space2, val := 1 }, none] = Except.error e :=
  (C26_absent_vector_faults.2.2.2.2.2.2.2.2.2.1
    [some { sp := space2, val := 1 }, none] (by simp)).1


/-- C30: De Morgan within the space: for valid vectors `a`, `b` of equal
dimension `ComplementOr(a, b)` is the same vector as `And(Not(a), Not(b))` and
`Not(And(a, b))` is the same vector as `Or(Not(a), Not(b))`.  The first
equality depends on the invariant: in the space of dimension 1, for the values
2 and 0, `ComplementOr` gives 3 and `And(Not(a), Not(b))` gives 1. -/
theorem C30_deMorgan (a b : GF2Vector) (ha : a.Valid) (hb : b.Valid)
    (hd : a.sp.dim = b.sp.dim) :
    (∃ na nb r, Not (some a) = Except.ok na ∧ Not (some b) = Except.ok nb ∧
      ComplementOr [some a, some b] = Except.ok r ∧
      And [some na, some nb] = Except.ok r) ∧
    (∃ na nb ab r, Not (some a) = Except.ok na ∧ Not (some b) = Except.ok nb ∧
      And [some a, some b] = Except.ok ab ∧ Not (some ab) = Except.ok r ∧
      Or [some na, some nb] = Except.ok r) ∧
    (¬ ({ sp := space1, val := 2 } : GF2Vector).Inv ∧
      ComplementOr [some { sp := space1, val := 2 }, some { sp := space1, val := 0 }] =
        Except.ok { sp := space1, val := 3 } ∧
      Not (some { sp := space1, val := 2 }) = Except.ok { sp := space1, val := 3 } ∧
      Not (some { sp := space1, val := 0 }) = Except.ok { sp := space1, val := 1 } ∧
      And [some { sp := space1, val := 3 }, some { sp := space1, val := 1 }] =
        Except.ok { sp := space1, val := 1 }) := by
  have hsp : b.sp = a.sp := valid_space_eq b.sp a.sp hb.1 ha.1 hd.symm
  have hoa := valid_ones_eq a.sp ha.1
  have hla := (inv_iff_lt a ha.1).1 ha.2
  have hlb : b.val < 2 ^ a.sp.dim := by
    have := (inv_iff_lt b hb.1).1 hb.2
    rw [hsp] at this
    exact this
  refine ⟨⟨_, _, ⟨a.sp, a.sp.ones ^^^ (a.val ||| b.val)⟩, not_some a, not_some b, ?_, ?_⟩,
    ⟨_, _, ⟨a.sp, a.val &&& b.val⟩, ⟨a.sp, a.sp.ones ^^^ (a.val &&& b.val)⟩,
      not_some a, not_some b, and_two a b hd.symm, not_some _, ?_⟩,
    by decide, by decide, by decide, by decide, by decide⟩
  · rw [complementOr_of_ok _ _ (or_two a b hd.symm)]
    exact not_some _
  · have h := and_two ⟨a.sp, a.sp.ones ^^^ a.val⟩ ⟨b.sp, b.sp.ones ^^^ b.val⟩ hd.symm
    rw [h]
    show Except.ok (⟨a.sp, (a.sp.ones ^^^ a.val) &&& (b.sp.ones ^^^ b.val)⟩ : GF2Vector) =
      Except.ok ⟨a.sp, a.sp.ones ^^^ (a.val ||| b.val)⟩
    rw [hsp, hoa, mask_deMorgan_or a.sp.dim a.val b.val hla hlb]
  · have h := or_two ⟨a.sp, a.sp.ones ^^^ a.val⟩ ⟨b.sp, b.sp.ones ^^^ b.val⟩ hd.symm
    rw [h]
    show Except.ok (⟨a.sp, (a.sp.ones ^^^ a.val) ||| (b.sp.ones ^^^ b.val)⟩ : GF2Vector) =
      Except.ok ⟨a.sp, a.sp.ones ^^^ (a.val &&& b.val)⟩
    rw [hsp, hoa, mask_deMorgan_and a.sp.dim a.val b.val hla hlb]


/-- Witness of C30: the values 5 and 3 in the space of dimension 3. -/
theorem C30_deMorgan_witness :
    ∃ na nb r, Not (some { sp := space3, val := 5 }) = Except.ok na ∧
      Not (some { sp := space3, val := 3 }) = Except.ok nb ∧
      ComplementOr [some { sp := space3, val := 5 }, some { sp := space3, val := 3 }] =
        Except.ok r ∧
      And [some na, some nb] = Except.ok r :=
  (C30_deMorgan { sp := space3, val := 5 } { sp := space3, val := 3 }
    (by decide) (by decide) rfl).1


/-- C24: for a valid vector `v` of dimension `d`, `v.String()` is a string of
exactly `d` characters, each `0` or `1`, most significant bit first: the
character at position `j` from the left is `1` iff bit `d-1-j` of the value is
set.  Two valid vectors of one space with the same rendering are equal. -/
theorem C24_string_render (v : GF2Vector) (hv : v.Valid) :
    ∃ s, GF2Vector.String (some v) = Except.ok s ∧ s.length = v.sp.dim ∧
      s.data = (List.range v.sp.dim).map
        (fun j => if v.val.testBit (v.sp.dim - 1 - j) then '1' else '0') ∧
      (∀ c ∈ s.data, c = '0' ∨ c = '1') ∧
      (∀ j, j < v.sp.dim →
        s.data[j]? = some (if v.val.testBit (v.sp.dim - 1 - j) then '1' else '0')) ∧
      (∀ w : GF2Vector, w.Valid → w.sp = v.sp →
        GF2Vector.String (some w) = GF2Vector.String (some v) → w = v) := by
  obtain ⟨h1, -, -⟩ := valid_spec v.sp hv.1
  have hlt := (inv_iff_lt v hv.1).1 hv.2
  have hfmt := fmtBinary_eq v.sp.dim v.val h1 hlt
  have hdata : (fmtBinary v.sp.dim v.val).data = (List.range v.sp.dim).map
      (fun j => if v.val.testBit (v.sp.dim - 1 - j) then '1' else '0') := by
    rw [hfmt]
    exact msbDigits_eq_map v.sp.dim v.val
  refine ⟨_, string_some v, ?_, hdata, ?_, ?_, ?_⟩
  · rw [hfmt, String.length_mk, msbDigits_length]
  · intro c hc
    rw [hdata] at hc
    obtain ⟨j, -, rfl⟩ := List.mem_map.1 hc
    cases v.val.testBit (v.sp.dim - 1 - j)
    · exact Or.inl rfl
    · exact Or.inr rfl
  · intro j hj
    rw [hdata, List.getElem?_map, List.getElem?_range hj]
    rfl
  · intro w hw hsp hstr
    rw [string_some, string_some] at hstr
    injection hstr with hstr
    have hwlt : w.val < 2 ^ v.sp.dim := by
      have := (inv_iff_lt w hw.1).1 hw.2
      rw [hsp] at this
      exact this
    rw [hsp, fmtBinary_eq v.sp.dim w.val h1 hwlt, hfmt] at hstr
    injection hstr with hstr
    have hval := msbDigits_inj v.sp.dim w.val v.val hwlt hlt hstr
    cases w
    cases v
    simp only at hsp hval
    rw [hsp, hval]


/-- Witness of C24: dimension 3, value 5 renders as `101`. -/
theorem C24_string_render_witness :
    (∃ s, GF2Vector.String (some { sp := space3, val := 5 }) = Except.ok s ∧
      s.length = 3 ∧
      s.data = (List.range 3).map (fun j => if Nat.testBit 5 (3 - 1 - j) then '1' else '0') ∧
      (∀ c ∈ s.data, c = '0' ∨ c = '1') ∧
      (∀ j, j < 3 →
        s.data[j]? = some (if Nat.testBit 5 (3 - 1 - j) then '1' else '0')) ∧
      (∀ w : GF2Vector, w.Valid → w.sp = space3 →
        GF2Vector.String (some w) = GF2Vector.String (some { sp := space3, val := 5 }) →
        w = { sp := space3, val := 5 })) ∧
    GF2Vector.String (some { sp := space3, val := 5 }) = Except.ok "101" :=
  ⟨C24_string_render { sp := space3, val := 5 } (by decide), by decide⟩


/-- C28: no operation changes its arguments: after `And`, `Or`, `Xor`,
`ComplementOr`, `ComplementXor`, `MaskBits`, `ClearBits`, `SetBits`,
`ToggleBits`, `Not` or `ScalarProduct` has returned or failed, every vector
that was in memory is there with the same space pointer and value, and the
spaces are unchanged; the folds accumulate in a new variable, whose address is
the one returned and is not the address of any argument. -/
theorem C28_arguments_kept (h : Heap) (x : List (Option Nat)) (p q : Option Nat) :
    h.Keeps (AndMem h x).2 ∧ h.Keeps (OrMem h x).2 ∧ h.Keeps (XorMem h x).2 ∧
    h.Keeps (ComplementOrMem h x).2 ∧ h.Keeps (ComplementXorMem h x).2 ∧
    h.Keeps (MaskBitsMem h p q).2 ∧ h.Keeps (ClearBitsMem h p q).2 ∧
    h.Keeps (SetBitsMem h p q).2 ∧ h.Keeps (ToggleBitsMem h p q).2 ∧
    h.Keeps (NotMem h p).2 ∧ h.Keeps (ScalarProductMem h p q).2 ∧
    (∀ r, (AndMem h x).1 = Except.ok r → r = some h.vecs.length) ∧
    (∀ r, (OrMem h x).1 = Except.ok r → r = some h.vecs.length) ∧
    (∀ r, (XorMem h x).1 = Except.ok r → r = some h.vecs.length) ∧
    (∀ (a : Nat) (c : VecCell), h.vecs[a]? = some c → a ≠ h.vecs.length) :=
  ⟨andMem_keeps h x, orMem_keeps h x, xorMem_keeps h x, complementOrMem_keeps h x,
    complementXorMem_keeps h x, andMem_keeps h [p, q], clearBitsMem_keeps h p q,
    orMem_keeps h [p, q], xorMem_keeps h [p, q], notMem_keeps h p,
    scalarProductMem_keeps h p q, andMem_fresh h x, orMem_fresh h x, xorMem_fresh h x,
    fun _ _ hc => Nat.ne_of_lt (List.getElem?_eq_some.1 hc).1⟩


/-- Witness of C28: `Xor(v, v)` on the vector of value 5 returns a new vector of
value 0 at the next address and leaves `v` as it was. -/
theorem C28_arguments_kept_witness :
    heap3.Keeps (XorMem heap3 [some 0, some 0]).2 ∧
    XorMem heap3 [some 0, some 0] =
      (Except.ok (some 1),
        { spaces := heap3.spaces,
          vecs := [{ sp := some 0, val := 5 }, { sp := some 0, val := 0 }] }) :=
  ⟨(C28_arguments_kept heap3 [some 0, some 0] none none).2.2.1, by decide⟩


/-- C31: for a valid vector `v` of dimension `d`, `OnesCount(Not(v))` is
`d - OnesCount(v)`; `v.IsOnes()` holds iff `OnesCount(v) = d` iff
`Not(v).IsZeros()`, and `v.IsZeros()` holds iff `OnesCount(v) = 0` iff
`Not(v).IsOnes()`. -/
theorem C31_onesCount_not (v : GF2Vector) (hv : v.Valid) :
    ∃ nv c cn, Not (some v) = Except.ok nv ∧ OnesCount (some v) = Except.ok c ∧
      OnesCount (some nv) = Except.ok cn ∧
      cn = v.sp.dim - c ∧ c ≤ v.sp.dim ∧
      (GF2Vector.IsOnes (some v) = Except.ok true ↔ c = v.sp.dim) ∧
      (c = v.sp.dim ↔ GF2Vector.IsZeros (some nv) = Except.ok true) ∧
      (GF2Vector.IsZeros (some v) = Except.ok true ↔ c = 0) ∧
      (c = 0 ↔ GF2Vector.IsOnes (some nv) = Except.ok true) := by
  have hones := valid_ones_eq v.sp hv.1
  have hlt := (inv_iff_lt v hv.1).1 hv.2
  have hc := bitsOnesCount_eq_low v hv
  have hcn := bitsOnesCount_eq_low ⟨v.sp, v.sp.ones ^^^ v.val⟩ ⟨hv.1, not_inv v hv⟩
  have hcn2 : bitsOnesCount (v.sp.ones ^^^ v.val) =
      (List.range v.sp.dim).countP (fun j => ((2 ^ v.sp.dim - 1) ^^^ v.val).testBit j) := by
    rw [← hones]
    exact hcn
  have hsum := countLow_xor v.sp.dim v.val
  rw [← hcn2, ← hc] at hsum
  have hfull : bitsOnesCount v.val = v.sp.dim ↔ v.val = v.sp.ones := by
    rw [hc, hones]
    exact countLow_eq_dim v.sp.dim v.val hlt
  have hnone : bitsOnesCount v.val = 0 ↔ v.val = 0 := by
    rw [hc]
    exact countLow_eq_zero v.sp.dim v.val hlt
  refine ⟨⟨v.sp, v.sp.ones ^^^ v.val⟩, bitsOnesCount v.val,
    bitsOnesCount (v.sp.ones ^^^ v.val), not_some v, onesCount_some v,
    onesCount_some _, by omega, by omega, ?_, ?_, ?_, ?_⟩
  · rw [isOnes_some, ok_beq_true, hfull]
  · rw [isZeros_some, hfull]
    show v.val = v.sp.ones ↔ Except.ok (v.sp.ones ^^^ v.val == 0) = Except.ok true
    rw [ok_beq_true, mask_xor_eq_zero]
  · rw [isZeros_some, ok_beq_true, hnone]
  · rw [isOnes_some, hnone]
    show v.val = 0 ↔ Except.ok (v.sp.ones ^^^ v.val == v.sp.ones) = Except.ok true
    rw [ok_beq_true, mask_xor_eq_self]


/-- Witness of C31: the value 5 in the space of dimension 3, whose complement
is 2. -/
theorem C31_onesCount_not_witness :
    ∃ nv c cn, Not (some { sp := space3, val := 5 }) = Except.ok nv ∧
      OnesCount (some { sp := space3, val := 5 }) = Except.ok c ∧
      OnesCount (some nv) = Except.ok cn ∧
      cn = 3 - c ∧ c ≤ 3 ∧
      (GF2Vector.IsOnes (some { sp := space3, val := 5 }) = Except.ok true ↔ c = 3) ∧
      (c = 3 ↔ GF2Vector.IsZeros (some nv) = Except.ok true) ∧
      (GF2Vector.IsZeros (some { sp := space3, val := 5 }) = Except.ok true ↔ c = 0) ∧
      (c = 0 ↔ GF2Vector.IsOnes (some nv) = Except.ok true) :=
  C31_onesCount_not { sp := space3, val := 5 } (by decide)

/-- C10, as stated, fails: `And`, `Or` and `Xor` of the zero value `GF2Vector{}`
with itself, a list of two present vectors in which no argument differs from
the first, fail with the nil dereference of the space pointer. -/
theorem C10_bare_vector_counterexample :
    heapBare.readVec (some 0) = Except.ok { sp := none, val := 0 } ∧
    (AndMem heapBare [some 0, some 0]).1 = Except.error Fault.nilDereference ∧
    (OrMem heapBare [some 0, some 0]).1 = Except.error Fault.nilDereference ∧
    (XorMem heapBare [some 0, some 0]).1 = Except.error Fault.nilDereference := by
  decide

/-- C10, amended: for a non-empty list of present vectors each of which has a
space, each of `And`, `Or` and `Xor` fails, and then by its panic, if and only
if some argument at an index `k ≥ 1` has a space whose dimension differs from
that of the first argument's space. -/
theorem C10_fold_panics_iff (h : Heap) (p : Option Nat) (ps : List (Option Nat))
    (v0 : GF2Vector) (vs : List GF2Vector) (hp : h.vector p = some v0)
    (hps : ps.map h.vector = vs.map some) :
    ((∃ e, (AndMem h (p :: ps)).1 = Except.error e) ↔
      ∃ k, 1 ≤ k ∧ ∃ y, (v0 :: vs)[k]? = some y ∧ y.sp.dim ≠ v0.sp.dim) ∧
    ((∃ e, (OrMem h (p :: ps)).1 = Except.error e) ↔
      ∃ k, 1 ≤ k ∧ ∃ y, (v0 :: vs)[k]? = some y ∧ y.sp.dim ≠ v0.sp.dim) ∧
    ((∃ e, (XorMem h (p :: ps)).1 = Except.error e) ↔
      ∃ k, 1 ≤ k ∧ ∃ y, (v0 :: vs)[k]? = some y ∧ y.sp.dim ≠ v0.sp.dim) ∧
    ((∃ msg, (AndMem h (p :: ps)).1 = Except.error (Fault.panic msg)) ↔
      ∃ k, 1 ≤ k ∧ ∃ y, (v0 :: vs)[k]? = some y ∧ y.sp.dim ≠ v0.sp.dim) ∧
    ((∃ msg, (OrMem h (p :: ps)).1 = Except.error (Fault.panic msg)) ↔
      ∃ k, 1 ≤ k ∧ ∃ y, (v0 :: vs)[k]? = some y ∧ y.sp.dim ≠ v0.sp.dim) ∧
    ((∃ msg, (XorMem h (p :: ps)).1 = Except.error (Fault.panic msg)) ↔
      ∃ k, 1 ≤ k ∧ ∃ y, (v0 :: vs)[k]? = some y ∧ y.sp.dim ≠ v0.sp.dim) := by
  obtain ⟨a1, a2, a3, a4, a5, a6⟩ := pure_fold_panics_iff v0 vs
  refine ⟨?_, ?_, ?_, ?_, ?_, ?_⟩
  · rw [← a1]
    exact exists_congr (fun e => andMem_error_iff h p ps v0 vs hp hps e)
  · rw [← a2]
    exact exists_congr (fun e => orMem_error_iff h p ps v0 vs hp hps e)
  · rw [← a3]
    exact exists_congr (fun e => xorMem_error_iff h p ps v0 vs hp hps e)
  · rw [← a4]
    exact exists_congr (fun msg => andMem_error_iff h p ps v0 vs hp hps _)
  · rw [← a5]
    exact exists_congr (fun msg => orMem_error_iff h p ps v0 vs hp hps _)
  · rw [← a6]
    exact exists_congr (fun msg => xorMem_error_iff h p ps v0 vs hp hps _)

/-- Witness of C10 amended: vectors of the spaces of dimensions 1 and 2, where
the second argument mismatches and `And` fails. -/
theorem C10_fold_panics_iff_witness :
    ∃ e, (AndMem heapTwo [some 0, some 1]).1 = Except.error e :=
  (C10_fold_panics_iff heapTwo (some 0) [some 1] { sp := space1, val := 1 }
      [{ sp := space2, val := 1 }] rfl rfl).1.2
    ⟨1, by decide, { sp := space2, val := 1 }, rfl, by decide⟩

/-- C13, as stated, fails: `Not` of the zero value `GF2Vector{}` reads `ones`
through the nil space pointer and faults, so there is no `Not(Not(v))`. -/
theorem C13_bare_vector_counterexample :
    heapBare.readVec (some 0) = Except.ok { sp := none, val := 0 } ∧
    NotMem heapBare (some 0) = (Except.error Fault.nilDereference, heapBare) := by
  decide

/-- C13, amended: double complement is the identity on vectors that have a
space: `Not(v)` succeeds, `Not(Not(v))` succeeds, and the vector it returns has
the same space pointer and the same value as `v`; `v` itself is unchanged. -/
theorem C13_not_not (h : Heap) (p : Option Nat) (v : GF2Vector)
    (hp : h.vector p = some v) :
    ∃ c h1 h2, h.readVec p = Except.ok c ∧
      NotMem h p = (Except.ok (some h.vecs.length), h1) ∧
      NotMem h1 (some h.vecs.length) = (Except.ok (some h1.vecs.length), h2) ∧
      h2.readVec (some h1.vecs.length) = Except.ok c ∧
      h2.vector (some h1.vecs.length) = some v ∧ h2.vector p = some v := by
  obtain ⟨c, hc, hs, hval⟩ := Heap.vector_some h p v hp
  obtain ⟨h1, hrun1, hk1, hv1, c1, hc1, hread1⟩ := notMem_sim h p v hp
  rw [hc] at hc1
  injection hc1 with hc1
  subst hc1
  obtain ⟨h2, hrun2, hk2, hv2, c2, hc2, hread2⟩ :=
    notMem_sim h1 (some h.vecs.length) _ hv1
  rw [hread1] at hc2
  injection hc2 with hc2
  subst hc2
  have e : v.sp.ones ^^^ (v.sp.ones ^^^ v.val) = v.val := by
    rw [← Nat.xor_assoc, Nat.xor_self, Nat.zero_xor]
  have hread : h2.readVec (some h1.vecs.length) = Except.ok c := by
    rw [hread2]
    show Except.ok (⟨c.sp, v.sp.ones ^^^ (v.sp.ones ^^^ v.val)⟩ : VecCell) = Except.ok c
    rw [e, ← hval]
  have hvec : h2.vector (some h1.vecs.length) = some v := by
    rw [hv2]
    show some (⟨v.sp, v.sp.ones ^^^ (v.sp.ones ^^^ v.val)⟩ : GF2Vector) = some v
    rw [e]
  exact ⟨c, h1, h2, hc, hrun1, hrun2, hread, hvec,
    Heap.vector_keeps (Heap.keeps_trans hk1 hk2) p v hp⟩

/-- Witness of C13 amended: the vector of value 5 in the space of dimension 3. -/
theorem C13_not_not_witness :
    ∃ c h1 h2, heap3.readVec (some 0) = Except.ok c ∧
      NotMem heap3 (some 0) = (Except.ok (some heap3.vecs.length), h1) ∧
      NotMem h1 (some heap3.vecs.length) = (Except.ok (some h1.vecs.length), h2) ∧
      h2.readVec (some h1.vecs.length) = Except.ok c ∧
      h2.vector (some h1.vecs.length) = some { sp := space3, val := 5 } ∧
      h2.vector (some 0) = some { sp := space3, val := 5 } :=
  C13_not_not heap3 (some 0) { sp := space3, val := 5 } rfl

/-- C16, as stated, fails: for the zero value `GF2Vector{}` as `v`, each of
`And(v, v)`, `Or(v, v)` and `Xor(v, v)` fails with the nil dereference of the
space pointer. -/
theorem C16_bare_vector_counterexample :
    heapBare.readVec (some 0) = Except.ok { sp := none, val := 0 } ∧
    (XorMem heapBare [some 0, some 0]).1 = Except.error Fault.nilDereference ∧
    (AndMem heapBare [some 0, some 0]).1 = Except.error Fault.nilDereference ∧
    (OrMem heapBare [some 0, some 0]).1 = Except.error Fault.nilDereference := by
  decide

/-- C16, amended: for every vector `v` that has a space, `And(v, v)` and
`Or(v, v)` return a vector of `v`'s space with the value of `v`, and
`Xor(v, v)` one with the value 0; none of the three fails, and `v` is
unchanged. -/
theorem C16_idempotent (h : Heap) (p : Option Nat) (v : GF2Vector)
    (hp : h.vector p = some v) :
    (∃ h', AndMem h [p, p] = (Except.ok (some h.vecs.length), h') ∧
      h'.vector (some h.vecs.length) = some { sp := v.sp, val := v.val } ∧
      h'.vector p = some v) ∧
    (∃ h', OrMem h [p, p] = (Except.ok (some h.vecs.length), h') ∧
      h'.vector (some h.vecs.length) = some { sp := v.sp, val := v.val } ∧
      h'.vector p = some v) ∧
    (∃ h', XorMem h [p, p] = (Except.ok (some h.vecs.length), h') ∧
      h'.vector (some h.vecs.length) = some { sp := v.sp, val := 0 } ∧
      h'.vector p = some v) := by
  have hps := map_vector_two h p v hp
  obtain ⟨ha, ho, hx⟩ := pure_idempotent v
  obtain ⟨h1, hrun1, hk1, hv1⟩ := (andMem_sim h p [p] v [v] hp hps).1 _ ha
  obtain ⟨h2, hrun2, hk2, hv2⟩ := (orMem_sim h p [p] v [v] hp hps).1 _ ho
  obtain ⟨h3, hrun3, hk3, hv3⟩ := (xorMem_sim h p [p] v [v] hp hps).1 _ hx
  exact ⟨⟨h1, hrun1, hv1, Heap.vector_keeps hk1 p v hp⟩,
    ⟨h2, hrun2, hv2, Heap.vector_keeps hk2 p v hp⟩,
    ⟨h3, hrun3, hv3, Heap.vector_keeps hk3 p v hp⟩⟩

/-- Witness of C16 amended: `Xor(v, v)` for the vector of value 5 in the space
of dimension 3. -/
theorem C16_idempotent_witness :
    ∃ h', XorMem heap3 [some 0, some 0] = (Except.ok (some heap3.vecs.length), h') ∧
      h'.vector (some heap3.vecs.length) = some { sp := space3, val := 0 } ∧
      h'.vector (some 0) = some { sp := space3, val := 5 } :=
  (C16_idempotent heap3 (some 0) { sp := space3, val := 5 } rfl).2.2

/-- C19, as stated, fails: with the zero value `GF2Vector{}` as both `x` and
`m`, `MaskBits`, `SetBits` and `ToggleBits` fail with the nil dereference of
the space pointer, although `x` and `m` are the same vector and so have no
different dimensions. -/
theorem C19_bare_vector_counterexample :
    heapBare.readVec (some 0) = Except.ok { sp := none, val := 0 } ∧
    (MaskBitsMem heapBare (some 0) (some 0)).1 = Except.error Fault.nilDereference ∧
    (SetBitsMem heapBare (some 0) (some 0)).1 = Except.error Fault.nilDereference ∧
    (ToggleBitsMem heapBare (some 0) (some 0)).1 = Except.error Fault.nilDereference := by
  decide

/-- C19, amended: `MaskBits(x, m)` is `And(x, m)`, `SetBits(x, m)` is `Or(x, m)`
and `ToggleBits(x, m)` is `Xor(x, m)`, on every memory and all pointers; and
for all vectors `x` and `m` that have a space, when the dimensions agree the
results have `x`'s space and the values `x.val AND m.val`, `x.val OR m.val` and
`x.val XOR m.val`, and each of the three fails iff `x` and `m` have different
dimensions. -/
theorem C19_named_binary (h : Heap) (x m : Option Nat) (vx vm : GF2Vector)
    (hx : h.vector x = some vx) (hm : h.vector m = some vm) :
    (∀ (g : Heap) (p q : Option Nat), MaskBitsMem g p q = AndMem g [p, q] ∧
      SetBitsMem g p q = OrMem g [p, q] ∧ ToggleBitsMem g p q = XorMem g [p, q]) ∧
    (vx.sp.dim = vm.sp.dim →
      (∃ h', MaskBitsMem h x m = (Except.ok (some h.vecs.length), h') ∧
        h'.vector (some h.vecs.length) = some { sp := vx.sp, val := vx.val &&& vm.val }) ∧
      (∃ h', SetBitsMem h x m = (Except.ok (some h.vecs.length), h') ∧
        h'.vector (some h.vecs.length) = some { sp := vx.sp, val := vx.val ||| vm.val }) ∧
      (∃ h', ToggleBitsMem h x m = (Except.ok (some h.vecs.length), h') ∧
        h'.vector (some h.vecs.length) = some { sp := vx.sp, val := vx.val ^^^ vm.val })) ∧
    ((∃ e, (MaskBitsMem h x m).1 = Except.error e) ↔ vx.sp.dim ≠ vm.sp.dim) ∧
    ((∃ e, (SetBitsMem h x m).1 = Except.error e) ↔ vx.sp.dim ≠ vm.sp.dim) ∧
    ((∃ e, (ToggleBitsMem h x m).1 = Except.error e) ↔ vx.sp.dim ≠ vm.sp.dim) := by
  have hps := map_vector_two h m vm hm
  obtain ⟨-, -, b1, b2, b3⟩ := pure_named_binary vx vm
  refine ⟨fun g p q => ⟨rfl, rfl, rfl⟩, ?_, ?_, ?_, ?_⟩
  · intro hd
    obtain ⟨h1, hrun1, -, hv1⟩ :=
      (andMem_sim h x [m] vx [vm] hx hps).1 _ (and_two vx vm hd.symm)
    obtain ⟨h2, hrun2, -, hv2⟩ :=
      (orMem_sim h x [m] vx [vm] hx hps).1 _ (or_two vx vm hd.symm)
    obtain ⟨h3, hrun3, -, hv3⟩ :=
      (xorMem_sim h x [m] vx [vm] hx hps).1 _ (xor_two vx vm hd.symm)
    exact ⟨⟨h1, hrun1, hv1⟩, ⟨h2, hrun2, hv2⟩, ⟨h3, hrun3, hv3⟩⟩
  · rw [← b1]
    exact exists_congr (fun e => andMem_error_iff h x [m] vx [vm] hx hps e)
  · rw [← b2]
    exact exists_congr (fun e => orMem_error_iff h x [m] vx [vm] hx hps e)
  · rw [← b3]
    exact exists_congr (fun e => xorMem_error_iff h x [m] vx [vm] hx hps e)

/-- Witness of C19 amended: vectors of the spaces of dimensions 1 and 2, where
`MaskBits` fails. -/
theorem C19_named_binary_witness :
    ∃ e, (MaskBitsMem heapTwo (some 0) (some 1)).1 = Except.error e :=
  (C19_named_binary heapTwo (some 0) (some 1) { sp := space1, val := 1 }
      { sp := space2, val := 1 } rfl rfl).2.2.1.2 (by decide)

/-- C23, as stated, fails: for the zero value `GF2Vector{}` as `v`,
`ScalarProduct(v, v)` fails with the nil dereference of the space pointer,
while `OnesCount(v)` returns 0. -/
theorem C23_bare_vector_counterexample :
    heapBare.readVec (some 0) = Except.ok { sp := none, val := 0 } ∧
    (ScalarProductMem heapBare (some 0) (some 0)).1 = Except.error Fault.nilDereference ∧
    (OnesCountMem heapBare (some 0)).1 = Except.ok 0 := by
  decide

/-- C23, amended: for every vector `v` that has a space,
`ScalarProduct(v, v) == OnesCount(v)`, both returning; and `ScalarProduct` is
symmetric, `ScalarProduct(a, b) == ScalarProduct(b, a)`, both returning, for
all `a`, `b` that have spaces of equal dimension. -/
theorem C23_scalarProduct_norm (h : Heap) (p a b : Option Nat) (v va vb : GF2Vector)
    (hp : h.vector p = some v) (ha : h.vector a = some va) (hb : h.vector b = some vb) :
    (ScalarProductMem h p p).1 = (OnesCountMem h p).1 ∧
    (∃ c, (ScalarProductMem h p p).1 = Except.ok c ∧ (OnesCountMem h p).1 = Except.ok c) ∧
    (va.sp.dim = vb.sp.dim →
      (ScalarProductMem h a b).1 = (ScalarProductMem h b a).1 ∧
      ∃ c, (ScalarProductMem h a b).1 = Except.ok c) := by
  have h1 : (ScalarProductMem h p p).1 = Except.ok (bitsOnesCount v.val) := by
    rw [scalarProductMem_sim h p p v v hp hp rfl, Nat.and_self]
  have h2 : (OnesCountMem h p).1 = Except.ok (bitsOnesCount v.val) := by
    rw [onesCountMem_sim h p v hp]
  refine ⟨by rw [h1, h2], ⟨_, h1, h2⟩, ?_⟩
  intro hd
  have h3 := scalarProductMem_sim h a b va vb ha hb hd.symm
  have h4 := scalarProductMem_sim h b a vb va hb ha hd
  refine ⟨?_, _, h3⟩
  rw [h3, h4, Nat.and_comm]

/-- Witness of C23 amended: the vector of value 5 in the space of dimension 3,
whose scalar product with itself and whose count of ones are both 2. -/
theorem C23_scalarProduct_norm_witness :
    (ScalarProductMem heap3 (some 0) (some 0)).1 = (OnesCountMem heap3 (some 0)).1 ∧
    (OnesCountMem heap3 (some 0)).1 = Except.ok 2 :=
  ⟨(C23_scalarProduct_norm heap3 (some 0) (some 0) (some 0) { sp := space3, val := 5 }
      { sp := space3, val := 5 } { sp := space3, val := 5 } rfl rfl rfl).1, by decide⟩

/-- C29, as stated, fails: `And`, `Or` and `Xor` of a vector of the space of
dimension 2 and the zero value `GF2Vector{}`, a non-empty list of present
vectors, fail with the nil dereference of the second argument's space pointer,
which is not the dimension mismatch. -/
theorem C29_bare_vector_counterexample :
    heapMixed.vector (some 0) = some { sp := space2, val := 1 } ∧
    heapMixed.readVec (some 1) = Except.ok { sp := none, val := 0 } ∧
    (AndMem heapMixed [some 0, some 1]).1 = Except.error Fault.nilDereference ∧
    (OrMem heapMixed [some 0, some 1]).1 = Except.error Fault.nilDereference ∧
    (XorMem heapMixed [some 0, some 1]).1 = Except.error Fault.nilDereference := by
  decide

/-- C29, amended: with an empty argument list, `And()`, `Or()` and `Xor()`
return no vector: the read of `x[0]` faults (index out of range); for every
non-empty list whose first vector is present no failure is an index fault; and
for every non-empty list of present vectors each of which has a space, the
only possible failure is the dimension mismatch, with the panic's text. -/
theorem C29_empty_and_first_read (h : Heap) (p : Option Nat) (ps : List (Option Nat))
    (v0 : GF2Vector) (vs : List GF2Vector) (hp : h.vector p = some v0)
    (hps : ps.map h.vector = vs.map some) :
    AndMem h [] = (Except.error (Fault.indexOutOfRange 0 0), h) ∧
    OrMem h [] = (Except.error (Fault.indexOutOfRange 0 0), h) ∧
    XorMem h [] = (Except.error (Fault.indexOutOfRange 0 0), h) ∧
    (∀ (q : Option Nat) (qs : List (Option Nat)) (c : VecCell) (i n : Nat),
      h.readVec q = Except.ok c →
      (AndMem h (q :: qs)).1 ≠ Except.error (Fault.indexOutOfRange i n) ∧
      (OrMem h (q :: qs)).1 ≠ Except.error (Fault.indexOutOfRange i n) ∧
      (XorMem h (q :: qs)).1 ≠ Except.error (Fault.indexOutOfRange i n)) ∧
    (∀ e, (AndMem h (p :: ps)).1 = Except.error e →
      ∃ y, y ∈ vs ∧ y.sp.dim ≠ v0.sp.dim ∧
        e = Fault.panic ("And: incompatible vector spaces: z.dim = " ++
          toString v0.sp.dim ++ " != " ++ toString y.sp.dim ++ " = y.dim")) ∧
    (∀ e, (OrMem h (p :: ps)).1 = Except.error e →
      ∃ y, y ∈ vs ∧ y.sp.dim ≠ v0.sp.dim ∧
        e = Fault.panic ("Or: incompatible vector spaces: z.dim = " ++
          toString v0.sp.dim ++ " != " ++ toString y.sp.dim ++ " = y.dim")) ∧
    (∀ e, (XorMem h (p :: ps)).1 = Except.error e →
      ∃ y, y ∈ vs ∧ y.sp.dim ≠ v0.sp.dim ∧
        e = Fault.panic ("Xor: incompatible vector spaces: z.dim = " ++
          toString v0.sp.dim ++ " != " ++ toString y.sp.dim ++ " = y.dim")) := by
  obtain ⟨-, -, -, -, a5, a6, a7⟩ := pure_empty_and_first_read
  refine ⟨rfl, rfl, rfl, ?_, ?_, ?_, ?_⟩
  · intro q qs c i n hq
    exact ⟨andMem_not_index h q qs c hq i n, orMem_not_index h q qs c hq i n,
      xorMem_not_index h q qs c hq i n⟩
  · intro e he
    exact a5 v0 vs e ((andMem_error_iff h p ps v0 vs hp hps e).1 he)
  · intro e he
    exact a6 v0 vs e ((orMem_error_iff h p ps v0 vs hp hps e).1 he)
  · intro e he
    exact a7 v0 vs e ((xorMem_error_iff h p ps v0 vs hp hps e).1 he)

/-- Witness of C29 amended: vectors of the spaces of dimensions 1 and 2, where
the failure of `And` is the dimension mismatch. -/
theorem C29_empty_and_first_read_witness :
    (AndMem heapTwo [some 0, some 1]).1 = Except.error (Fault.panic
      "And: incompatible vector spaces: z.dim = 1 != 2 = y.dim") ∧
    ∃ y, y ∈ [({ sp := space2, val := 1 } : GF2Vector)] ∧ y.sp.dim ≠ space1.dim ∧
      Fault.panic "And: incompatible vector spaces: z.dim = 1 != 2 = y.dim" =
        Fault.panic ("And: incompatible vector spaces: z.dim = " ++
          toString space1.dim ++ " != " ++ toString y.sp.dim ++ " = y.dim") :=
  ⟨by decide,
    (C29_empty_and_first_read heapTwo (some 0) [some 1] { sp := space1, val := 1 }
      [{ sp := space2, val := 1 }] rfl rfl).2.2.2.2.1 _ (by decide)⟩

end Gf2vs
